import Mathlib

/-!
Shallow embedding of the screen/text engine of the repository
(src/src/app/terp/screenlib.rs) in Lean 4, together with proofs about the
claims on its specification.

Modelling conventions:
* Rust usize/i32 values are modelled as Nat.  All widths and heights that
  occur in the verified scenarios are far below 2^31, so the usize -> i32 ->
  usize round trips in the source are the identity there.
* Rust Vec<char> and String are modelled as List Char; Vec<GridChar> as
  List GridChar.  Rust indexed writes (v[i] = x) are modelled by List.set,
  reads by List.getD with the default that the source would have stored
  there (' ' for the scroll buffer).  An out-of-bounds write or read, or a
  usize subtraction below zero, panics in a Rust debug build; the model
  makes them a no-op / a truncated subtraction, and every theorem below is
  only invoked on states where the source itself would not panic.
* The char-by-char loops of the source become structural recursion or folds.
-/

namespace Screenlib

def GRID_WIDTH : Nat := 130
def GRID_HEIGHT : Nat := 25
def MIN_WIDTH : Nat := 60
def MIN_HEIGHT : Nat := 14
def MAX_RIGHT_STATUS_WIDTH : Nat := 11
def STATUS_BAR_HEIGHT : Nat := 1
def MIN_CHAR : Char := Char.ofNat 32
def MAX_CHAR : Char := Char.ofNat 126
def BACKSPACE : Char := Char.ofNat 8
def SCROLL_BUFFER_INITIAL_SIZE : Nat := 20000

inductive ScreenState where
  | Output
  | WaitingForLine
  | WaitingForMore
  | WaitingForMoreThenLine
deriving DecidableEq, Repr

inductive WrapStyle where
  | Wrap
  | WrapOnPunctuation
deriving DecidableEq, Repr

inductive WindowLayout where
  | Upper
  | Lower
deriving DecidableEq, Repr

inductive ZCodeVersion where
  | V1
  | V2
  | V3
deriving DecidableEq, Repr

set_option maxRecDepth 100000 in
set_option maxRecDepth 100000 in
set_option maxRecDepth 100000 in
/-- is_wrap_char: true if the char should be wrapped after. -/
def isWrapChar (c : Char) : Bool :=
  c = ' ' ∨ c = ',' ∨ c = '!' ∨ c = ':' ∨ c = ';' ∨ c = '?' ∨ c = '.' ∨ c = '-'

structure ScreenWindow where
  top_index : Nat
  bottom_index : Nat
deriving DecidableEq, Repr

def ScreenWindow.height (w : ScreenWindow) : Nat :=
  if w.bottom_index < w.top_index then 0 else w.bottom_index - w.top_index

structure LineIndex where
  start : Nat
  length : Nat
deriving DecidableEq, Repr

structure TextLocation where
  line_start : Nat
  char_index : Nat
  line_width : Nat
deriving DecidableEq, Repr

def TextLocation.empty : TextLocation := ⟨0, 0, 0⟩

def TextLocation.calculateAbsoluteLocation (t : TextLocation) : Nat :=
  t.line_start * t.line_width + t.char_index

structure StatusBar where
  status_left : List Char
  status_right : List Char
deriving DecidableEq, Repr

inductive CharStyle where
  | Normal
  | Inverted
deriving DecidableEq, Repr

structure GridChar where
  ch : Char
  style : CharStyle
deriving DecidableEq, Repr

structure CharGrid where
  grid : List GridChar
  width : Nat
  height : Nat
  cursor : Nat
  default_char : Char
  current_style : CharStyle
deriving DecidableEq, Repr

namespace CharGrid

def create (width height : Nat) : CharGrid :=
  { width, height, cursor := 0, default_char := ' ', current_style := CharStyle.Normal,
    grid := List.replicate (width * height) ⟨' ', CharStyle.Normal⟩ }

/-- addch: "print" a char at the current cursor position.  For a newline the
source advances the cursor with a loop (cursor += 1 until cursor % width = 0);
the closed form below is that loop's result. -/
def addch (g : CharGrid) (ch : Char) : CharGrid :=
  if ch = '\n' then
    if g.cursor % g.width = 0 then g
    else { g with cursor := g.width * (g.cursor / g.width + 1) }
  else
    { g with grid := g.grid.set g.cursor ⟨ch, g.current_style⟩, cursor := g.cursor + 1 }

def addstr (g : CharGrid) (s : List Char) : CharGrid :=
  s.foldl addch g

def toIndex (g : CharGrid) (col row : Nat) : Nat :=
  g.width * row + col

def mv (g : CharGrid) (row col : Nat) : CharGrid :=
  { g with cursor := g.toIndex col row }

def windowClear (g : CharGrid) : CharGrid :=
  { g with grid := g.grid.map (fun _ => ⟨g.default_char, CharStyle.Normal⟩) }

/-- clrtoeol: clear to the end of the current line.  The source's do-while
loop writes default_char (keeping the style) into cursor .. cursor+count-1
where count = width - cursor % width. -/
def clrtoeol (g : CharGrid) : CharGrid :=
  if g.width = 0 then g
  else
    let count := g.width - g.cursor % g.width
    let newgrid := (List.range count).foldl
      (fun gr i =>
        gr.set (g.cursor + i) ⟨g.default_char, (gr.getD (g.cursor + i) ⟨' ', CharStyle.Normal⟩).style⟩)
      g.grid
    { g with grid := newgrid }

def setReverse (g : CharGrid) (b : Bool) : CharGrid :=
  { g with current_style := if b then CharStyle.Inverted else CharStyle.Normal }

def getCurYX (g : CharGrid) : Nat × Nat :=
  (g.cursor / g.width, g.cursor % g.width)

end CharGrid

structure Screen where
  grid : CharGrid
  version : ZCodeVersion
  state : ScreenState
  use_more : Bool
  redraw_enabled : Bool
  wrap_style : WrapStyle
  validate_size : Bool
  line_indexes : List LineIndex
  scroll_buffer : List Char
  scroll_buffer_length : Nat
  window_width : Nat
  window_height : Nat
  scroll_window_top : Nat
  last_input_buffer : List Char
  max_input_length : Nat
  input_start_location : TextLocation
  status_window : ScreenWindow
  upper_window : ScreenWindow
  lower_window : ScreenWindow
  selected_window : WindowLayout
  upper_cursor : TextLocation
  status : StatusBar

def create : Screen :=
  { grid := CharGrid.create GRID_WIDTH GRID_HEIGHT
    version := ZCodeVersion.V1
    line_indexes := []
    scroll_buffer := []
    scroll_buffer_length := 0
    window_width := 0
    window_height := 0
    validate_size := true
    status := ⟨[], []⟩
    state := ScreenState.Output
    last_input_buffer := []
    max_input_length := 0
    use_more := false
    scroll_window_top := 0
    wrap_style := WrapStyle.WrapOnPunctuation
    input_start_location := TextLocation.empty
    status_window := ⟨0, STATUS_BAR_HEIGHT⟩
    upper_window := ⟨STATUS_BAR_HEIGHT, STATUS_BAR_HEIGHT⟩
    lower_window := ⟨STATUS_BAR_HEIGHT, 0⟩
    selected_window := WindowLayout.Lower
    upper_cursor := TextLocation.empty
    redraw_enabled := true }

/-- Replace the last element of a list (the source mutates
line_indexes.last_mut()).  On the empty list the source would panic; the
model leaves the list unchanged. -/
def updateLast (f : LineIndex → LineIndex) : List LineIndex → List LineIndex
  | [] => []
  | [x] => [f x]
  | x :: y :: t => x :: updateLast f (y :: t)

def Screen.getScreenWidth (s : Screen) : Nat := s.window_width

def Screen.getScreenHeight (s : Screen) : Nat := s.window_height

def isSizeValid (s : Screen) : Bool :=
  if ¬ s.validate_size then true
  else MIN_HEIGHT ≤ s.getScreenHeight ∧ MIN_WIDTH ≤ s.getScreenWidth

/-- should_wrap: true if cursor is at end of line and printed text should wrap. -/
def shouldWrap (s : Screen) : Bool :=
  match s.line_indexes.getLast? with
  | none => false
  | some l => s.getScreenWidth ≤ l.length

/-- get_cursor_location: the cursor is defined as the end of the last line. -/
def getCursorLocation (s : Screen) : TextLocation :=
  { line_start := s.line_indexes.length
    line_width := s.getScreenWidth
    char_index := (s.line_indexes.getLastD ⟨0, 0⟩).length }

/-- calculate_bottom_scroll_window. -/
def calculateBottomScrollWindow (s : Screen) : Nat :=
  if s.lower_window.top_index ≠ s.upper_window.bottom_index
      ∨ s.line_indexes.length < s.lower_window.height then 0
  else s.line_indexes.length - s.lower_window.height

/-- The backward scan of update_line_indexes_for_char: for i in
(0..length).rev(), on the first i with is_wrap_char(buffer[i + start]) set
length_offset = length - i - 1 and break; 0 if no break char is found. -/
def scanOffsetGo (buf : List Char) (start length : Nat) : Nat → Nat
  | 0 => 0
  | i + 1 =>
    if isWrapChar (buf.getD (i + start) ' ') then length - i - 1
    else scanOffsetGo buf start length i

def scanOffset (buf : List Char) (start length : Nat) : Nat :=
  scanOffsetGo buf start length length

/-- pop_line: remove the last line of text from the screen and update the
scroll window. -/
def popLine (s : Screen) : Screen :=
  if s.line_indexes.isEmpty then s
  else
    let s := { s with line_indexes := s.line_indexes.dropLast }
    if s.lower_window.top_index ≠ s.upper_window.bottom_index then
      { s with lower_window := { s.lower_window with top_index := s.lower_window.top_index + 1 } }
    else
      { s with scroll_window_top := s.scroll_window_top - 1 }

/-- scroll_to_bottom. -/
def scrollToBottom (s : Screen) : Screen :=
  if s.lower_window.top_index = s.upper_window.bottom_index
      ∧ s.lower_window.height < s.line_indexes.length then
    { s with scroll_window_top := s.line_indexes.length - s.lower_window.height }
  else s

/-- push_line: add a new line to the bottom of the screen and update the
scroll window. -/
def pushLine (scroll : Bool) (length_offset start_offset : Nat) (s : Screen) : Screen :=
  let screen_width := s.getScreenWidth
  let last_index := s.line_indexes.getLastD ⟨0, 0⟩
  let new_length := last_index.length - length_offset
  let new_start := last_index.start + new_length + start_offset
  let lis := updateLast (fun li => { li with length := min (li.length - length_offset) screen_width })
    s.line_indexes
  let s := { s with line_indexes := lis ++ [⟨new_start, length_offset⟩] }
  if scroll ∧ s.lower_window.height ≤ s.line_indexes.length then
    if s.lower_window.top_index ≠ s.upper_window.bottom_index then
      { s with lower_window := { s.lower_window with top_index := s.lower_window.top_index - 1 } }
    else
      { s with scroll_window_top := s.scroll_window_top + 1 }
  else s

/-- switch_to_more_state_if_needed. -/
def switchToMoreStateIfNeeded (s : Screen) : Screen :=
  if s.use_more
      ∧ s.lower_window.height < s.line_indexes.length - s.input_start_location.line_start
      ∧ s.state = ScreenState.Output then
    { s with state := ScreenState.WaitingForMore
             scroll_window_top := s.line_indexes.length - s.lower_window.height - 2 }
  else s

/-- update_line_indexes_for_char. -/
def updateLineIndexesForChar (c : Char) (s : Screen) : Screen :=
  let last := s.line_indexes.getLastD ⟨0, 0⟩
  let length_offset :=
    if c = '\n' then 0
    else if shouldWrap s ∧ s.wrap_style = WrapStyle.WrapOnPunctuation ∧ c ≠ ' ' then
      scanOffset s.scroll_buffer last.start last.length
    else 0
  let start_offset := if c = '\n' then 1 else 0
  let push_line := c = '\n' ∨ shouldWrap s
  let s :=
    if push_line then
      switchToMoreStateIfNeeded
        (pushLine (s.state = ScreenState.Output ∨ s.state = ScreenState.WaitingForLine)
          length_offset start_offset s)
    else s
  if c ≠ '\n' then
    { s with line_indexes := updateLast (fun li => { li with length := li.length + 1 }) s.line_indexes }
  else s

/-- push_scroll_buffer: add a char to the scroll buffer, growing the
pre-allocated vector when it is full. -/
def pushScrollBuffer (c : Char) (s : Screen) : Screen :=
  let buf :=
    if s.scroll_buffer_length + 1 = s.scroll_buffer.length then
      s.scroll_buffer ++ List.replicate SCROLL_BUFFER_INITIAL_SIZE ' '
    else s.scroll_buffer
  { s with scroll_buffer := buf.set s.scroll_buffer_length c
           scroll_buffer_length := s.scroll_buffer_length + 1 }

/-- pop_scroll_buffer (the returned char is ignored by every caller). -/
def popScrollBuffer (s : Screen) : Screen :=
  if 0 < s.scroll_buffer_length then
    { s with scroll_buffer_length := s.scroll_buffer_length - 1 }
  else s

/-- clear_window: clear the text from the rows top_index..bottom_index. -/
def clearWindow (top_index bottom_index : Nat) (s : Screen) : Screen :=
  let g := (List.range (bottom_index - top_index)).foldl
    (fun g i => ((g.mv (top_index + i) 0)).clrtoeol) s.grid
  { s with grid := g }

/-- draw_status: update the status bar with the provided left and right
halves, preserving the previous cursor location. -/
def drawStatus (left right : List Char) (s : Screen) : Screen :=
  let s := { s with status := ⟨left, right⟩ }
  let cursor_position := s.grid.getCurYX
  let window_width := s.grid.width
  let left_edge := window_width - MAX_RIGHT_STATUS_WIDTH - 1
  let g := (s.grid.setReverse true).mv s.status_window.top_index 0
  let g :=
    if left.length < left_edge then
      (g.addstr left).addstr (List.replicate (left_edge - left.length) ' ')
    else
      (g.addstr (left.take (left_edge - 4))).addstr "... ".data
  let g :=
    if right.length < MAX_RIGHT_STATUS_WIDTH then
      (g.addstr (List.replicate (window_width - right.length - left_edge) ' ')).addstr right
    else
      g.addstr (right.take (MAX_RIGHT_STATUS_WIDTH + 1))
  let g := (g.setReverse false).mv cursor_position.1 cursor_position.2
  { s with grid := g }

/-- clear. -/
def clear (s : Screen) : Screen :=
  let s := { s with grid := s.grid.windowClear }
  let s := drawStatus [] [] s
  { s with grid := s.grid.mv STATUS_BAR_HEIGHT 0 }

def tooSmallMessage (w h : Nat) : List Char :=
  ("WINDOW TOO SMALL.\nMINIMUM SIZE " ++ toString MIN_WIDTH ++ "x" ++ toString MIN_HEIGHT
    ++ "\nCURRENT SIZE " ++ toString w ++ "x" ++ toString h).data

/-- draw_line: draw the line represented by the line index to screen.  In
wrap-on-punctuation mode a space in the first column is not printed. -/
def drawLine (li : LineIndex) (s : Screen) : Screen :=
  let g := (List.range li.length).foldl
    (fun g j =>
      if s.wrap_style ≠ WrapStyle.WrapOnPunctuation ∨ j ≠ 0
          ∨ s.scroll_buffer.getD li.start ' ' ≠ ' ' then
        g.addch (s.scroll_buffer.getD (j + li.start) ' ')
      else g)
    s.grid
  { s with grid := g }

/-- redraw: redraw the screen (other than the status bar). -/
def redraw (s : Screen) : Screen :=
  if ¬ isSizeValid s then
    let s := clear s
    let s := { s with grid := s.grid.mv 0 0 }
    { s with grid := s.grid.addstr (tooSmallMessage s.getScreenWidth s.getScreenHeight) }
  else if s.redraw_enabled then
    let max_line := min s.lower_window.height s.line_indexes.length
    (List.range max_line).foldl
      (fun s i =>
        let s := { s with grid := ((s.grid.mv (i + s.lower_window.top_index) 0)).clrtoeol }
        if i + 1 < max_line then
          drawLine (s.line_indexes.getD (i + s.scroll_window_top) ⟨0, 0⟩) s
        else
          match s.state with
          | ScreenState.WaitingForMore | ScreenState.WaitingForMoreThenLine =>
            { s with grid := s.grid.addstr "[MORE]".data }
          | _ => drawLine (s.line_indexes.getD (i + s.scroll_window_top) ⟨0, 0⟩) s)
      s
  else s

/-- scroll_page_up. -/
def scrollPageUp (s : Screen) : Screen :=
  let height := s.getScreenHeight
  let s :=
    if height ≤ s.scroll_window_top then
      { s with scroll_window_top := s.scroll_window_top - height }
    else { s with scroll_window_top := 0 }
  redraw s

/-- scroll_page_down. -/
def scrollPageDown (s : Screen) : Screen :=
  let t := min (s.scroll_window_top + s.getScreenHeight) (calculateBottomScrollWindow s)
  redraw { s with scroll_window_top := t }

/-- print_to_lower, for one char of the printed string. -/
def printToLowerChar (c : Char) (s : Screen) : Screen :=
  let s := updateLineIndexesForChar c s
  if c = '\n' then pushScrollBuffer c s
  else if c < MIN_CHAR ∨ MAX_CHAR < c then pushScrollBuffer '?' s
  else pushScrollBuffer c s

/-- print_to_lower: print to the end of the lower window. -/
def printToLower (str : List Char) (s : Screen) : Screen :=
  let s := str.foldl (fun s c => printToLowerChar c s) s
  match s.state with
  | ScreenState.Output => redraw s
  | ScreenState.WaitingForMore => redraw s
  | _ => s

/-- print_to_upper, inner loop (the source breaks out of the whole loop when
a newline cannot advance past the upper window's bottom). -/
def printToUpperGo : List Char → Screen → Screen
  | [], s => s
  | c :: cs, s =>
    if c = '\n' then
      if s.upper_cursor.line_start < s.upper_window.bottom_index then
        printToUpperGo cs
          { s with upper_cursor :=
            { s.upper_cursor with line_start := s.upper_cursor.line_start + 1, char_index := 0 } }
      else s
    else
      if s.upper_cursor.char_index < s.upper_cursor.line_width then
        let g := (s.grid.mv s.upper_cursor.line_start s.upper_cursor.char_index).addch c
        printToUpperGo cs
          { s with grid := g
                   upper_cursor := { s.upper_cursor with char_index := s.upper_cursor.char_index + 1 } }
      else printToUpperGo cs s

/-- print_to_upper: print at the cursor location in the upper window. -/
def printToUpper (str : List Char) (s : Screen) : Screen :=
  if 0 < s.upper_window.height then
    if s.upper_window.top_index ≤ s.upper_cursor.line_start
        ∧ s.upper_cursor.line_start ≤ s.upper_window.bottom_index then
      printToUpperGo str s
    else s
  else s

/-- print: print the provided text at the current cursor location in the
selected window. -/
def print (str : List Char) (s : Screen) : Screen :=
  match s.selected_window with
  | WindowLayout.Lower => printToLower str s
  | WindowLayout.Upper => printToUpper str s

def printChar (c : Char) (s : Screen) : Screen :=
  print [c] s

/-- erase_chars, inner loop. -/
def eraseCharsGo : Nat → Screen → Screen
  | 0, s => s
  | n + 1, s =>
    let s :=
      if 0 < (s.line_indexes.getLastD ⟨0, 0⟩).length then
        let s := popScrollBuffer s
        { s with line_indexes := updateLast (fun li => { li with length := li.length - 1 }) s.line_indexes }
      else
        let s := popLine s
        { s with scroll_buffer_length := s.scroll_buffer_length - 1 }
    eraseCharsGo n s

/-- erase_chars: erase char_count chars, working backwards from cursor. -/
def eraseChars (char_count : Nat) (s : Screen) : Screen :=
  redraw (eraseCharsGo char_count s)

/-- process_input: returns the screen and the bool result of the source
function (true exactly when a submitted line became available). -/
def processInput (c : Char) (s : Screen) : Screen × Bool :=
  match s.state with
  | ScreenState.WaitingForMore =>
    let s := scrollPageDown s
    let s :=
      if s.scroll_window_top = calculateBottomScrollWindow s then
        { s with state := ScreenState.Output }
      else s
    (redraw s, false)
  | ScreenState.WaitingForMoreThenLine =>
    let s := scrollPageDown s
    let s :=
      if s.scroll_window_top = calculateBottomScrollWindow s then
        { s with state := ScreenState.WaitingForLine }
      else s
    (redraw s, false)
  | ScreenState.WaitingForLine =>
    let s := { s with scroll_window_top := calculateBottomScrollWindow s }
    if c = '\n' then
      let s := { s with state := ScreenState.Output }
      (printChar c s, true)
    else if c = BACKSPACE then
      if ¬ s.last_input_buffer.isEmpty
          ∧ s.input_start_location.calculateAbsoluteLocation
            < (getCursorLocation s).calculateAbsoluteLocation then
        let s := { s with last_input_buffer := s.last_input_buffer.dropLast }
        (eraseChars 1 s, false)
      else (s, false)
    else
      if (getCursorLocation s).calculateAbsoluteLocation
          - s.input_start_location.calculateAbsoluteLocation < s.max_input_length then
        let s := { s with last_input_buffer := s.last_input_buffer ++ [c] }
        let s := printChar c s
        (redraw s, false)
      else (s, false)
  | ScreenState.Output => (s, false)

def stopWaitingForInput (s : Screen) : Screen :=
  { s with state := ScreenState.Output }

def waitingForInput (s : Screen) : Bool :=
  s.state ≠ ScreenState.Output

/-- last_input: return last input entered by player. -/
def lastInput (s : Screen) : List Char :=
  s.last_input_buffer

/-- wait_for_line. -/
def waitForLine (max_input_length : Nat) (s : Screen) : Screen :=
  let s := { s with max_input_length := max_input_length
                    last_input_buffer := []
                    input_start_location := getCursorLocation s }
  match s.state with
  | ScreenState.WaitingForMore => { s with state := ScreenState.WaitingForMoreThenLine }
  | _ => { s with state := ScreenState.WaitingForLine }

/-- use_more setter. -/
def useMore (b : Bool) (s : Screen) : Screen :=
  { s with use_more := b }

/-- enable_redraw. -/
def enableRedraw (s : Screen) : Screen :=
  redraw { s with redraw_enabled := true }

/-- split_window. -/
def splitWindow (lines : Nat) (s : Screen) : Screen :=
  if s.selected_window = WindowLayout.Lower then
    let s :=
      if lines = 0 then
        let s := { s with upper_window := { s.upper_window with top_index := STATUS_BAR_HEIGHT } }
        let new_bottom := s.upper_window.top_index
        let s :=
          if s.upper_window.bottom_index = s.lower_window.top_index then
            { s with lower_window := { s.lower_window with top_index := new_bottom } }
          else s
        { s with upper_window := { s.upper_window with bottom_index := s.upper_window.top_index } }
      else
        let tmplines := min lines (s.getScreenHeight - STATUS_BAR_HEIGHT - 1)
        let new_bottom := s.upper_window.top_index + tmplines
        let s :=
          if s.upper_window.bottom_index = s.lower_window.top_index then
            { s with lower_window := { s.lower_window with top_index := new_bottom } }
          else s
        let s := { s with upper_window := { s.upper_window with bottom_index := new_bottom } }
        clearWindow s.upper_window.top_index s.upper_window.bottom_index s
    redraw (scrollToBottom s)
  else s

/-- set_window: select a window. -/
def setWindow (window : WindowLayout) (s : Screen) : Screen :=
  match window with
  | WindowLayout.Upper =>
    { s with selected_window := window
             upper_cursor := { line_start := s.upper_window.top_index, char_index := 0,
                               line_width := s.getScreenWidth } }
  | WindowLayout.Lower => { s with selected_window := window }

/-- clear_to_bottom. -/
def clearToBottom (s : Screen) : Screen :=
  let s := clear s
  let s := drawStatus [] [] s
  { s with lower_window := { s.lower_window with top_index := s.lower_window.bottom_index - 1 } }

/-- The body of recalculate_and_redraw when the recalculation fires. -/
def recalcBody (s : Screen) : Screen :=
  let old_status_left := s.status.status_left
  let old_status_right := s.status.status_right
  let s := { s with window_width := s.grid.width, window_height := s.grid.height }
  let s := { s with status_window := ⟨0, STATUS_BAR_HEIGHT⟩ }
  let old_height := s.upper_window.height
  let s := { s with upper_window := ⟨STATUS_BAR_HEIGHT, STATUS_BAR_HEIGHT + old_height⟩ }
  let s := { s with lower_window := ⟨s.upper_window.bottom_index, s.getScreenHeight⟩ }
  let s := clearToBottom s
  let s := { s with scroll_window_top := calculateBottomScrollWindow s }
  let use_more_preserved := s.use_more
  let state_preserved := s.state
  let s := { s with state := ScreenState.Output }
  let s := useMore false s
  let s := { s with line_indexes := [⟨0, 0⟩] }
  let s := (List.range s.scroll_buffer_length).foldl
    (fun s i => updateLineIndexesForChar (s.scroll_buffer.getD i ' ') s) s
  let s := useMore use_more_preserved s
  let s := { s with state := state_preserved }
  let s := drawStatus old_status_left old_status_right s
  { s with input_start_location := getCursorLocation s }

/-- recalculate_and_redraw. -/
def recalculateAndRedraw (force : Bool) (s : Screen) : Screen :=
  if s.window_width ≠ s.grid.width ∨ s.window_height ≠ s.grid.height ∨ force then
    recalcBody s
  else s

/-- The source's Vec::resize_with(n, || d). -/
def resizeWith (l : List Char) (n : Nat) (d : Char) : List Char :=
  l.take n ++ List.replicate (n - l.length) d

/-- initialize (renamed: initialize is a Lean keyword). -/
def initializeScreen (version : ZCodeVersion) (s : Screen) : Screen :=
  let s := { s with version := version
                    scroll_buffer := resizeWith s.scroll_buffer SCROLL_BUFFER_INITIAL_SIZE ' ' }
  recalculateAndRedraw true s

/-- resize. -/
def resize (width height : Nat) (s : Screen) : Screen :=
  recalculateAndRedraw true { s with grid := CharGrid.create width height }

/-- The screen set up exactly as in the source's unit tests:
create(); initialize(V3); validate_size = false; wrap_style = style;
resize(width, height). -/
def mkScreen (width height : Nat) (style : WrapStyle) : Screen :=
  let s := initializeScreen ZCodeVersion.V3 create
  let s := { s with validate_size := false, wrap_style := style }
  resize width height s

/-- mkScreen with the pre-allocated scroll buffer truncated to 64 chars.
The scenarios below never store more than 63 chars, so the growth branch of
push_scroll_buffer is never reached and every operation behaves exactly as
on mkScreen's 20000-char pre-allocation; the truncation only keeps the
kernel evaluation of the length checks shallow. -/
def testScreen (width height : Nat) (style : WrapStyle) : Screen :=
  { mkScreen width height style with scroll_buffer := List.replicate 64 ' ' }

/-!  ## Pure form of the wrap algorithm

pureStep is the line-index component of update_line_indexes_for_char,
as a pure function of exactly the data that function reads: the screen
width, the wrap style, the scroll buffer and the current line indexes.
rebuild is the replay loop of recalculate_and_redraw on that pure form. -/

/-- shouldWrap as a pure function of the width and the line indexes. -/
def pureShouldWrap (w : Nat) (lis : List LineIndex) : Bool :=
  match lis.getLast? with
  | none => false
  | some l => w ≤ l.length

def pureStep (w : Nat) (st : WrapStyle) (buf : List Char) (lis : List LineIndex)
    (c : Char) : List LineIndex :=
  let last := lis.getLastD ⟨0, 0⟩
  let sw : Bool := pureShouldWrap w lis
  let length_offset :=
    if c = '\n' then 0
    else if sw ∧ st = WrapStyle.WrapOnPunctuation ∧ c ≠ ' ' then
      scanOffset buf last.start last.length
    else 0
  let start_offset := if c = '\n' then 1 else 0
  let lis :=
    if c = '\n' ∨ sw then
      (updateLast (fun li => { li with length := min (li.length - length_offset) w }) lis)
        ++ [⟨last.start + (last.length - length_offset) + start_offset, length_offset⟩]
    else lis
  if c ≠ '\n' then updateLast (fun li => { li with length := li.length + 1 }) lis else lis

def rebuild (w : Nat) (st : WrapStyle) (buf : List Char) (n : Nat) : List LineIndex :=
  (List.range n).foldl (fun lis i => pureStep w st buf lis (buf.getD i ' ')) [⟨0, 0⟩]

/-- The char that print_to_lower actually stores for a printed char. -/
def storedChar (c : Char) : Char :=
  if c = '\n' then c
  else if c < MIN_CHAR ∨ MAX_CHAR < c then '?'
  else c

/-- Coherence: the line indexes are exactly the replay of the scroll buffer
at the current width (the round-trip invariant of the spec). -/
def Coherent (s : Screen) : Prop :=
  s.line_indexes = rebuild s.window_width s.wrap_style s.scroll_buffer s.scroll_buffer_length

/-- The pre-allocated scroll buffer always has room for the next char. -/
def CapOK (s : Screen) : Prop :=
  s.scroll_buffer_length < s.scroll_buffer.length

/-!  ## Operations touching only the grid and the status bar -/

/-- t equals s except possibly in the grid and the saved status strings. -/
def GSonly (s t : Screen) : Prop :=
  t = { s with grid := t.grid, status := t.status }

theorem GSonly.refl (s : Screen) : GSonly s s := rfl

theorem GSonly.trans {s t u : Screen} (h1 : GSonly s t) (h2 : GSonly t u) : GSonly s u := by
  unfold GSonly at *
  rw [h2, h1]

theorem GSonly.foldl {α : Type} {f : Screen → α → Screen}
    (hf : ∀ x a, GSonly x (f x a)) (l : List α) (s : Screen) :
    GSonly s (l.foldl f s) := by
  induction l generalizing s with
  | nil => exact GSonly.refl s
  | cons a t ih => exact GSonly.trans (hf s a) (ih (f s a))

theorem gsonly_drawLine (li : LineIndex) (s : Screen) : GSonly s (drawLine li s) := rfl

theorem gsonly_drawStatus (l r : List Char) (s : Screen) : GSonly s (drawStatus l r s) := rfl

theorem gsonly_clear (s : Screen) : GSonly s (clear s) := rfl

theorem gsonly_clearWindow (a b : Nat) (s : Screen) : GSonly s (clearWindow a b s) := rfl

theorem gsonly_redraw (s : Screen) : GSonly s (redraw s) := by
  unfold redraw
  split
  · exact GSonly.refl _
  · split
    · refine GSonly.foldl (fun x a => ?_) _ s
      dsimp only
      refine GSonly.trans
        (t := { x with grid := ((x.grid.mv (a + x.lower_window.top_index) 0)).clrtoeol }) rfl ?_
      split <;> (try split) <;> first
        | exact gsonly_drawLine _ _
        | rfl
    · exact GSonly.refl s

theorem GSonly.line_indexes {s t : Screen} (h : GSonly s t) : t.line_indexes = s.line_indexes := by
  rw [h]

theorem GSonly.scroll_buffer {s t : Screen} (h : GSonly s t) : t.scroll_buffer = s.scroll_buffer := by
  rw [h]

theorem GSonly.scroll_buffer_length {s t : Screen} (h : GSonly s t) :
    t.scroll_buffer_length = s.scroll_buffer_length := by rw [h]

theorem GSonly.state {s t : Screen} (h : GSonly s t) : t.state = s.state := by rw [h]

theorem GSonly.use_more {s t : Screen} (h : GSonly s t) : t.use_more = s.use_more := by rw [h]

theorem GSonly.window_width {s t : Screen} (h : GSonly s t) : t.window_width = s.window_width := by
  rw [h]

theorem GSonly.window_height {s t : Screen} (h : GSonly s t) : t.window_height = s.window_height := by
  rw [h]

theorem GSonly.wrap_style {s t : Screen} (h : GSonly s t) : t.wrap_style = s.wrap_style := by rw [h]

theorem GSonly.selected_window {s t : Screen} (h : GSonly s t) :
    t.selected_window = s.selected_window := by rw [h]

theorem GSonly.input_start_location {s t : Screen} (h : GSonly s t) :
    t.input_start_location = s.input_start_location := by rw [h]

theorem GSonly.lower_window {s t : Screen} (h : GSonly s t) : t.lower_window = s.lower_window := by
  rw [h]

theorem GSonly.upper_window {s t : Screen} (h : GSonly s t) : t.upper_window = s.upper_window := by
  rw [h]

theorem GSonly.scroll_window_top {s t : Screen} (h : GSonly s t) :
    t.scroll_window_top = s.scroll_window_top := by rw [h]

theorem GSonly.last_input_buffer {s t : Screen} (h : GSonly s t) :
    t.last_input_buffer = s.last_input_buffer := by rw [h]

theorem GSonly.max_input_length {s t : Screen} (h : GSonly s t) :
    t.max_input_length = s.max_input_length := by rw [h]

theorem GSonly.validate_size {s t : Screen} (h : GSonly s t) : t.validate_size = s.validate_size := by
  rw [h]

@[simp] theorem redraw_line_indexes (s : Screen) : (redraw s).line_indexes = s.line_indexes :=
  (gsonly_redraw s).line_indexes

@[simp] theorem redraw_scroll_buffer (s : Screen) : (redraw s).scroll_buffer = s.scroll_buffer :=
  (gsonly_redraw s).scroll_buffer

@[simp] theorem redraw_scroll_buffer_length (s : Screen) :
    (redraw s).scroll_buffer_length = s.scroll_buffer_length :=
  (gsonly_redraw s).scroll_buffer_length

@[simp] theorem redraw_state (s : Screen) : (redraw s).state = s.state :=
  (gsonly_redraw s).state

@[simp] theorem redraw_use_more (s : Screen) : (redraw s).use_more = s.use_more :=
  (gsonly_redraw s).use_more

@[simp] theorem redraw_window_width (s : Screen) : (redraw s).window_width = s.window_width :=
  (gsonly_redraw s).window_width

@[simp] theorem redraw_window_height (s : Screen) : (redraw s).window_height = s.window_height :=
  (gsonly_redraw s).window_height

@[simp] theorem redraw_wrap_style (s : Screen) : (redraw s).wrap_style = s.wrap_style :=
  (gsonly_redraw s).wrap_style

@[simp] theorem redraw_selected_window (s : Screen) :
    (redraw s).selected_window = s.selected_window :=
  (gsonly_redraw s).selected_window

@[simp] theorem redraw_input_start_location (s : Screen) :
    (redraw s).input_start_location = s.input_start_location :=
  (gsonly_redraw s).input_start_location

@[simp] theorem redraw_lower_window (s : Screen) : (redraw s).lower_window = s.lower_window :=
  (gsonly_redraw s).lower_window

@[simp] theorem redraw_upper_window (s : Screen) : (redraw s).upper_window = s.upper_window :=
  (gsonly_redraw s).upper_window

@[simp] theorem redraw_scroll_window_top (s : Screen) :
    (redraw s).scroll_window_top = s.scroll_window_top :=
  (gsonly_redraw s).scroll_window_top

@[simp] theorem redraw_last_input_buffer (s : Screen) :
    (redraw s).last_input_buffer = s.last_input_buffer :=
  (gsonly_redraw s).last_input_buffer

@[simp] theorem redraw_max_input_length (s : Screen) :
    (redraw s).max_input_length = s.max_input_length :=
  (gsonly_redraw s).max_input_length

@[simp] theorem redraw_validate_size (s : Screen) : (redraw s).validate_size = s.validate_size :=
  (gsonly_redraw s).validate_size

/-!  ## Projection lemmas for the index/buffer operations -/

theorem switchToMore_proj (s : Screen) :
    (switchToMoreStateIfNeeded s).line_indexes = s.line_indexes
    ∧ (switchToMoreStateIfNeeded s).scroll_buffer = s.scroll_buffer
    ∧ (switchToMoreStateIfNeeded s).scroll_buffer_length = s.scroll_buffer_length
    ∧ (switchToMoreStateIfNeeded s).window_width = s.window_width
    ∧ (switchToMoreStateIfNeeded s).window_height = s.window_height
    ∧ (switchToMoreStateIfNeeded s).wrap_style = s.wrap_style
    ∧ (switchToMoreStateIfNeeded s).selected_window = s.selected_window
    ∧ (switchToMoreStateIfNeeded s).input_start_location = s.input_start_location
    ∧ (switchToMoreStateIfNeeded s).lower_window = s.lower_window
    ∧ (switchToMoreStateIfNeeded s).upper_window = s.upper_window
    ∧ (switchToMoreStateIfNeeded s).last_input_buffer = s.last_input_buffer
    ∧ (switchToMoreStateIfNeeded s).max_input_length = s.max_input_length
    ∧ (switchToMoreStateIfNeeded s).use_more = s.use_more
    ∧ (switchToMoreStateIfNeeded s).grid = s.grid
    ∧ (switchToMoreStateIfNeeded s).validate_size = s.validate_size
    ∧ (switchToMoreStateIfNeeded s).redraw_enabled = s.redraw_enabled
    ∧ (switchToMoreStateIfNeeded s).status = s.status := by
  unfold switchToMoreStateIfNeeded
  split <;> simp

@[simp] theorem switchToMore_line_indexes (s : Screen) :
    (switchToMoreStateIfNeeded s).line_indexes = s.line_indexes := (switchToMore_proj s).1

theorem pushLine_proj (sc : Bool) (lo so : Nat) (s : Screen) :
    (pushLine sc lo so s).scroll_buffer = s.scroll_buffer
    ∧ (pushLine sc lo so s).scroll_buffer_length = s.scroll_buffer_length
    ∧ (pushLine sc lo so s).window_width = s.window_width
    ∧ (pushLine sc lo so s).window_height = s.window_height
    ∧ (pushLine sc lo so s).wrap_style = s.wrap_style
    ∧ (pushLine sc lo so s).selected_window = s.selected_window
    ∧ (pushLine sc lo so s).input_start_location = s.input_start_location
    ∧ (pushLine sc lo so s).upper_window = s.upper_window
    ∧ (pushLine sc lo so s).last_input_buffer = s.last_input_buffer
    ∧ (pushLine sc lo so s).max_input_length = s.max_input_length
    ∧ (pushLine sc lo so s).use_more = s.use_more
    ∧ (pushLine sc lo so s).state = s.state
    ∧ (pushLine sc lo so s).grid = s.grid
    ∧ (pushLine sc lo so s).validate_size = s.validate_size
    ∧ (pushLine sc lo so s).redraw_enabled = s.redraw_enabled
    ∧ (pushLine sc lo so s).status = s.status := by
  unfold pushLine
  dsimp only
  split <;> (try split) <;> simp

@[simp] theorem pushLine_line_indexes (sc : Bool) (lo so : Nat) (s : Screen) :
    (pushLine sc lo so s).line_indexes
      = updateLast (fun li => { li with length := min (li.length - lo) s.window_width })
          s.line_indexes
        ++ [⟨(s.line_indexes.getLastD ⟨0, 0⟩).start
              + ((s.line_indexes.getLastD ⟨0, 0⟩).length - lo) + so, lo⟩] := by
  unfold pushLine
  dsimp only
  split <;> (try split) <;> rfl

theorem pushScrollBuffer_proj (c : Char) (s : Screen) :
    (pushScrollBuffer c s).line_indexes = s.line_indexes
    ∧ (pushScrollBuffer c s).window_width = s.window_width
    ∧ (pushScrollBuffer c s).window_height = s.window_height
    ∧ (pushScrollBuffer c s).wrap_style = s.wrap_style
    ∧ (pushScrollBuffer c s).selected_window = s.selected_window
    ∧ (pushScrollBuffer c s).input_start_location = s.input_start_location
    ∧ (pushScrollBuffer c s).lower_window = s.lower_window
    ∧ (pushScrollBuffer c s).upper_window = s.upper_window
    ∧ (pushScrollBuffer c s).last_input_buffer = s.last_input_buffer
    ∧ (pushScrollBuffer c s).max_input_length = s.max_input_length
    ∧ (pushScrollBuffer c s).use_more = s.use_more
    ∧ (pushScrollBuffer c s).state = s.state
    ∧ (pushScrollBuffer c s).grid = s.grid
    ∧ (pushScrollBuffer c s).scroll_window_top = s.scroll_window_top
    ∧ (pushScrollBuffer c s).validate_size = s.validate_size
    ∧ (pushScrollBuffer c s).redraw_enabled = s.redraw_enabled
    ∧ (pushScrollBuffer c s).status = s.status := by
  unfold pushScrollBuffer
  simp

@[simp] theorem pushScrollBuffer_length (c : Char) (s : Screen) :
    (pushScrollBuffer c s).scroll_buffer_length = s.scroll_buffer_length + 1 := rfl

/-!  ## updateLast and getLastD helpers -/

theorem updateLast_concat (f : LineIndex → LineIndex) (A : List LineIndex) (x : LineIndex) :
    updateLast f (A ++ [x]) = A ++ [f x] := by
  induction A with
  | nil => rfl
  | cons a t ih =>
    cases t with
    | nil => rfl
    | cons b u => simpa [updateLast] using ih

theorem updateLast_length (f : LineIndex → LineIndex) (l : List LineIndex) :
    (updateLast f l).length = l.length := by
  induction l with
  | nil => rfl
  | cons a t ih =>
    cases t with
    | nil => rfl
    | cons b u => simpa [updateLast] using ih

theorem updateLast_start (f : LineIndex → LineIndex) (hf : ∀ li, (f li).start = li.start)
    (l : List LineIndex) : (updateLast f l).map LineIndex.start = l.map LineIndex.start := by
  induction l with
  | nil => rfl
  | cons a t ih =>
    cases t with
    | nil => simp [updateLast, hf]
    | cons b u => simpa [updateLast] using ih

theorem shouldWrap_eq (s : Screen) :
    shouldWrap s = pureShouldWrap s.window_width s.line_indexes := rfl

/-- The line-index component of update_line_indexes_for_char is pureStep. -/
theorem updateLineIndexes_line_indexes (c : Char) (s : Screen) :
    (updateLineIndexesForChar c s).line_indexes
      = pureStep s.window_width s.wrap_style s.scroll_buffer s.line_indexes c := by
  unfold updateLineIndexesForChar pureStep
  dsimp only
  by_cases hn : c = '\n' <;> by_cases hw : shouldWrap s = true <;>
    rw [shouldWrap_eq] at hw <;>
    simp [hn, hw, shouldWrap_eq, switchToMore_line_indexes, pushLine_line_indexes,
      (pushLine_proj _ _ _ _).2.2.1]

/-- All the fields of the screen that update_line_indexes_for_char never touches. -/
theorem updateLineIndexes_proj (c : Char) (s : Screen) :
    (updateLineIndexesForChar c s).scroll_buffer = s.scroll_buffer
    ∧ (updateLineIndexesForChar c s).scroll_buffer_length = s.scroll_buffer_length
    ∧ (updateLineIndexesForChar c s).window_width = s.window_width
    ∧ (updateLineIndexesForChar c s).window_height = s.window_height
    ∧ (updateLineIndexesForChar c s).wrap_style = s.wrap_style
    ∧ (updateLineIndexesForChar c s).selected_window = s.selected_window
    ∧ (updateLineIndexesForChar c s).input_start_location = s.input_start_location
    ∧ (updateLineIndexesForChar c s).upper_window = s.upper_window
    ∧ (updateLineIndexesForChar c s).last_input_buffer = s.last_input_buffer
    ∧ (updateLineIndexesForChar c s).max_input_length = s.max_input_length
    ∧ (updateLineIndexesForChar c s).use_more = s.use_more
    ∧ (updateLineIndexesForChar c s).grid = s.grid
    ∧ (updateLineIndexesForChar c s).validate_size = s.validate_size
    ∧ (updateLineIndexesForChar c s).redraw_enabled = s.redraw_enabled
    ∧ (updateLineIndexesForChar c s).status = s.status := by
  unfold updateLineIndexesForChar
  dsimp only
  obtain ⟨a1, a2, a3, a4, a5, a6, a7, a8, a9, a10, a11, a12, a13, a14, a15, a16, a17⟩ :=
    switchToMore_proj (pushLine
      (decide (s.state = ScreenState.Output ∨ s.state = ScreenState.WaitingForLine))
      (if c = '\n' then 0
        else if shouldWrap s = true ∧ s.wrap_style = WrapStyle.WrapOnPunctuation ∧ c ≠ ' ' then
          scanOffset s.scroll_buffer (s.line_indexes.getLastD ⟨0, 0⟩).start
            (s.line_indexes.getLastD ⟨0, 0⟩).length
        else 0)
      (if c = '\n' then 1 else 0) s)
  obtain ⟨b1, b2, b3, b4, b5, b6, b7, b8, b9, b10, b11, b12, b13, b14, b15, b16⟩ :=
    pushLine_proj
      (decide (s.state = ScreenState.Output ∨ s.state = ScreenState.WaitingForLine))
      (if c = '\n' then 0
        else if shouldWrap s = true ∧ s.wrap_style = WrapStyle.WrapOnPunctuation ∧ c ≠ ' ' then
          scanOffset s.scroll_buffer (s.line_indexes.getLastD ⟨0, 0⟩).start
            (s.line_indexes.getLastD ⟨0, 0⟩).length
        else 0)
      (if c = '\n' then 1 else 0) s
  split <;> split <;>
    simp_all

/-- The state after update_line_indexes_for_char: unchanged unless a line was
pushed and the MORE check fired. -/
theorem switchToMore_state (s : Screen) :
    (switchToMoreStateIfNeeded s).state = s.state
    ∨ ((switchToMoreStateIfNeeded s).state = ScreenState.WaitingForMore
        ∧ s.state = ScreenState.Output) := by
  unfold switchToMoreStateIfNeeded
  split
  · next h => exact Or.inr ⟨rfl, h.2.2⟩
  · exact Or.inl rfl

theorem switchPush_state (sc : Bool) (lo so : Nat) (s : Screen) :
    (switchToMoreStateIfNeeded (pushLine sc lo so s)).state = s.state
    ∨ ((switchToMoreStateIfNeeded (pushLine sc lo so s)).state = ScreenState.WaitingForMore
        ∧ s.state = ScreenState.Output) := by
  have hm := switchToMore_state (pushLine sc lo so s)
  rw [(pushLine_proj sc lo so s).2.2.2.2.2.2.2.2.2.2.2.1] at hm
  exact hm

theorem updateLineIndexes_state (c : Char) (s : Screen) :
    (updateLineIndexesForChar c s).state = s.state
    ∨ ((updateLineIndexesForChar c s).state = ScreenState.WaitingForMore
        ∧ s.state = ScreenState.Output) := by
  unfold updateLineIndexesForChar
  dsimp only
  split <;> split <;>
    first
      | exact switchPush_state _ _ _ s
      | simp

/-!  ## Scroll-buffer access helpers -/

theorem list_getD_set_self {α : Type} (l : List α) (i : Nat) (c d : α) (h : i < l.length) :
    (l.set i c).getD i d = c := by
  induction l generalizing i with
  | nil => simp at h
  | cons a t ih =>
    cases i with
    | zero => rfl
    | succ j => exact ih j (by simpa using h)

theorem list_getD_set_ne {α : Type} (l : List α) (i j : Nat) (c d : α) (h : i ≠ j) :
    (l.set j c).getD i d = l.getD i d := by
  induction l generalizing i j with
  | nil => rfl
  | cons a t ih =>
    cases j with
    | zero =>
      cases i with
      | zero => exact absurd rfl h
      | succ i' => rfl
    | succ j' =>
      cases i with
      | zero => rfl
      | succ i' => exact ih i' j' (by omega)

/-- The scroll buffer that push_scroll_buffer leaves behind, as a function
of the old buffer and its length. -/
def pushedBuffer (buf : List Char) (n : Nat) (c : Char) : List Char :=
  (if n + 1 = buf.length then buf ++ List.replicate SCROLL_BUFFER_INITIAL_SIZE ' ' else buf).set n c

theorem pushScrollBuffer_buffer (c : Char) (s : Screen) :
    (pushScrollBuffer c s).scroll_buffer
      = pushedBuffer s.scroll_buffer s.scroll_buffer_length c := rfl

theorem pushedBuffer_getD_lt (buf : List Char) (n : Nat) (c : Char) (i : Nat) (h : i ≠ n) :
    (pushedBuffer buf n c).getD i ' ' = (if n + 1 = buf.length
      then buf ++ List.replicate SCROLL_BUFFER_INITIAL_SIZE ' ' else buf).getD i ' ' := by
  unfold pushedBuffer
  exact list_getD_set_ne _ _ _ _ _ h

theorem pushedBuffer_getD_below (buf : List Char) (n : Nat) (c : Char) (i : Nat)
    (h : i ≠ n) (hi : i < buf.length) :
    (pushedBuffer buf n c).getD i ' ' = buf.getD i ' ' := by
  rw [pushedBuffer_getD_lt buf n c i h]
  split
  · exact List.getD_append _ _ _ _ hi
  · rfl

theorem pushedBuffer_getD_self (buf : List Char) (n : Nat) (c : Char) (h : n < buf.length) :
    (pushedBuffer buf n c).getD n ' ' = c := by
  unfold pushedBuffer
  apply list_getD_set_self
  split
  · simpa using Nat.lt_of_lt_of_le h (by simp)
  · exact h

theorem pushedBuffer_length (buf : List Char) (n : Nat) (c : Char) (h : n < buf.length) :
    n + 1 < (pushedBuffer buf n c).length := by
  unfold pushedBuffer
  rw [List.length_set]
  split
  · next heq =>
    rw [List.length_append, List.length_replicate]
    unfold SCROLL_BUFFER_INITIAL_SIZE
    omega
  · next hne => omega

/-!  ## print_to_lower lemmas -/

/-- The char-folding part of print_to_lower. -/
def ptlFold (str : List Char) (s : Screen) : Screen :=
  str.foldl (fun s c => printToLowerChar c s) s

theorem ptlFold_nil (s : Screen) : ptlFold [] s = s := rfl

theorem ptlFold_cons (c : Char) (cs : List Char) (s : Screen) :
    ptlFold (c :: cs) s = ptlFold cs (printToLowerChar c s) := rfl

theorem ptlFold_append (a b : List Char) (s : Screen) :
    ptlFold (a ++ b) s = ptlFold b (ptlFold a s) := by
  unfold ptlFold
  exact List.foldl_append _ _ _ _

theorem printToLower_cases (str : List Char) (s : Screen) :
    printToLower str s = ptlFold str s ∨ printToLower str s = redraw (ptlFold str s) := by
  unfold printToLower ptlFold
  cases hst : (str.foldl (fun s c => printToLowerChar c s) s).state <;> simp [hst]

theorem printToLowerChar_line_indexes (c : Char) (s : Screen) :
    (printToLowerChar c s).line_indexes
      = pureStep s.window_width s.wrap_style s.scroll_buffer s.line_indexes c := by
  unfold printToLowerChar
  dsimp only
  split
  · rw [(pushScrollBuffer_proj _ _).1, updateLineIndexes_line_indexes]
  · split
    · rw [(pushScrollBuffer_proj _ _).1, updateLineIndexes_line_indexes]
    · rw [(pushScrollBuffer_proj _ _).1, updateLineIndexes_line_indexes]

theorem printToLowerChar_proj (c : Char) (s : Screen) :
    (printToLowerChar c s).window_width = s.window_width
    ∧ (printToLowerChar c s).window_height = s.window_height
    ∧ (printToLowerChar c s).wrap_style = s.wrap_style
    ∧ (printToLowerChar c s).selected_window = s.selected_window
    ∧ (printToLowerChar c s).input_start_location = s.input_start_location
    ∧ (printToLowerChar c s).upper_window = s.upper_window
    ∧ (printToLowerChar c s).last_input_buffer = s.last_input_buffer
    ∧ (printToLowerChar c s).max_input_length = s.max_input_length
    ∧ (printToLowerChar c s).use_more = s.use_more
    ∧ (printToLowerChar c s).grid = s.grid
    ∧ (printToLowerChar c s).validate_size = s.validate_size
    ∧ (printToLowerChar c s).redraw_enabled = s.redraw_enabled
    ∧ (printToLowerChar c s).status = s.status := by
  obtain ⟨u1, u2, u3, u4, u5, u6, u7, u8, u9, u10, u11, u12, u13, u14, u15⟩ :=
    updateLineIndexes_proj c s
  unfold printToLowerChar
  dsimp only
  split
  · unfold pushScrollBuffer
    simp_all
  · split <;> (unfold pushScrollBuffer; simp_all)

theorem printToLowerChar_length (c : Char) (s : Screen) :
    (printToLowerChar c s).scroll_buffer_length = s.scroll_buffer_length + 1 := by
  obtain ⟨u1, u2, _⟩ := updateLineIndexes_proj c s
  unfold printToLowerChar
  dsimp only
  split
  · rw [pushScrollBuffer_length, u2]
  · split <;> rw [pushScrollBuffer_length, u2]

theorem printToLowerChar_buffer (c : Char) (s : Screen) :
    (printToLowerChar c s).scroll_buffer
      = pushedBuffer s.scroll_buffer s.scroll_buffer_length (storedChar c) := by
  obtain ⟨u1, u2, _⟩ := updateLineIndexes_proj c s
  unfold printToLowerChar storedChar
  dsimp only
  split
  · rw [pushScrollBuffer_buffer, u1, u2]
  · split <;> (rw [pushScrollBuffer_buffer, u1, u2]; try simp_all)

theorem printToLowerChar_state (c : Char) (s : Screen) :
    (printToLowerChar c s).state = s.state
    ∨ ((printToLowerChar c s).state = ScreenState.WaitingForMore
        ∧ s.state = ScreenState.Output) := by
  have hst := updateLineIndexes_state c s
  have hp : (printToLowerChar c s).state = (updateLineIndexesForChar c s).state := by
    unfold printToLowerChar
    dsimp only
    split
    · exact (pushScrollBuffer_proj _ _).2.2.2.2.2.2.2.2.2.2.2.1
    · split <;> exact (pushScrollBuffer_proj _ _).2.2.2.2.2.2.2.2.2.2.2.1
  rw [hp]
  exact hst

/-!  ## scanOffset characterization -/

theorem scanOffsetGo_le (buf : List Char) (st len : Nat) (i : Nat) :
    scanOffsetGo buf st len i ≤ len - 1 := by
  induction i with
  | zero => simp [scanOffsetGo]
  | succ j ih =>
    unfold scanOffsetGo
    split
    · omega
    · exact ih

theorem scanOffset_le (buf : List Char) (st len : Nat) : scanOffset buf st len ≤ len - 1 :=
  scanOffsetGo_le buf st len len

theorem scanOffsetGo_eq_zero (buf : List Char) (st len : Nat) (i : Nat)
    (h : ∀ j, j < i → ¬ isWrapChar (buf.getD (j + st) ' ')) :
    scanOffsetGo buf st len i = 0 := by
  induction i with
  | zero => rfl
  | succ j ih =>
    unfold scanOffsetGo
    split
    · next hw => exact absurd hw (by simpa using h j (Nat.lt_succ_self j))
    · exact ih (fun j' hj' => h j' (Nat.lt_succ_of_lt hj'))

theorem scanOffsetGo_found (buf : List Char) (st len : Nat) (i j : Nat)
    (hj : j < i) (hw : isWrapChar (buf.getD (j + st) ' '))
    (hafter : ∀ j', j < j' → j' < i → ¬ isWrapChar (buf.getD (j' + st) ' ')) :
    scanOffsetGo buf st len i = len - j - 1 := by
  induction i with
  | zero => omega
  | succ i' ih =>
    unfold scanOffsetGo
    by_cases hcase : j = i'
    · subst hcase
      rw [if_pos hw]
    · have hji : j < i' := by omega
      rw [if_neg (by simpa using hafter i' hji (Nat.lt_succ_self i'))]
      exact ih hji (fun j' h1 h2 => hafter j' h1 (Nat.lt_succ_of_lt h2))

/-!  ## pureStep case analysis -/

theorem pureShouldWrap_concat (w : Nat) (A : List LineIndex) (x : LineIndex) :
    pureShouldWrap w (A ++ [x]) = decide (w ≤ x.length) := by
  unfold pureShouldWrap
  rw [List.getLast?_concat]

theorem pureStep_noPush (w : Nat) (st : WrapStyle) (buf : List Char) (A : List LineIndex)
    (x : LineIndex) (c : Char) (hn : c ≠ '\n') (hx : x.length < w) :
    pureStep w st buf (A ++ [x]) c = A ++ [⟨x.start, x.length + 1⟩] := by
  have hsw : pureShouldWrap w (A ++ [x]) = false := by
    rw [pureShouldWrap_concat]
    simp
    omega
  unfold pureStep
  dsimp only
  rw [if_neg (show ¬ (c = '\n' ∨ pureShouldWrap w (A ++ [x]) = true) by simp [hn, hsw])]
  rw [if_pos hn, updateLast_concat]

theorem pureStep_newline (w : Nat) (st : WrapStyle) (buf : List Char) (A : List LineIndex)
    (x : LineIndex) :
    pureStep w st buf (A ++ [x]) '\n'
      = A ++ [⟨x.start, min x.length w⟩, ⟨x.start + x.length + 1, 0⟩] := by
  unfold pureStep
  dsimp only
  rw [if_pos (Or.inl rfl : ('\n' : Char) = '\n' ∨ pureShouldWrap w (A ++ [x]) = true)]
  rw [if_neg (show ¬ ('\n' : Char) ≠ '\n' by simp)]
  rw [if_pos (rfl : ('\n' : Char) = '\n'), if_pos (rfl : ('\n' : Char) = '\n')]
  rw [List.getLastD_concat, updateLast_concat]
  simp

theorem pureStep_push_scan (w : Nat) (buf : List Char) (A : List LineIndex)
    (x : LineIndex) (c : Char) (hn : c ≠ '\n') (hc : c ≠ ' ') (hx : w ≤ x.length) :
    pureStep w WrapStyle.WrapOnPunctuation buf (A ++ [x]) c
      = A ++ [⟨x.start, min (x.length - scanOffset buf x.start x.length) w⟩,
              ⟨x.start + (x.length - scanOffset buf x.start x.length),
                scanOffset buf x.start x.length + 1⟩] := by
  have hsw : pureShouldWrap w (A ++ [x]) = true := by
    rw [pureShouldWrap_concat]
    simpa using hx
  have hcond : pureShouldWrap w (A ++ [x]) = true
      ∧ WrapStyle.WrapOnPunctuation = WrapStyle.WrapOnPunctuation ∧ c ≠ ' ' := ⟨hsw, rfl, hc⟩
  unfold pureStep
  dsimp only
  rw [List.getLastD_concat]
  simp only [if_neg hn, if_pos hn, if_pos hcond,
    if_pos (Or.inr hsw : c = '\n' ∨ pureShouldWrap w (A ++ [x]) = true),
    updateLast_concat]
  simp [hsw, hc]

theorem pureStep_push_hard (w : Nat) (st : WrapStyle) (buf : List Char) (A : List LineIndex)
    (x : LineIndex) (c : Char) (hn : c ≠ '\n') (hst : st = WrapStyle.Wrap ∨ c = ' ')
    (hx : w ≤ x.length) :
    pureStep w st buf (A ++ [x]) c
      = A ++ [⟨x.start, min x.length w⟩, ⟨x.start + x.length, 1⟩] := by
  have hsw : pureShouldWrap w (A ++ [x]) = true := by
    rw [pureShouldWrap_concat]
    simpa using hx
  have hnp : ¬ (pureShouldWrap w (A ++ [x]) = true
      ∧ st = WrapStyle.WrapOnPunctuation ∧ c ≠ ' ') := by
    rcases hst with h | h
    · rintro ⟨-, h2, -⟩
      rw [h] at h2
      exact WrapStyle.noConfusion h2
    · rintro ⟨-, -, h3⟩
      exact h3 h
  unfold pureStep
  dsimp only
  rw [List.getLastD_concat]
  simp only [if_neg hn, if_pos hn, if_neg hnp,
    if_pos (Or.inr hsw : c = '\n' ∨ pureShouldWrap w (A ++ [x]) = true),
    updateLast_concat]
  simp

/-!  ## rebuild: basic unfolding and invariants -/

theorem rebuild_zero (w : Nat) (st : WrapStyle) (buf : List Char) :
    rebuild w st buf 0 = [⟨0, 0⟩] := rfl

theorem rebuild_succ (w : Nat) (st : WrapStyle) (buf : List Char) (n : Nat) :
    rebuild w st buf (n + 1) = pureStep w st buf (rebuild w st buf n) (buf.getD n ' ') := by
  unfold rebuild
  rw [List.range_succ, List.foldl_append]
  rfl

theorem exists_concat_form {l : List LineIndex} (h : l ≠ []) : ∃ A x, l = A ++ [x] := by
  rcases List.eq_nil_or_concat l with rfl | ⟨A, x, hx⟩
  · exact absurd rfl h
  · exact ⟨A, x, by simpa [List.concat_eq_append] using hx⟩

theorem pureStep_ne_nil (w : Nat) (st : WrapStyle) (buf : List Char) (lis : List LineIndex)
    (c : Char) (h : lis ≠ []) : pureStep w st buf lis c ≠ [] := by
  obtain ⟨A, x, rfl⟩ := exists_concat_form h
  · by_cases hn : c = '\n'
    · subst hn
      rw [pureStep_newline]
      simp
    · rcases Nat.lt_or_ge x.length w with hx | hx
      · rw [pureStep_noPush w st buf A x c hn hx]
        simp
      · cases hst : st with
        | Wrap =>
          rw [pureStep_push_hard w _ buf A x c hn (Or.inl rfl) hx]
          simp
        | WrapOnPunctuation =>
          by_cases hsp : c = ' '
          · rw [pureStep_push_hard w _ buf A x c hn (Or.inr hsp) hx]
            simp
          · rw [pureStep_push_scan w buf A x c hn hsp hx]
            simp

/-- The last line-index entry ends at or before position n of the buffer. -/
def lastFit (lis : List LineIndex) (n : Nat) : Prop :=
  (lis.getLastD ⟨0, 0⟩).start + (lis.getLastD ⟨0, 0⟩).length ≤ n

theorem pureStep_lastFit (w : Nat) (st : WrapStyle) (buf : List Char) (lis : List LineIndex)
    (c : Char) (n : Nat) (h : lastFit lis n) (hne : lis ≠ []) :
    lastFit (pureStep w st buf lis c) (n + 1) := by
  obtain ⟨A, x, rfl⟩ := exists_concat_form hne
  · unfold lastFit at h ⊢
    rw [List.getLastD_concat] at h
    by_cases hn : c = '\n'
    · subst hn
      rw [pureStep_newline]
      rw [show A ++ [⟨x.start, min x.length w⟩, ⟨x.start + x.length + 1, 0⟩]
          = (A ++ [⟨x.start, min x.length w⟩]) ++ [⟨x.start + x.length + 1, 0⟩] by simp]
      rw [List.getLastD_concat]
      dsimp only
      omega
    · rcases Nat.lt_or_ge x.length w with hx | hx
      · rw [pureStep_noPush w st buf A x c hn hx, List.getLastD_concat]
        dsimp only
        omega
      · cases hst : st with
        | Wrap =>
          rw [pureStep_push_hard w _ buf A x c hn (Or.inl rfl) hx]
          rw [show A ++ [⟨x.start, min x.length w⟩, ⟨x.start + x.length, 1⟩]
              = (A ++ [⟨x.start, min x.length w⟩]) ++ [⟨x.start + x.length, 1⟩] by simp]
          rw [List.getLastD_concat]
          dsimp only
          omega
        | WrapOnPunctuation =>
          by_cases hsp : c = ' '
          · rw [pureStep_push_hard w _ buf A x c hn (Or.inr hsp) hx]
            rw [show A ++ [⟨x.start, min x.length w⟩, ⟨x.start + x.length, 1⟩]
                = (A ++ [⟨x.start, min x.length w⟩]) ++ [⟨x.start + x.length, 1⟩] by simp]
            rw [List.getLastD_concat]
            dsimp only
            omega
          · rw [pureStep_push_scan w buf A x c hn hsp hx]
            rw [show A ++ [⟨x.start, min (x.length - scanOffset buf x.start x.length) w⟩,
                  ⟨x.start + (x.length - scanOffset buf x.start x.length),
                    scanOffset buf x.start x.length + 1⟩]
                = (A ++ [⟨x.start, min (x.length - scanOffset buf x.start x.length) w⟩])
                  ++ [⟨x.start + (x.length - scanOffset buf x.start x.length),
                    scanOffset buf x.start x.length + 1⟩] by simp]
            rw [List.getLastD_concat]
            dsimp only
            have := scanOffset_le buf x.start x.length
            omega

theorem rebuild_ne_nil (w : Nat) (st : WrapStyle) (buf : List Char) (n : Nat) :
    rebuild w st buf n ≠ [] := by
  induction n with
  | zero => simp [rebuild_zero]
  | succ m ih =>
    rw [rebuild_succ]
    exact pureStep_ne_nil _ _ _ _ _ ih

theorem rebuild_lastFit (w : Nat) (st : WrapStyle) (buf : List Char) (n : Nat) :
    lastFit (rebuild w st buf n) n := by
  induction n with
  | zero => simp [rebuild_zero, lastFit]
  | succ m ih =>
    rw [rebuild_succ]
    exact pureStep_lastFit w st buf _ _ m ih (rebuild_ne_nil w st buf m)

/-!  ## pureStep only reads the buffer below the end of the last line -/

theorem scanOffsetGo_congr (buf1 buf2 : List Char) (st len : Nat) (j : Nat)
    (h : ∀ p, p < st + j → buf1.getD p ' ' = buf2.getD p ' ') :
    scanOffsetGo buf1 st len j = scanOffsetGo buf2 st len j := by
  induction j with
  | zero => rfl
  | succ i ih =>
    unfold scanOffsetGo
    rw [h (i + st) (by omega)]
    split
    · rfl
    · exact ih (fun p hp => h p (by omega))

theorem pureStep_congr_buf (w : Nat) (st : WrapStyle) (buf1 buf2 : List Char)
    (lis : List LineIndex) (c : Char) (n : Nat) (hfit : lastFit lis n)
    (h : ∀ p, p < n → buf1.getD p ' ' = buf2.getD p ' ') :
    pureStep w st buf1 lis c = pureStep w st buf2 lis c := by
  have hscan : scanOffset buf1 (lis.getLastD ⟨0, 0⟩).start (lis.getLastD ⟨0, 0⟩).length
      = scanOffset buf2 (lis.getLastD ⟨0, 0⟩).start (lis.getLastD ⟨0, 0⟩).length := by
    unfold scanOffset
    apply scanOffsetGo_congr
    intro p hp
    apply h
    unfold lastFit at hfit
    omega
  unfold pureStep
  dsimp only
  rw [hscan]

/-!  ## pureStep sees the printed char and the stored char alike -/

theorem storedChar_of_newline : storedChar '\n' = '\n' := rfl

theorem storedChar_in_range (c : Char) (hn : c ≠ '\n') (hr : ¬ (c < MIN_CHAR ∨ MAX_CHAR < c)) :
    storedChar c = c := by
  unfold storedChar
  rw [if_neg hn, if_neg hr]

theorem storedChar_out_of_range (c : Char) (hn : c ≠ '\n') (hr : c < MIN_CHAR ∨ MAX_CHAR < c) :
    storedChar c = '?' := by
  unfold storedChar
  rw [if_neg hn, if_pos hr]

/-- pureStep on the empty index list does nothing for a non-newline char
(a state the source itself would have paniced on). -/
theorem pureStep_nil (w : Nat) (st : WrapStyle) (buf : List Char) (c : Char) (hn : c ≠ '\n') :
    pureStep w st buf [] c = [] := by
  unfold pureStep
  dsimp only
  rw [if_neg (show ¬ (c = '\n' ∨ pureShouldWrap w [] = true) by
      rintro (h | h)
      · exact hn h
      · exact absurd h (by simp [pureShouldWrap]))]
  rw [if_pos hn]
  rfl

theorem pureStep_storedChar (w : Nat) (st : WrapStyle) (buf : List Char) (lis : List LineIndex)
    (c : Char) : pureStep w st buf lis (storedChar c) = pureStep w st buf lis c := by
  by_cases hn : c = '\n'
  · subst hn
    rw [storedChar_of_newline]
  · by_cases hr : c < MIN_CHAR ∨ MAX_CHAR < c
    · have hq : storedChar c = '?' := storedChar_out_of_range c hn hr
      have hcs : c ≠ ' ' := by
        intro h
        subst h
        exact absurd hr (by decide)
      rw [hq]
      rcases List.eq_nil_or_concat lis with rfl | ⟨A, x, hconc⟩
      · rw [pureStep_nil w st buf '?' (by decide), pureStep_nil w st buf c hn]
      · rw [show lis = A ++ [x] by simpa [List.concat_eq_append] using hconc]
        rcases Nat.lt_or_ge x.length w with hx | hx
        · rw [pureStep_noPush w st buf A x '?' (by decide) hx,
            pureStep_noPush w st buf A x c hn hx]
        · cases st with
          | Wrap =>
            rw [pureStep_push_hard w _ buf A x '?' (by decide) (Or.inl rfl) hx,
              pureStep_push_hard w _ buf A x c hn (Or.inl rfl) hx]
          | WrapOnPunctuation =>
            rw [pureStep_push_scan w buf A x '?' (by decide) (by decide) hx,
              pureStep_push_scan w buf A x c hn hcs hx]
    · rw [storedChar_in_range c hn hr]

theorem rebuild_congr (w : Nat) (st : WrapStyle) (buf1 buf2 : List Char) (n : Nat)
    (h : ∀ p, p < n → buf1.getD p ' ' = buf2.getD p ' ') :
    rebuild w st buf1 n = rebuild w st buf2 n := by
  induction n with
  | zero => rfl
  | succ m ih =>
    rw [rebuild_succ, rebuild_succ]
    rw [ih (fun p hp => h p (by omega))]
    rw [h m (by omega)]
    exact pureStep_congr_buf w st buf1 buf2 _ _ m
      (rebuild_lastFit w st buf2 m) (fun p hp => h p (by omega))

/-!  ## Coherence is preserved by printing and established by resize -/

theorem coherent_printToLowerChar (c : Char) (s : Screen) (hco : Coherent s) (hcap : CapOK s) :
    Coherent (printToLowerChar c s) ∧ CapOK (printToLowerChar c s) := by
  obtain ⟨p1, p2, p3, _⟩ := printToLowerChar_proj c s
  have hbuf := printToLowerChar_buffer c s
  have hlen := printToLowerChar_length c s
  have hlis := printToLowerChar_line_indexes c s
  unfold Coherent at hco ⊢
  unfold CapOK at hcap ⊢
  constructor
  · rw [hlis, hbuf, hlen, p1, p3, hco]
    have hagree : ∀ p, p < s.scroll_buffer_length →
        (pushedBuffer s.scroll_buffer s.scroll_buffer_length (storedChar c)).getD p ' '
          = s.scroll_buffer.getD p ' ' := by
      intro p hp
      exact pushedBuffer_getD_below _ _ _ _ (by omega) (by omega)
    rw [rebuild_succ]
    rw [rebuild_congr s.window_width s.wrap_style
      (pushedBuffer s.scroll_buffer s.scroll_buffer_length (storedChar c)) s.scroll_buffer
      s.scroll_buffer_length hagree]
    rw [pushedBuffer_getD_self s.scroll_buffer s.scroll_buffer_length (storedChar c) hcap]
    rw [pureStep_storedChar]
    exact (pureStep_congr_buf s.window_width s.wrap_style s.scroll_buffer
      (pushedBuffer s.scroll_buffer s.scroll_buffer_length (storedChar c)) _ c
      s.scroll_buffer_length (rebuild_lastFit _ _ _ _)
      (fun p hp => (hagree p hp).symm)).symm ▸ rfl
  · rw [hbuf, hlen]
    exact pushedBuffer_length s.scroll_buffer s.scroll_buffer_length (storedChar c) hcap

theorem coherent_ptlFold (str : List Char) (s : Screen) (hco : Coherent s) (hcap : CapOK s) :
    Coherent (ptlFold str s) ∧ CapOK (ptlFold str s) := by
  induction str generalizing s with
  | nil => exact ⟨hco, hcap⟩
  | cons c cs ih =>
    rw [ptlFold_cons]
    obtain ⟨h1, h2⟩ := coherent_printToLowerChar c s hco hcap
    exact ih (printToLowerChar c s) h1 h2

theorem coherent_redraw (s : Screen) (hco : Coherent s) : Coherent (redraw s) := by
  unfold Coherent at hco ⊢
  simp [hco]

theorem coherent_printToLower (str : List Char) (s : Screen) (hco : Coherent s) (hcap : CapOK s) :
    Coherent (printToLower str s) ∧ CapOK (printToLower str s) := by
  obtain ⟨h1, h2⟩ := coherent_ptlFold str s hco hcap
  rcases printToLower_cases str s with h | h <;> rw [h]
  · exact ⟨h1, h2⟩
  · refine ⟨coherent_redraw _ h1, ?_⟩
    unfold CapOK at h2 ⊢
    simpa using h2

/-- The projections of the replay loop of recalculate_and_redraw. -/
theorem replayFold_proj (l : List Nat) (s : Screen) :
    ((l.foldl (fun s i => updateLineIndexesForChar (s.scroll_buffer.getD i ' ') s) s).line_indexes
        = l.foldl (fun lis i => pureStep s.window_width s.wrap_style s.scroll_buffer lis
            (s.scroll_buffer.getD i ' ')) s.line_indexes)
    ∧ ((l.foldl (fun s i => updateLineIndexesForChar (s.scroll_buffer.getD i ' ') s) s).scroll_buffer
        = s.scroll_buffer)
    ∧ ((l.foldl (fun s i =>
          updateLineIndexesForChar (s.scroll_buffer.getD i ' ') s) s).scroll_buffer_length
        = s.scroll_buffer_length)
    ∧ ((l.foldl (fun s i => updateLineIndexesForChar (s.scroll_buffer.getD i ' ') s) s).window_width
        = s.window_width)
    ∧ ((l.foldl (fun s i => updateLineIndexesForChar (s.scroll_buffer.getD i ' ') s) s).window_height
        = s.window_height)
    ∧ ((l.foldl (fun s i => updateLineIndexesForChar (s.scroll_buffer.getD i ' ') s) s).wrap_style
        = s.wrap_style)
    ∧ ((l.foldl (fun s i =>
          updateLineIndexesForChar (s.scroll_buffer.getD i ' ') s) s).selected_window
        = s.selected_window)
    ∧ ((l.foldl (fun s i => updateLineIndexesForChar (s.scroll_buffer.getD i ' ') s) s).validate_size
        = s.validate_size)
    ∧ ((l.foldl (fun s i =>
          updateLineIndexesForChar (s.scroll_buffer.getD i ' ') s) s).last_input_buffer
        = s.last_input_buffer)
    ∧ ((l.foldl (fun s i =>
          updateLineIndexesForChar (s.scroll_buffer.getD i ' ') s) s).max_input_length
        = s.max_input_length)
    ∧ ((l.foldl (fun s i => updateLineIndexesForChar (s.scroll_buffer.getD i ' ') s) s).use_more
        = s.use_more)
    ∧ ((l.foldl (fun s i => updateLineIndexesForChar (s.scroll_buffer.getD i ' ') s) s).redraw_enabled
        = s.redraw_enabled) := by
  induction l generalizing s with
  | nil => exact ⟨rfl, rfl, rfl, rfl, rfl, rfl, rfl, rfl, rfl, rfl, rfl, rfl⟩
  | cons a t ih =>
    obtain ⟨u1, u2, u3, u4, u5, u6, u7, u8, u9, u10, u11, u12, u13, u14, u15⟩ :=
      updateLineIndexes_proj (s.scroll_buffer.getD a ' ') s
    obtain ⟨v1, v2, v3, v4, v5, v6, v7, v8, v9, v10, v11, v12⟩ :=
      ih (updateLineIndexesForChar (s.scroll_buffer.getD a ' ') s)
    simp only [List.foldl_cons]
    refine ⟨?_, ?_, ?_, ?_, ?_, ?_, ?_, ?_, ?_, ?_, ?_, ?_⟩
    · rw [v1, u1, u3, u5, updateLineIndexes_line_indexes]
    · rw [v2, u1]
    · rw [v3, u2]
    · rw [v4, u3]
    · rw [v5, u4]
    · rw [v6, u5]
    · rw [v7, u6]
    · rw [v8, u13]
    · rw [v9, u9]
    · rw [v10, u10]
    · rw [v11, u11]
    · rw [v12, u14]

/-!  ## resize characterization -/

@[simp] theorem drawStatus_line_indexes (l r : List Char) (s : Screen) :
    (drawStatus l r s).line_indexes = s.line_indexes := (gsonly_drawStatus l r s).line_indexes

@[simp] theorem drawStatus_scroll_buffer (l r : List Char) (s : Screen) :
    (drawStatus l r s).scroll_buffer = s.scroll_buffer := (gsonly_drawStatus l r s).scroll_buffer

@[simp] theorem drawStatus_scroll_buffer_length (l r : List Char) (s : Screen) :
    (drawStatus l r s).scroll_buffer_length = s.scroll_buffer_length :=
  (gsonly_drawStatus l r s).scroll_buffer_length

@[simp] theorem drawStatus_state (l r : List Char) (s : Screen) :
    (drawStatus l r s).state = s.state := (gsonly_drawStatus l r s).state

@[simp] theorem drawStatus_use_more (l r : List Char) (s : Screen) :
    (drawStatus l r s).use_more = s.use_more := (gsonly_drawStatus l r s).use_more

@[simp] theorem drawStatus_window_width (l r : List Char) (s : Screen) :
    (drawStatus l r s).window_width = s.window_width := (gsonly_drawStatus l r s).window_width

@[simp] theorem drawStatus_window_height (l r : List Char) (s : Screen) :
    (drawStatus l r s).window_height = s.window_height := (gsonly_drawStatus l r s).window_height

@[simp] theorem drawStatus_wrap_style (l r : List Char) (s : Screen) :
    (drawStatus l r s).wrap_style = s.wrap_style := (gsonly_drawStatus l r s).wrap_style

@[simp] theorem drawStatus_selected_window (l r : List Char) (s : Screen) :
    (drawStatus l r s).selected_window = s.selected_window :=
  (gsonly_drawStatus l r s).selected_window

@[simp] theorem drawStatus_validate_size (l r : List Char) (s : Screen) :
    (drawStatus l r s).validate_size = s.validate_size := (gsonly_drawStatus l r s).validate_size

@[simp] theorem drawStatus_lower_window (l r : List Char) (s : Screen) :
    (drawStatus l r s).lower_window = s.lower_window := (gsonly_drawStatus l r s).lower_window

@[simp] theorem drawStatus_upper_window (l r : List Char) (s : Screen) :
    (drawStatus l r s).upper_window = s.upper_window := (gsonly_drawStatus l r s).upper_window

@[simp] theorem drawStatus_scroll_window_top (l r : List Char) (s : Screen) :
    (drawStatus l r s).scroll_window_top = s.scroll_window_top :=
  (gsonly_drawStatus l r s).scroll_window_top

@[simp] theorem drawStatus_last_input_buffer (l r : List Char) (s : Screen) :
    (drawStatus l r s).last_input_buffer = s.last_input_buffer :=
  (gsonly_drawStatus l r s).last_input_buffer

@[simp] theorem drawStatus_max_input_length (l r : List Char) (s : Screen) :
    (drawStatus l r s).max_input_length = s.max_input_length :=
  (gsonly_drawStatus l r s).max_input_length

@[simp] theorem drawStatus_input_start_location (l r : List Char) (s : Screen) :
    (drawStatus l r s).input_start_location = s.input_start_location :=
  (gsonly_drawStatus l r s).input_start_location

@[simp] theorem clear_line_indexes (s : Screen) : (clear s).line_indexes = s.line_indexes :=
  (gsonly_clear s).line_indexes

@[simp] theorem clear_scroll_buffer (s : Screen) : (clear s).scroll_buffer = s.scroll_buffer :=
  (gsonly_clear s).scroll_buffer

@[simp] theorem clear_scroll_buffer_length (s : Screen) :
    (clear s).scroll_buffer_length = s.scroll_buffer_length :=
  (gsonly_clear s).scroll_buffer_length

@[simp] theorem clear_state (s : Screen) : (clear s).state = s.state := (gsonly_clear s).state

@[simp] theorem clear_use_more (s : Screen) : (clear s).use_more = s.use_more :=
  (gsonly_clear s).use_more

@[simp] theorem clear_window_width (s : Screen) : (clear s).window_width = s.window_width :=
  (gsonly_clear s).window_width

@[simp] theorem clear_window_height (s : Screen) : (clear s).window_height = s.window_height :=
  (gsonly_clear s).window_height

@[simp] theorem clear_wrap_style (s : Screen) : (clear s).wrap_style = s.wrap_style :=
  (gsonly_clear s).wrap_style

@[simp] theorem clear_selected_window (s : Screen) :
    (clear s).selected_window = s.selected_window := (gsonly_clear s).selected_window

@[simp] theorem clear_validate_size (s : Screen) : (clear s).validate_size = s.validate_size :=
  (gsonly_clear s).validate_size

@[simp] theorem clear_lower_window (s : Screen) : (clear s).lower_window = s.lower_window :=
  (gsonly_clear s).lower_window

@[simp] theorem clear_upper_window (s : Screen) : (clear s).upper_window = s.upper_window :=
  (gsonly_clear s).upper_window

@[simp] theorem clear_scroll_window_top (s : Screen) :
    (clear s).scroll_window_top = s.scroll_window_top := (gsonly_clear s).scroll_window_top

@[simp] theorem clear_last_input_buffer (s : Screen) :
    (clear s).last_input_buffer = s.last_input_buffer := (gsonly_clear s).last_input_buffer

@[simp] theorem clear_max_input_length (s : Screen) :
    (clear s).max_input_length = s.max_input_length := (gsonly_clear s).max_input_length

@[simp] theorem clear_input_start_location (s : Screen) :
    (clear s).input_start_location = s.input_start_location :=
  (gsonly_clear s).input_start_location

/-- The state recalculate_and_redraw has built just before it replays the
scroll buffer: windows recomputed, screen cleared, line index reset. -/
def preFoldState (s : Screen) : Screen :=
  let s := { s with window_width := s.grid.width, window_height := s.grid.height }
  let s := { s with status_window := ⟨0, STATUS_BAR_HEIGHT⟩ }
  let old_height := s.upper_window.height
  let s := { s with upper_window := ⟨STATUS_BAR_HEIGHT, STATUS_BAR_HEIGHT + old_height⟩ }
  let s := { s with lower_window := ⟨s.upper_window.bottom_index, s.getScreenHeight⟩ }
  let s := clearToBottom s
  let s := { s with scroll_window_top := calculateBottomScrollWindow s }
  let s := { s with state := ScreenState.Output }
  let s := useMore false s
  { s with line_indexes := [⟨0, 0⟩] }

theorem recalcBody_eq (s : Screen) :
    recalcBody s =
      (let s10 := (List.range (preFoldState s).scroll_buffer_length).foldl
        (fun s i => updateLineIndexesForChar (s.scroll_buffer.getD i ' ') s) (preFoldState s)
      let s12 := { s10 with use_more := s.use_more, state := s.state }
      let s13 := drawStatus s.status.status_left s.status.status_right s12
      { s13 with input_start_location := getCursorLocation s13 }) := rfl

theorem preFoldState_proj (s : Screen) :
    (preFoldState s).scroll_buffer = s.scroll_buffer
    ∧ (preFoldState s).scroll_buffer_length = s.scroll_buffer_length
    ∧ (preFoldState s).window_width = s.grid.width
    ∧ (preFoldState s).window_height = s.grid.height
    ∧ (preFoldState s).wrap_style = s.wrap_style
    ∧ (preFoldState s).line_indexes = [⟨0, 0⟩]
    ∧ (preFoldState s).selected_window = s.selected_window
    ∧ (preFoldState s).validate_size = s.validate_size := by
  unfold preFoldState clearToBottom useMore
  simp [Screen.getScreenHeight]

theorem resize_proj (w h : Nat) (s : Screen) :
    (resize w h s).line_indexes
        = rebuild w s.wrap_style s.scroll_buffer s.scroll_buffer_length
    ∧ (resize w h s).scroll_buffer = s.scroll_buffer
    ∧ (resize w h s).scroll_buffer_length = s.scroll_buffer_length
    ∧ (resize w h s).window_width = w
    ∧ (resize w h s).window_height = h
    ∧ (resize w h s).wrap_style = s.wrap_style
    ∧ (resize w h s).selected_window = s.selected_window
    ∧ (resize w h s).validate_size = s.validate_size
    ∧ (resize w h s).use_more = s.use_more
    ∧ (resize w h s).state = s.state
    ∧ (resize w h s).input_start_location.line_start
        = (rebuild w s.wrap_style s.scroll_buffer s.scroll_buffer_length).length
    ∧ (resize w h s).input_start_location.line_width = w := by
  have hres : resize w h s = recalcBody { s with grid := CharGrid.create w h } := by
    unfold resize recalculateAndRedraw
    rw [if_pos (Or.inr (Or.inr rfl))]
  obtain ⟨p1, p2, p3, p4, p5, p6, p7, p8⟩ := preFoldState_proj { s with grid := CharGrid.create w h }
  simp only [show ({ s with grid := CharGrid.create w h } : Screen).grid.width = w from rfl,
    show ({ s with grid := CharGrid.create w h } : Screen).grid.height = h from rfl,
    show ({ s with grid := CharGrid.create w h } : Screen).scroll_buffer = s.scroll_buffer from rfl,
    show ({ s with grid := CharGrid.create w h } : Screen).scroll_buffer_length
      = s.scroll_buffer_length from rfl,
    show ({ s with grid := CharGrid.create w h } : Screen).wrap_style = s.wrap_style from rfl]
    at p1 p2 p3 p4 p5 p6 p7 p8
  obtain ⟨r1, r2, r3, r4, r5, r6, r7, r8, r9, r10, r11, r12⟩ :=
    replayFold_proj (List.range (preFoldState { s with grid := CharGrid.create w h }).scroll_buffer_length)
      (preFoldState { s with grid := CharGrid.create w h })
  rw [hres, recalcBody_eq]
  dsimp only
  have hrebuild : (List.range
        (preFoldState { s with grid := CharGrid.create w h }).scroll_buffer_length).foldl
      (fun lis i => pureStep (preFoldState { s with grid := CharGrid.create w h }).window_width
        (preFoldState { s with grid := CharGrid.create w h }).wrap_style
        (preFoldState { s with grid := CharGrid.create w h }).scroll_buffer lis
        ((preFoldState { s with grid := CharGrid.create w h }).scroll_buffer.getD i ' '))
      (preFoldState { s with grid := CharGrid.create w h }).line_indexes
      = rebuild w s.wrap_style s.scroll_buffer s.scroll_buffer_length := by
    rw [p1, p2, p3, p5, p6]
    rfl
  refine ⟨?_, ?_, ?_, ?_, ?_, ?_, ?_, ?_, ?_, ?_, ?_, ?_⟩
  · rw [drawStatus_line_indexes, r1, hrebuild]
  · rw [drawStatus_scroll_buffer, r2, p1]
  · rw [drawStatus_scroll_buffer_length, r3, p2]
  · rw [drawStatus_window_width, r4, p3]
    rfl
  · rw [drawStatus_window_height, r5, p4]
    rfl
  · rw [drawStatus_wrap_style, r6, p5]
  · rw [drawStatus_selected_window, r7, p7]
  · rw [drawStatus_validate_size, r8, p8]
  · rfl
  · rfl
  · show (getCursorLocation _).line_start = _
    unfold getCursorLocation
    dsimp only
    rw [drawStatus_line_indexes, r1, hrebuild]
  · show (getCursorLocation _).line_width = _
    unfold getCursorLocation Screen.getScreenWidth
    dsimp only
    rw [drawStatus_window_width, r4, p3]
    rfl

theorem recalcBody_proj (s : Screen) :
    (recalcBody s).line_indexes
        = rebuild s.grid.width s.wrap_style s.scroll_buffer s.scroll_buffer_length
    ∧ (recalcBody s).scroll_buffer = s.scroll_buffer
    ∧ (recalcBody s).scroll_buffer_length = s.scroll_buffer_length
    ∧ (recalcBody s).window_width = s.grid.width
    ∧ (recalcBody s).window_height = s.grid.height
    ∧ (recalcBody s).wrap_style = s.wrap_style
    ∧ (recalcBody s).selected_window = s.selected_window
    ∧ (recalcBody s).validate_size = s.validate_size
    ∧ (recalcBody s).use_more = s.use_more
    ∧ (recalcBody s).state = s.state := by
  obtain ⟨p1, p2, p3, p4, p5, p6, p7, p8⟩ := preFoldState_proj s
  obtain ⟨r1, r2, r3, r4, r5, r6, r7, r8, r9, r10, r11, r12⟩ :=
    replayFold_proj (List.range (preFoldState s).scroll_buffer_length) (preFoldState s)
  rw [recalcBody_eq]
  dsimp only
  have hrebuild : (List.range (preFoldState s).scroll_buffer_length).foldl
      (fun lis i => pureStep (preFoldState s).window_width (preFoldState s).wrap_style
        (preFoldState s).scroll_buffer lis ((preFoldState s).scroll_buffer.getD i ' '))
      (preFoldState s).line_indexes
      = rebuild s.grid.width s.wrap_style s.scroll_buffer s.scroll_buffer_length := by
    rw [p1, p2, p3, p5, p6]
    rfl
  refine ⟨?_, ?_, ?_, ?_, ?_, ?_, ?_, ?_, ?_, ?_⟩
  · rw [drawStatus_line_indexes, r1, hrebuild]
  · rw [drawStatus_scroll_buffer, r2, p1]
  · rw [drawStatus_scroll_buffer_length, r3, p2]
  · rw [drawStatus_window_width, r4, p3]
  · rw [drawStatus_window_height, r5, p4]
  · rw [drawStatus_wrap_style, r6, p5]
  · rw [drawStatus_selected_window, r7, p7]
  · rw [drawStatus_validate_size, r8, p8]
  · rfl
  · rfl

theorem initializeScreen_proj (v : ZCodeVersion) (s : Screen) :
    (initializeScreen v s).scroll_buffer = resizeWith s.scroll_buffer SCROLL_BUFFER_INITIAL_SIZE ' '
    ∧ (initializeScreen v s).scroll_buffer_length = s.scroll_buffer_length
    ∧ (initializeScreen v s).wrap_style = s.wrap_style
    ∧ (initializeScreen v s).selected_window = s.selected_window
    ∧ (initializeScreen v s).state = s.state
    ∧ (initializeScreen v s).use_more = s.use_more
    ∧ (initializeScreen v s).validate_size = s.validate_size := by
  have h : initializeScreen v s
      = recalcBody { s with version := v, scroll_buffer := resizeWith s.scroll_buffer SCROLL_BUFFER_INITIAL_SIZE ' ' } := by
    unfold initializeScreen recalculateAndRedraw
    rw [if_pos (Or.inr (Or.inr rfl))]
  obtain ⟨q1, q2, q3, q4, q5, q6, q7, q8, q9, q10⟩ :=
    recalcBody_proj { s with version := v, scroll_buffer := resizeWith s.scroll_buffer SCROLL_BUFFER_INITIAL_SIZE ' ' }
  rw [h]
  exact ⟨q2, q3, q6, q7, q10, q9, q8⟩

theorem mkScreen_proj (w h : Nat) (st : WrapStyle) :
    (mkScreen w h st).window_width = w
    ∧ (mkScreen w h st).window_height = h
    ∧ (mkScreen w h st).wrap_style = st
    ∧ (mkScreen w h st).selected_window = WindowLayout.Lower
    ∧ (mkScreen w h st).state = ScreenState.Output
    ∧ (mkScreen w h st).use_more = false
    ∧ (mkScreen w h st).scroll_buffer_length = 0
    ∧ (mkScreen w h st).scroll_buffer = List.replicate SCROLL_BUFFER_INITIAL_SIZE ' '
    ∧ (mkScreen w h st).line_indexes = [⟨0, 0⟩]
    ∧ (mkScreen w h st).input_start_location.line_start = 1
    ∧ (mkScreen w h st).input_start_location.line_width = w := by
  obtain ⟨i1, i2, i3, i4, i5, i6, i7⟩ := initializeScreen_proj ZCodeVersion.V3 create
  have hbuf : (initializeScreen ZCodeVersion.V3 create).scroll_buffer
      = List.replicate SCROLL_BUFFER_INITIAL_SIZE ' ' := by
    rw [i1]
    show resizeWith ([] : List Char) SCROLL_BUFFER_INITIAL_SIZE ' ' = _
    unfold resizeWith
    rw [List.take_nil, List.length_nil, Nat.sub_zero, List.nil_append]
  unfold mkScreen
  obtain ⟨z1, z2, z3, z4, z5, z6, z7, z8, z9, z10, z11, z12⟩ :=
    resize_proj w h { initializeScreen ZCodeVersion.V3 create with
      validate_size := false, wrap_style := st }
  refine ⟨?_, ?_, ?_, ?_, ?_, ?_, ?_, ?_, ?_, ?_, ?_⟩
  · rw [z4]
  · rw [z5]
  · rw [z6]
  · rw [z7]
    show (initializeScreen ZCodeVersion.V3 create).selected_window = _
    rw [i4]
    rfl
  · rw [z10]
    show (initializeScreen ZCodeVersion.V3 create).state = _
    rw [i5]
    rfl
  · rw [z9]
    show (initializeScreen ZCodeVersion.V3 create).use_more = _
    rw [i6]
    rfl
  · rw [z3]
    show (initializeScreen ZCodeVersion.V3 create).scroll_buffer_length = _
    rw [i2]
    rfl
  · rw [z2]
    show (initializeScreen ZCodeVersion.V3 create).scroll_buffer = _
    rw [hbuf]
  · rw [z1]
    show rebuild w st _ ({ initializeScreen ZCodeVersion.V3 create with
      validate_size := false, wrap_style := st } : Screen).scroll_buffer_length = _
    show rebuild w st _ (initializeScreen ZCodeVersion.V3 create).scroll_buffer_length = _
    rw [i2]
    rfl
  · rw [z11]
    show (rebuild w st _ ({ initializeScreen ZCodeVersion.V3 create with
      validate_size := false, wrap_style := st } : Screen).scroll_buffer_length).length = _
    show (rebuild w st _ (initializeScreen ZCodeVersion.V3 create).scroll_buffer_length).length = _
    rw [i2]
    rfl
  · rw [z12]

theorem mkScreen_coherent (w h : Nat) (st : WrapStyle) :
    Coherent (mkScreen w h st) ∧ CapOK (mkScreen w h st) := by
  obtain ⟨m1, m2, m3, m4, m5, m6, m7, m8, m9, m10, m11⟩ := mkScreen_proj w h st
  constructor
  · unfold Coherent
    rw [m1, m3, m7, m9]
    rfl
  · unfold CapOK
    rw [m7, m8, List.length_replicate]
    decide

/-!  ## print preserves coherence and the screen geometry -/

theorem ptlFold_proj (str : List Char) (s : Screen) :
    (ptlFold str s).window_width = s.window_width
    ∧ (ptlFold str s).window_height = s.window_height
    ∧ (ptlFold str s).wrap_style = s.wrap_style
    ∧ (ptlFold str s).selected_window = s.selected_window
    ∧ (ptlFold str s).validate_size = s.validate_size
    ∧ (ptlFold str s).input_start_location = s.input_start_location
    ∧ (ptlFold str s).upper_window = s.upper_window := by
  induction str generalizing s with
  | nil => exact ⟨rfl, rfl, rfl, rfl, rfl, rfl, rfl⟩
  | cons c cs ih =>
    obtain ⟨u1, u2, u3, u4, u5, u6, u7, u8, u9, u10, u11, u12, u13⟩ := printToLowerChar_proj c s
    obtain ⟨v1, v2, v3, v4, v5, v6, v7⟩ := ih (printToLowerChar c s)
    rw [ptlFold_cons]
    exact ⟨by rw [v1, u1], by rw [v2, u2], by rw [v3, u3], by rw [v4, u4], by rw [v5, u11],
      by rw [v6, u5], by rw [v7, u6]⟩

theorem printToLower_proj (str : List Char) (s : Screen) :
    (printToLower str s).window_width = s.window_width
    ∧ (printToLower str s).window_height = s.window_height
    ∧ (printToLower str s).wrap_style = s.wrap_style
    ∧ (printToLower str s).selected_window = s.selected_window
    ∧ (printToLower str s).validate_size = s.validate_size := by
  obtain ⟨v1, v2, v3, v4, v5, v6, v7⟩ := ptlFold_proj str s
  rcases printToLower_cases str s with h | h <;> rw [h] <;>
    simp [v1, v2, v3, v4, v5]

theorem print_eq_printToLower (str : List Char) (s : Screen)
    (hsel : s.selected_window = WindowLayout.Lower) : print str s = printToLower str s := by
  unfold print
  rw [hsel]

theorem print_lower_invariants (str : List Char) (s : Screen)
    (hsel : s.selected_window = WindowLayout.Lower) (hco : Coherent s) (hcap : CapOK s) :
    Coherent (print str s) ∧ CapOK (print str s)
    ∧ (print str s).window_width = s.window_width
    ∧ (print str s).window_height = s.window_height
    ∧ (print str s).wrap_style = s.wrap_style
    ∧ (print str s).selected_window = WindowLayout.Lower := by
  rw [print_eq_printToLower str s hsel]
  obtain ⟨h1, h2⟩ := coherent_printToLower str s hco hcap
  obtain ⟨w1, w2, w3, w4, w5⟩ := printToLower_proj str s
  exact ⟨h1, h2, w1, w2, w3, by rw [w4, hsel]⟩

/-- A sequence of print calls. -/
def printSeq (ps : List (List Char)) (s : Screen) : Screen :=
  ps.foldl (fun s str => print str s) s

/-- A sequence of resize calls. -/
def resizeSeq (rs : List (Nat × Nat)) (s : Screen) : Screen :=
  rs.foldl (fun s p => resize p.1 p.2 s) s

theorem printSeq_cons (str : List Char) (t : List (List Char)) (s : Screen) :
    printSeq (str :: t) s = printSeq t (print str s) := rfl

theorem resizeSeq_cons (p : Nat × Nat) (t : List (Nat × Nat)) (s : Screen) :
    resizeSeq (p :: t) s = resizeSeq t (resize p.1 p.2 s) := rfl

theorem printSeq_invariants (ps : List (List Char)) (s : Screen)
    (hsel : s.selected_window = WindowLayout.Lower) (hco : Coherent s) (hcap : CapOK s) :
    Coherent (printSeq ps s) ∧ CapOK (printSeq ps s)
    ∧ (printSeq ps s).window_width = s.window_width
    ∧ (printSeq ps s).window_height = s.window_height
    ∧ (printSeq ps s).wrap_style = s.wrap_style
    ∧ (printSeq ps s).selected_window = WindowLayout.Lower := by
  induction ps generalizing s with
  | nil => exact ⟨hco, hcap, rfl, rfl, rfl, hsel⟩
  | cons str t ih =>
    obtain ⟨h1, h2, h3, h4, h5, h6⟩ := print_lower_invariants str s hsel hco hcap
    obtain ⟨g1, g2, g3, g4, g5, g6⟩ := ih (print str s) h6 h1 h2
    exact ⟨g1, g2, by rw [printSeq_cons, g3, h3], by rw [printSeq_cons, g4, h4],
      by rw [printSeq_cons, g5, h5], g6⟩

theorem resizeSeq_proj (rs : List (Nat × Nat)) (s : Screen) :
    (resizeSeq rs s).scroll_buffer = s.scroll_buffer
    ∧ (resizeSeq rs s).scroll_buffer_length = s.scroll_buffer_length
    ∧ (resizeSeq rs s).wrap_style = s.wrap_style := by
  induction rs generalizing s with
  | nil => exact ⟨rfl, rfl, rfl⟩
  | cons p t ih =>
    obtain ⟨z1, z2, z3, z4, z5, z6, z7, z8, z9, z10, z11, z12⟩ := resize_proj p.1 p.2 s
    obtain ⟨g1, g2, g3⟩ := ih (resize p.1 p.2 s)
    exact ⟨by rw [resizeSeq_cons, g1, z2], by rw [resizeSeq_cons, g2, z3],
      by rw [resizeSeq_cons, g3, z6]⟩

end Screenlib

/-- C1: for every sequence of prints to the lower window followed by any
sequence of resizes, the scroll buffer and its length are unchanged by the
resizes, and after resizing back to the original width and height the line
index equals the line index before any resize.  The start state is any
coherent screen (its line index is the replay of its scroll buffer, as
initialize/resize always establish) whose lower window is selected. -/
theorem C1_resize_round_trip (s0 : Screenlib.Screen) (ps : List (List Char))
    (rs : List (Nat × Nat)) (hco : Screenlib.Coherent s0) (hcap : Screenlib.CapOK s0)
    (hsel : s0.selected_window = Screenlib.WindowLayout.Lower) :
    (Screenlib.resizeSeq rs (Screenlib.printSeq ps s0)).scroll_buffer
        = (Screenlib.printSeq ps s0).scroll_buffer
    ∧ (Screenlib.resizeSeq rs (Screenlib.printSeq ps s0)).scroll_buffer_length
        = (Screenlib.printSeq ps s0).scroll_buffer_length
    ∧ (Screenlib.resize s0.window_width s0.window_height
          (Screenlib.resizeSeq rs (Screenlib.printSeq ps s0))).line_indexes
        = (Screenlib.printSeq ps s0).line_indexes
    ∧ (Screenlib.resize s0.window_width s0.window_height
          (Screenlib.resizeSeq rs (Screenlib.printSeq ps s0))).scroll_buffer
        = (Screenlib.printSeq ps s0).scroll_buffer
    ∧ (Screenlib.resize s0.window_width s0.window_height
          (Screenlib.resizeSeq rs (Screenlib.printSeq ps s0))).scroll_buffer_length
        = (Screenlib.printSeq ps s0).scroll_buffer_length := by
  obtain ⟨h1, h2, h3, h4, h5, h6⟩ := Screenlib.printSeq_invariants ps s0 hsel hco hcap
  obtain ⟨g1, g2, g3⟩ := Screenlib.resizeSeq_proj rs (Screenlib.printSeq ps s0)
  obtain ⟨z1, z2, z3, z4, z5, z6, z7, z8, z9, z10, z11, z12⟩ :=
    Screenlib.resize_proj s0.window_width s0.window_height
      (Screenlib.resizeSeq rs (Screenlib.printSeq ps s0))
  refine ⟨g1, g2, ?_, by rw [z2, g1], by rw [z3, g2]⟩
  rw [z1, g1, g2, g3]
  unfold Screenlib.Coherent at h1
  rw [h1, h3, h5]

/-- Witness for C1 at a concrete screen, print and resize sequence. -/
theorem C1_resize_round_trip_witness :
    (Screenlib.resizeSeq [(15, 4)]
        (Screenlib.printSeq ["hi".data]
          (Screenlib.mkScreen 20 3 Screenlib.WrapStyle.WrapOnPunctuation))).scroll_buffer
        = (Screenlib.printSeq ["hi".data]
            (Screenlib.mkScreen 20 3 Screenlib.WrapStyle.WrapOnPunctuation)).scroll_buffer
    ∧ (Screenlib.resizeSeq [(15, 4)]
          (Screenlib.printSeq ["hi".data]
            (Screenlib.mkScreen 20 3 Screenlib.WrapStyle.WrapOnPunctuation))).scroll_buffer_length
        = (Screenlib.printSeq ["hi".data]
            (Screenlib.mkScreen 20 3 Screenlib.WrapStyle.WrapOnPunctuation)).scroll_buffer_length
    ∧ (Screenlib.resize
          (Screenlib.mkScreen 20 3 Screenlib.WrapStyle.WrapOnPunctuation).window_width
          (Screenlib.mkScreen 20 3 Screenlib.WrapStyle.WrapOnPunctuation).window_height
          (Screenlib.resizeSeq [(15, 4)]
            (Screenlib.printSeq ["hi".data]
              (Screenlib.mkScreen 20 3 Screenlib.WrapStyle.WrapOnPunctuation)))).line_indexes
        = (Screenlib.printSeq ["hi".data]
            (Screenlib.mkScreen 20 3 Screenlib.WrapStyle.WrapOnPunctuation)).line_indexes
    ∧ (Screenlib.resize
          (Screenlib.mkScreen 20 3 Screenlib.WrapStyle.WrapOnPunctuation).window_width
          (Screenlib.mkScreen 20 3 Screenlib.WrapStyle.WrapOnPunctuation).window_height
          (Screenlib.resizeSeq [(15, 4)]
            (Screenlib.printSeq ["hi".data]
              (Screenlib.mkScreen 20 3 Screenlib.WrapStyle.WrapOnPunctuation)))).scroll_buffer
        = (Screenlib.printSeq ["hi".data]
            (Screenlib.mkScreen 20 3 Screenlib.WrapStyle.WrapOnPunctuation)).scroll_buffer
    ∧ (Screenlib.resize
          (Screenlib.mkScreen 20 3 Screenlib.WrapStyle.WrapOnPunctuation).window_width
          (Screenlib.mkScreen 20 3 Screenlib.WrapStyle.WrapOnPunctuation).window_height
          (Screenlib.resizeSeq [(15, 4)]
            (Screenlib.printSeq ["hi".data]
              (Screenlib.mkScreen 20 3 Screenlib.WrapStyle.WrapOnPunctuation)))).scroll_buffer_length
        = (Screenlib.printSeq ["hi".data]
            (Screenlib.mkScreen 20 3 Screenlib.WrapStyle.WrapOnPunctuation)).scroll_buffer_length :=
  C1_resize_round_trip (Screenlib.mkScreen 20 3 Screenlib.WrapStyle.WrapOnPunctuation)
    ["hi".data] [(15, 4)]
    (Screenlib.mkScreen_coherent 20 3 Screenlib.WrapStyle.WrapOnPunctuation).1
    (Screenlib.mkScreen_coherent 20 3 Screenlib.WrapStyle.WrapOnPunctuation).2
    (Screenlib.mkScreen_proj 20 3 Screenlib.WrapStyle.WrapOnPunctuation).2.2.2.1

namespace Screenlib

/-!  ## Filling a line and crossing the width boundary -/

theorem ptlFold_fill (cs : List Char) (s : Screen) (A : List LineIndex) (st0 l0 : Nat)
    (hnn : ∀ c ∈ cs, c ≠ '\n') (hlis : s.line_indexes = A ++ [⟨st0, l0⟩])
    (hle : l0 + cs.length ≤ s.window_width) :
    (ptlFold cs s).line_indexes = A ++ [⟨st0, l0 + cs.length⟩] := by
  induction cs generalizing s l0 with
  | nil =>
    rw [ptlFold_nil, hlis]
    simp
  | cons c cs ih =>
    rw [ptlFold_cons]
    have hc : c ≠ '\n' := hnn c (List.mem_cons_self c cs)
    have hlt : l0 < s.window_width := by
      simp only [List.length_cons] at hle
      omega
    have hstep : (printToLowerChar c s).line_indexes = A ++ [⟨st0, l0 + 1⟩] := by
      rw [printToLowerChar_line_indexes, hlis]
      exact pureStep_noPush s.window_width s.wrap_style s.scroll_buffer A ⟨st0, l0⟩ c hc hlt
    obtain ⟨u1, _⟩ := printToLowerChar_proj c s
    have := ih (printToLowerChar c s) (l0 + 1)
      (fun c hmem => hnn c (List.mem_cons_of_mem _ hmem)) hstep
      (by rw [u1]; simp only [List.length_cons] at hle; omega)
    rw [this]
    have : l0 + 1 + cs.length = l0 + (cs.length + 1) := by omega
    rw [this]
    rfl

theorem ptl_boundary_hard (c : Char) (s : Screen) (A : List LineIndex) (st0 l0 : Nat)
    (hc : c ≠ '\n') (hlis : s.line_indexes = A ++ [⟨st0, l0⟩])
    (hst : s.wrap_style = WrapStyle.Wrap) (hge : s.window_width ≤ l0) :
    (printToLowerChar c s).line_indexes
      = A ++ [⟨st0, min l0 s.window_width⟩, ⟨st0 + l0, 1⟩] := by
  rw [printToLowerChar_line_indexes, hlis, hst]
  exact pureStep_push_hard s.window_width WrapStyle.Wrap s.scroll_buffer A ⟨st0, l0⟩ c hc
    (Or.inl rfl) hge

end Screenlib

/-- C3: under the hard-wrap policy, printing a string of width+k printable
non-space characters (0 < k < width) into an empty lower window produces a
first line-index entry of length exactly width followed by a second entry of
length exactly k. -/
theorem C3_hard_wrap_boundary (w h k : Nat) (cs : List Char)
    (hh : 0 < h) (hk0 : 0 < k) (hkw : k < w) (hlen : cs.length = w + k)
    (hprint : ∀ c ∈ cs, Screenlib.MIN_CHAR ≤ c ∧ c ≤ Screenlib.MAX_CHAR ∧ c ≠ ' ') :
    (Screenlib.print cs (Screenlib.mkScreen w h Screenlib.WrapStyle.Wrap)).line_indexes
      = [⟨0, w⟩, ⟨w, k⟩] := by
  obtain ⟨m1, m2, m3, m4, m5, m6, m7, m8, m9, m10, m11⟩ :=
    Screenlib.mkScreen_proj w h Screenlib.WrapStyle.Wrap
  have hnn : ∀ c ∈ cs, c ≠ '\n' := by
    intro c hmem heq
    obtain ⟨hlo, -, -⟩ := hprint c hmem
    subst heq
    rw [Char.le_def] at hlo
    exact absurd hlo (by decide)
  set s := Screenlib.mkScreen w h Screenlib.WrapStyle.Wrap with hs
  rw [Screenlib.print_eq_printToLower cs s m4]
  have hsplit : cs = cs.take w ++ cs.drop w := (List.take_append_drop w cs).symm
  have hlen1 : (cs.take w).length = w := by
    rw [List.length_take]
    omega
  have hlen2 : (cs.drop w).length = k := by
    rw [List.length_drop]
    omega
  have hfold : (Screenlib.ptlFold cs s).line_indexes = [⟨0, w⟩, ⟨w, k⟩] := by
    rw [hsplit, Screenlib.ptlFold_append]
    have hfill1 : (Screenlib.ptlFold (cs.take w) s).line_indexes = [⟨0, 0 + (cs.take w).length⟩] := by
      exact Screenlib.ptlFold_fill (cs.take w) s [] 0 0
        (fun c hmem => hnn c (List.mem_of_mem_take hmem)) m9 (by rw [m1]; omega)
    rw [hlen1] at hfill1
    obtain ⟨f1, f2, f3, f4, _⟩ := Screenlib.ptlFold_proj (cs.take w) s
    cases hdrop : cs.drop w with
    | nil => rw [hdrop] at hlen2; simp at hlen2; omega
    | cons c2 cs2 =>
      rw [Screenlib.ptlFold_cons]
      have hc2 : c2 ≠ '\n' := by
        apply hnn
        have : c2 ∈ cs.drop w := by rw [hdrop]; exact List.mem_cons_self c2 cs2
        exact List.mem_of_mem_drop this
      have hbound : (Screenlib.printToLowerChar c2 (Screenlib.ptlFold (cs.take w) s)).line_indexes
          = [⟨0, min w (Screenlib.ptlFold (cs.take w) s).window_width⟩, ⟨0 + w, 1⟩] := by
        exact Screenlib.ptl_boundary_hard c2 (Screenlib.ptlFold (cs.take w) s) [] 0 w hc2
          (by simpa using hfill1) (by rw [f3, m3]) (by rw [f1, m1])
      rw [f1, m1] at hbound
      simp only [Nat.zero_add, Nat.min_self] at hbound
      have hfill2 := Screenlib.ptlFold_fill cs2 (Screenlib.printToLowerChar c2 (Screenlib.ptlFold (cs.take w) s))
        [⟨0, w⟩] w 1
        (fun c hmem => hnn c (List.mem_of_mem_drop (by rw [hdrop]; exact List.mem_cons_of_mem _ hmem)))
        hbound
        (by
          obtain ⟨p1, _⟩ := Screenlib.printToLowerChar_proj c2 (Screenlib.ptlFold (cs.take w) s)
          rw [p1, f1, m1]
          have : cs2.length = k - 1 := by
            have := hlen2
            rw [hdrop] at this
            simp at this
            omega
          omega)
      rw [hfill2]
      have hcs2 : cs2.length = k - 1 := by
        have := hlen2
        rw [hdrop] at this
        simp at this
        omega
      rw [hcs2]
      have : 1 + (k - 1) = k := by omega
      rw [this]
      rfl
  rcases Screenlib.printToLower_cases cs s with hcase | hcase <;> rw [hcase]
  · exact hfold
  · rw [Screenlib.redraw_line_indexes]
    exact hfold

/-- Witness for C3 at width 5, height 3, k = 2, printing 7 digits. -/
theorem C3_hard_wrap_boundary_witness :
    (Screenlib.print "0123456".data
        (Screenlib.mkScreen 5 3 Screenlib.WrapStyle.Wrap)).line_indexes
      = [⟨0, 5⟩, ⟨5, 2⟩] :=
  C3_hard_wrap_boundary 5 3 2 "0123456".data (by decide) (by decide) (by decide) (by decide)
    (by decide)

namespace Screenlib

/-!  ## Scroll-buffer content after printing (for C10) -/

theorem ptlFold_buffer (cs : List Char) (s : Screen) (hcap : CapOK s) :
    (ptlFold cs s).scroll_buffer_length = s.scroll_buffer_length + cs.length
    ∧ CapOK (ptlFold cs s)
    ∧ (∀ i, i < s.scroll_buffer_length →
        (ptlFold cs s).scroll_buffer.getD i ' ' = s.scroll_buffer.getD i ' ')
    ∧ (∀ j, j < cs.length →
        (ptlFold cs s).scroll_buffer.getD (s.scroll_buffer_length + j) ' '
          = storedChar (cs.getD j ' ')) := by
  induction cs generalizing s with
  | nil =>
    refine ⟨by simp [ptlFold_nil], by simpa [ptlFold_nil] using hcap, fun i hi => rfl, ?_⟩
    intro j hj
    simp at hj
  | cons c cs ih =>
    rw [ptlFold_cons]
    have hlen := printToLowerChar_length c s
    have hbuf := printToLowerChar_buffer c s
    have hcap' : CapOK (printToLowerChar c s) := by
      unfold CapOK
      rw [hlen, hbuf]
      exact pushedBuffer_length s.scroll_buffer s.scroll_buffer_length (storedChar c) hcap
    obtain ⟨g1, g2, g3, g4⟩ := ih (printToLowerChar c s) hcap'
    refine ⟨?_, g2, ?_, ?_⟩
    · rw [g1, hlen]
      simp only [List.length_cons]
      omega
    · intro i hi
      rw [g3 i (by rw [hlen]; omega), hbuf]
      exact pushedBuffer_getD_below s.scroll_buffer s.scroll_buffer_length (storedChar c) i
        (by omega) (by unfold CapOK at hcap; omega)
    · intro j hj
      cases j with
      | zero =>
        rw [Nat.add_zero]
        rw [g3 s.scroll_buffer_length (by rw [hlen]; omega), hbuf]
        rw [pushedBuffer_getD_self s.scroll_buffer s.scroll_buffer_length (storedChar c) hcap]
        rfl
      | succ j' =>
        have := g4 j' (by simp only [List.length_cons] at hj; omega)
        rw [hlen] at this
        rw [show s.scroll_buffer_length + (j' + 1) = s.scroll_buffer_length + 1 + j' by omega]
        rw [this]
        rfl

/-- The normalization the claim describes: a newline or printable ASCII
char is kept verbatim, anything else becomes a question mark. -/
def specNormalize (c : Char) : Char :=
  if c = '\n' then c
  else if Char.ofNat 32 ≤ c ∧ c ≤ Char.ofNat 126 then c
  else '?'

/-- A char the claim allows in the scroll buffer. -/
def specClean (c : Char) : Prop :=
  c = '\n' ∨ (Char.ofNat 32 ≤ c ∧ c ≤ Char.ofNat 126)

instance (c : Char) : Decidable (specClean c) := by
  unfold specClean
  infer_instance

theorem storedChar_eq_specNormalize (c : Char) : storedChar c = specNormalize c := by
  unfold storedChar specNormalize MIN_CHAR MAX_CHAR
  by_cases hn : c = '\n'
  · rw [if_pos hn, if_pos hn]
  · rw [if_neg hn, if_neg hn]
    by_cases hr : c < Char.ofNat 32 ∨ Char.ofNat 126 < c
    · rw [if_pos hr, if_neg (by
        rintro ⟨h1, h2⟩
        rcases hr with h | h
        · exact absurd h1 (not_le_of_lt h)
        · exact absurd h2 (not_le_of_lt h))]
    · rw [if_neg hr, if_pos (by
        rw [not_or] at hr
        exact ⟨le_of_not_lt hr.1, le_of_not_lt hr.2⟩)]

theorem specClean_specNormalize (c : Char) : specClean (specNormalize c) := by
  unfold specClean specNormalize
  by_cases hn : c = '\n'
  · rw [if_pos hn]
    exact Or.inl hn
  · rw [if_neg hn]
    by_cases hr : Char.ofNat 32 ≤ c ∧ c ≤ Char.ofNat 126
    · rw [if_pos hr]
      exact Or.inr hr
    · rw [if_neg hr]
      exact Or.inr (by decide)

end Screenlib

/-- C10: every char printed to the lower window is appended to the scroll
buffer verbatim when it is a newline or printable ASCII (32..126), and as a
question mark otherwise; hence the scroll buffer only ever contains newlines
and printable ASCII characters. -/
theorem C10_printable_filter (s : Screenlib.Screen) (cs : List Char)
    (hcap : Screenlib.CapOK s)
    (hclean : ∀ i, i < s.scroll_buffer_length →
      Screenlib.specClean (s.scroll_buffer.getD i ' ')) :
    (Screenlib.printToLower cs s).scroll_buffer_length = s.scroll_buffer_length + cs.length
    ∧ (∀ i, i < s.scroll_buffer_length →
        (Screenlib.printToLower cs s).scroll_buffer.getD i ' ' = s.scroll_buffer.getD i ' ')
    ∧ (∀ j, j < cs.length →
        (Screenlib.printToLower cs s).scroll_buffer.getD (s.scroll_buffer_length + j) ' '
          = Screenlib.specNormalize (cs.getD j ' '))
    ∧ (∀ i, i < (Screenlib.printToLower cs s).scroll_buffer_length →
        Screenlib.specClean ((Screenlib.printToLower cs s).scroll_buffer.getD i ' ')) := by
  obtain ⟨g1, g2, g3, g4⟩ := Screenlib.ptlFold_buffer cs s hcap
  have heq : (Screenlib.printToLower cs s).scroll_buffer = (Screenlib.ptlFold cs s).scroll_buffer
      ∧ (Screenlib.printToLower cs s).scroll_buffer_length
        = (Screenlib.ptlFold cs s).scroll_buffer_length := by
    rcases Screenlib.printToLower_cases cs s with h | h <;> rw [h] <;> simp
  obtain ⟨hb, hl⟩ := heq
  refine ⟨by rw [hl, g1], ?_, ?_, ?_⟩
  · intro i hi
    rw [hb]
    exact g3 i hi
  · intro j hj
    rw [hb, ← Screenlib.storedChar_eq_specNormalize]
    exact g4 j hj
  · intro i hi
    rw [hl, g1] at hi
    rw [hb]
    rcases Nat.lt_or_ge i s.scroll_buffer_length with hlt | hge
    · rw [g3 i hlt]
      exact hclean i hlt
    · have hj : i - s.scroll_buffer_length < cs.length := by omega
      have := g4 (i - s.scroll_buffer_length) hj
      rw [show s.scroll_buffer_length + (i - s.scroll_buffer_length) = i by omega] at this
      rw [this, Screenlib.storedChar_eq_specNormalize]
      exact Screenlib.specClean_specNormalize _

/-- Witness for C10: printing a letter, a control char and a newline on a
fresh screen. -/
theorem C10_printable_filter_witness :
    (Screenlib.printToLower ['a', Char.ofNat 7, '\n']
        (Screenlib.mkScreen 20 3 Screenlib.WrapStyle.WrapOnPunctuation)).scroll_buffer_length
        = (Screenlib.mkScreen 20 3 Screenlib.WrapStyle.WrapOnPunctuation).scroll_buffer_length + 3
    ∧ (∀ i, i < (Screenlib.mkScreen 20 3 Screenlib.WrapStyle.WrapOnPunctuation).scroll_buffer_length →
        (Screenlib.printToLower ['a', Char.ofNat 7, '\n']
            (Screenlib.mkScreen 20 3 Screenlib.WrapStyle.WrapOnPunctuation)).scroll_buffer.getD i ' '
          = (Screenlib.mkScreen 20 3 Screenlib.WrapStyle.WrapOnPunctuation).scroll_buffer.getD i ' ')
    ∧ (∀ j, j < (['a', Char.ofNat 7, '\n'] : List Char).length →
        (Screenlib.printToLower ['a', Char.ofNat 7, '\n']
            (Screenlib.mkScreen 20 3 Screenlib.WrapStyle.WrapOnPunctuation)).scroll_buffer.getD
            ((Screenlib.mkScreen 20 3 Screenlib.WrapStyle.WrapOnPunctuation).scroll_buffer_length + j) ' '
          = Screenlib.specNormalize ((['a', Char.ofNat 7, '\n'] : List Char).getD j ' '))
    ∧ (∀ i, i < (Screenlib.printToLower ['a', Char.ofNat 7, '\n']
          (Screenlib.mkScreen 20 3 Screenlib.WrapStyle.WrapOnPunctuation)).scroll_buffer_length →
        Screenlib.specClean ((Screenlib.printToLower ['a', Char.ofNat 7, '\n']
            (Screenlib.mkScreen 20 3 Screenlib.WrapStyle.WrapOnPunctuation)).scroll_buffer.getD i ' ')) :=
  C10_printable_filter (Screenlib.mkScreen 20 3 Screenlib.WrapStyle.WrapOnPunctuation)
    ['a', Char.ofNat 7, '\n']
    (Screenlib.mkScreen_coherent 20 3 Screenlib.WrapStyle.WrapOnPunctuation).2
    (by
      rw [(Screenlib.mkScreen_proj 20 3 Screenlib.WrapStyle.WrapOnPunctuation).2.2.2.2.2.2.1]
      intro i hi
      omega)

namespace Screenlib

/-!  ## Grid geometry is stable under drawing (for C9) -/

theorem CharGrid.addch_width (g : CharGrid) (c : Char) : (g.addch c).width = g.width := by
  unfold CharGrid.addch
  split
  · split <;> rfl
  · rfl

theorem CharGrid.addstr_width (g : CharGrid) (l : List Char) : (g.addstr l).width = g.width := by
  induction l generalizing g with
  | nil => rfl
  | cons c t ih =>
    show ((g.addch c).addstr t).width = g.width
    rw [ih (g.addch c), CharGrid.addch_width]

theorem CharGrid.setReverse_width (g : CharGrid) (b : Bool) : (g.setReverse b).width = g.width :=
  rfl

theorem CharGrid.mv_width (g : CharGrid) (row col : Nat) : (g.mv row col).width = g.width := rfl

end Screenlib

/-- C9: for every pair of status strings, draw_status leaves the grid cursor
exactly where it was: it saves (row, col) = (cursor / width, cursor % width)
and restores cursor = width * row + col at the end. -/
theorem C9_draw_status_preserves_cursor (s : Screenlib.Screen) (l r : List Char) :
    (Screenlib.drawStatus l r s).grid.cursor = s.grid.cursor := by
  unfold Screenlib.drawStatus
  dsimp only
  split <;> split <;>
    (show (Screenlib.CharGrid.mv _ _ _).cursor = _
     unfold Screenlib.CharGrid.mv Screenlib.CharGrid.toIndex Screenlib.CharGrid.getCurYX
     dsimp only
     simp only [Screenlib.CharGrid.addstr_width, Screenlib.CharGrid.setReverse_width,
       Screenlib.CharGrid.mv_width]
     exact Nat.div_add_mod s.grid.cursor s.grid.width)

/-- C8 counterexample: after typing one char of line input,
stop_waiting_for_input returns the state to Output but the partial line is
still observable through last_input. -/
theorem C8_counterexample :
    (Screenlib.processInput 'a' (Screenlib.waitForLine 5
        (Screenlib.mkScreen 15 4 Screenlib.WrapStyle.WrapOnPunctuation))).1.state
        = Screenlib.ScreenState.WaitingForLine
    ∧ (Screenlib.stopWaitingForInput (Screenlib.processInput 'a' (Screenlib.waitForLine 5
        (Screenlib.mkScreen 15 4 Screenlib.WrapStyle.WrapOnPunctuation))).1).state
        = Screenlib.ScreenState.Output
    ∧ Screenlib.lastInput (Screenlib.stopWaitingForInput
        (Screenlib.processInput 'a' (Screenlib.waitForLine 5
          (Screenlib.mkScreen 15 4 Screenlib.WrapStyle.WrapOnPunctuation))).1) = ['a']
    ∧ (['a'] : List Char) ≠ [] := by
  refine ⟨by decide, by decide, by decide, by decide⟩

/-- C8 amended: stop_waiting_for_input unconditionally sets the state to
Output, but it does not discard the partially typed line: the
last_input_buffer is left unchanged, so the partial input typed since the
last wait_for_line remains observable via last_input. -/
theorem C8_stop_waiting (s : Screenlib.Screen) :
    (Screenlib.stopWaitingForInput s).state = Screenlib.ScreenState.Output
    ∧ (Screenlib.stopWaitingForInput s).last_input_buffer = s.last_input_buffer
    ∧ Screenlib.lastInput (Screenlib.stopWaitingForInput s) = Screenlib.lastInput s :=
  ⟨rfl, rfl, rfl⟩


namespace Screenlib

/-!  ## erase_chars and backspace (for C5) -/

theorem popScrollBuffer_proj (s : Screen) :
    (popScrollBuffer s).scroll_buffer = s.scroll_buffer
    ∧ (popScrollBuffer s).state = s.state
    ∧ (popScrollBuffer s).last_input_buffer = s.last_input_buffer
    ∧ (popScrollBuffer s).input_start_location = s.input_start_location
    ∧ (popScrollBuffer s).max_input_length = s.max_input_length
    ∧ (popScrollBuffer s).window_width = s.window_width
    ∧ (popScrollBuffer s).line_indexes = s.line_indexes := by
  unfold popScrollBuffer
  split <;> exact ⟨rfl, rfl, rfl, rfl, rfl, rfl, rfl⟩

theorem popLine_proj (s : Screen) :
    (popLine s).scroll_buffer = s.scroll_buffer
    ∧ (popLine s).scroll_buffer_length = s.scroll_buffer_length
    ∧ (popLine s).state = s.state
    ∧ (popLine s).last_input_buffer = s.last_input_buffer
    ∧ (popLine s).input_start_location = s.input_start_location
    ∧ (popLine s).max_input_length = s.max_input_length
    ∧ (popLine s).window_width = s.window_width := by
  unfold popLine
  split
  · exact ⟨rfl, rfl, rfl, rfl, rfl, rfl, rfl⟩
  · dsimp only
    split <;> refine ⟨rfl, rfl, rfl, rfl, rfl, rfl, rfl⟩

theorem eraseCharsGo_proj (n : Nat) (s : Screen) :
    (eraseCharsGo n s).scroll_buffer = s.scroll_buffer
    ∧ (eraseCharsGo n s).state = s.state
    ∧ (eraseCharsGo n s).last_input_buffer = s.last_input_buffer
    ∧ (eraseCharsGo n s).input_start_location = s.input_start_location
    ∧ (eraseCharsGo n s).max_input_length = s.max_input_length
    ∧ (eraseCharsGo n s).window_width = s.window_width := by
  induction n generalizing s with
  | zero => exact ⟨rfl, rfl, rfl, rfl, rfl, rfl⟩
  | succ m ih =>
    unfold eraseCharsGo
    dsimp only
    split
    · obtain ⟨g1, g2, g3, g4, g5, g6⟩ := ih { popScrollBuffer s with
        line_indexes := updateLast (fun li => { li with length := li.length - 1 })
          (popScrollBuffer s).line_indexes }
      obtain ⟨p1, p2, p3, p4, p5, p6, p7⟩ := popScrollBuffer_proj s
      exact ⟨by rw [g1]; exact p1, by rw [g2]; exact p2, by rw [g3]; exact p3,
        by rw [g4]; exact p4, by rw [g5]; exact p5, by rw [g6]; exact p6⟩
    · obtain ⟨g1, g2, g3, g4, g5, g6⟩ := ih { popLine s with
        scroll_buffer_length := (popLine s).scroll_buffer_length - 1 }
      obtain ⟨q1, q2, q3, q4, q5, q6, q7⟩ := popLine_proj s
      exact ⟨by rw [g1]; exact q1, by rw [g2]; exact q3, by rw [g3]; exact q4,
        by rw [g4]; exact q5, by rw [g5]; exact q6, by rw [g6]; exact q7⟩

theorem eraseChars_proj (n : Nat) (s : Screen) :
    (eraseChars n s).scroll_buffer = s.scroll_buffer
    ∧ (eraseChars n s).state = s.state
    ∧ (eraseChars n s).last_input_buffer = s.last_input_buffer
    ∧ (eraseChars n s).input_start_location = s.input_start_location
    ∧ (eraseChars n s).max_input_length = s.max_input_length
    ∧ (eraseChars n s).window_width = s.window_width := by
  obtain ⟨g1, g2, g3, g4, g5, g6⟩ := eraseCharsGo_proj n s
  unfold eraseChars
  exact ⟨by rw [redraw_scroll_buffer]; exact g1, by rw [redraw_state]; exact g2,
    by rw [redraw_last_input_buffer]; exact g3,
    by rw [redraw_input_start_location]; exact g4,
    by rw [redraw_max_input_length]; exact g5,
    by rw [redraw_window_width]; exact g6⟩

theorem eraseCharsGo_one_length (s : Screen) (h : 1 ≤ s.scroll_buffer_length) :
    (eraseCharsGo 1 s).scroll_buffer_length = s.scroll_buffer_length - 1 := by
  unfold eraseCharsGo
  dsimp only
  split
  · show (popScrollBuffer s).scroll_buffer_length = _
    unfold popScrollBuffer
    rw [if_pos (by omega)]
  · show ((popLine s).scroll_buffer_length - 1 : Nat) = _
    rw [(popLine_proj s).2.1]

theorem eraseChars_one_length (s : Screen) (h : 1 ≤ s.scroll_buffer_length) :
    (eraseChars 1 s).scroll_buffer_length = s.scroll_buffer_length - 1 := by
  unfold eraseChars
  rw [redraw_scroll_buffer_length]
  exact eraseCharsGo_one_length s h

/-- Iterated backspace keystrokes through process_input. -/
def backspaces : Nat → Screen → Screen
  | 0, s => s
  | n + 1, s => backspaces n (processInput BACKSPACE s).1

/-- One backspace in WaitingForLine: the scroll buffer array is untouched,
the state stays WaitingForLine, and the buffer length keeps tracking
L0 + (chars still typed). -/
theorem backspace_step (s : Screen) (L0 : Nat)
    (hst : s.state = ScreenState.WaitingForLine)
    (hlen : s.scroll_buffer_length = L0 + s.last_input_buffer.length) :
    (processInput BACKSPACE s).1.state = ScreenState.WaitingForLine
    ∧ (processInput BACKSPACE s).1.scroll_buffer = s.scroll_buffer
    ∧ (processInput BACKSPACE s).1.scroll_buffer_length
        = L0 + (processInput BACKSPACE s).1.last_input_buffer.length := by
  unfold processInput
  split
  · next heq =>
    rw [hst] at heq
    exact absurd heq (by decide)
  · next heq =>
    rw [hst] at heq
    exact absurd heq (by decide)
  case h_4 heq =>
    rw [hst] at heq
    exact absurd heq (by decide)
  case h_3 heq =>
  dsimp only
  rw [if_neg (show ¬ BACKSPACE = '\n' by decide), if_pos (rfl : BACKSPACE = BACKSPACE)]
  split
  · next hguard =>
    have hne : s.last_input_buffer ≠ [] := by
      intro hnil
      apply hguard.1
      rw [hnil]
      rfl
    have hpos : 1 ≤ s.scroll_buffer_length := by
      rw [hlen]
      have : s.last_input_buffer.length ≠ 0 := by
        intro h0
        exact hne (List.eq_nil_of_length_eq_zero h0)
      omega
    obtain ⟨e1, e2, e3, e4, e5, e6⟩ := eraseChars_proj 1
      { s with scroll_window_top := calculateBottomScrollWindow s, last_input_buffer := s.last_input_buffer.dropLast }
    have hlen1 := eraseChars_one_length
      { s with scroll_window_top := calculateBottomScrollWindow s, last_input_buffer := s.last_input_buffer.dropLast }
      (by dsimp only; omega)
    refine ⟨by rw [e2]; exact hst, by rw [e1], ?_⟩
    rw [hlen1, e3]
    dsimp only
    rw [List.length_dropLast]
    have : s.last_input_buffer.length ≠ 0 := by
      intro h0
      exact hne (List.eq_nil_of_length_eq_zero h0)
    omega
  · exact ⟨hst, rfl, hlen⟩

theorem backspaces_inv (n : Nat) (s : Screen) (L0 : Nat)
    (hst : s.state = ScreenState.WaitingForLine)
    (hlen : s.scroll_buffer_length = L0 + s.last_input_buffer.length) :
    (backspaces n s).state = ScreenState.WaitingForLine
    ∧ (backspaces n s).scroll_buffer = s.scroll_buffer
    ∧ (backspaces n s).scroll_buffer_length
        = L0 + (backspaces n s).last_input_buffer.length := by
  induction n generalizing s with
  | zero => exact ⟨hst, rfl, hlen⟩
  | succ m ih =>
    obtain ⟨b1, b2, b3⟩ := backspace_step s L0 hst hlen
    obtain ⟨g1, g2, g3⟩ := ih (processInput BACKSPACE s).1 b1 b3
    exact ⟨g1, by rw [show backspaces (m + 1) s = backspaces m (processInput BACKSPACE s).1 from rfl,
      g2, b2], g3⟩

theorem waitForLine_proj (m : Nat) (s0 : Screen) :
    (waitForLine m s0).scroll_buffer = s0.scroll_buffer
    ∧ (waitForLine m s0).scroll_buffer_length = s0.scroll_buffer_length
    ∧ (waitForLine m s0).last_input_buffer = []
    ∧ (waitForLine m s0).line_indexes = s0.line_indexes
    ∧ (s0.state ≠ ScreenState.WaitingForMore
        → (waitForLine m s0).state = ScreenState.WaitingForLine) := by
  unfold waitForLine
  dsimp only
  cases hs : s0.state <;>
    simp [hs] <;>
    (intro h; exact absurd hs h)

theorem backspace_noop (s : Screen) (hst : s.state = ScreenState.WaitingForLine)
    (hempty : s.last_input_buffer = []) :
    (processInput BACKSPACE s).1.scroll_buffer = s.scroll_buffer
    ∧ (processInput BACKSPACE s).1.scroll_buffer_length = s.scroll_buffer_length
    ∧ (processInput BACKSPACE s).1.line_indexes = s.line_indexes
    ∧ (processInput BACKSPACE s).1.last_input_buffer = s.last_input_buffer
    ∧ (processInput BACKSPACE s).1.state = ScreenState.WaitingForLine
    ∧ (processInput BACKSPACE s).1.grid = s.grid := by
  unfold processInput
  split
  · next heq =>
    rw [hst] at heq
    exact absurd heq (by decide)
  · next heq =>
    rw [hst] at heq
    exact absurd heq (by decide)
  case h_4 heq =>
    rw [hst] at heq
    exact absurd heq (by decide)
  case h_3 heq =>
  dsimp only
  rw [if_neg (show ¬ BACKSPACE = '\n' by decide), if_pos (rfl : BACKSPACE = BACKSPACE)]
  rw [if_neg (show ¬ (¬ s.last_input_buffer.isEmpty = true ∧ _) from fun h => h.1 (by rw [hempty]; rfl))]
  exact ⟨rfl, rfl, rfl, rfl, hst, rfl⟩

end Screenlib

namespace Screenlib

/-- The chars draw_line emits for one line index (in wrap-on-punctuation
mode a space in the first column is skipped). -/
def lineChars (s : Screen) (li : LineIndex) : List Char :=
  ((List.range li.length).filter (fun j =>
      s.wrap_style ≠ WrapStyle.WrapOnPunctuation ∨ j ≠ 0
        ∨ s.scroll_buffer.getD li.start ' ' ≠ ' ')).map
    (fun j => s.scroll_buffer.getD (j + li.start) ' ')

end Screenlib

/-- C2 counterexample: the claim says the backward scan runs for every
appended non-newline character that overflows a full line.  The code skips
the scan when that character is a space.  At width 13, after printing
"ab cdefghijkl" the line is full and holds a break-eligible space at index
2 (scanOffset = 10), so the claim prescribes the split [(0,3),(3,11)]; the
code instead hard-splits to [(0,13),(13,1)]. -/
theorem C2_counterexample :
    (Screenlib.printChar ' '
        (Screenlib.printToLower "ab cdefghijkl".data
          (Screenlib.testScreen 13 4 Screenlib.WrapStyle.WrapOnPunctuation))).line_indexes
        = [⟨0, 13⟩, ⟨13, 1⟩]
    ∧ (Screenlib.printToLower "ab cdefghijkl".data
          (Screenlib.testScreen 13 4 Screenlib.WrapStyle.WrapOnPunctuation)).line_indexes
        = [⟨0, 13⟩]
    ∧ (Screenlib.printToLower "ab cdefghijkl".data
          (Screenlib.testScreen 13 4 Screenlib.WrapStyle.WrapOnPunctuation)).window_width = 13
    ∧ Screenlib.isWrapChar
        ((Screenlib.printToLower "ab cdefghijkl".data
            (Screenlib.testScreen 13 4 Screenlib.WrapStyle.WrapOnPunctuation)).scroll_buffer.getD
          2 ' ') = true
    ∧ Screenlib.scanOffset
        (Screenlib.printToLower "ab cdefghijkl".data
          (Screenlib.testScreen 13 4 Screenlib.WrapStyle.WrapOnPunctuation)).scroll_buffer 0 13 = 10
    ∧ ([⟨0, 13⟩, ⟨13, 1⟩] : List Screenlib.LineIndex) ≠ [⟨0, 3⟩, ⟨3, 11⟩] := by
  refine ⟨by decide, by decide, by decide, by decide, by decide, by decide⟩

set_option maxRecDepth 100000 in
/-- C2 amended: under wrap-on-boundary, when an appended non-newline,
NON-SPACE character would overflow a line that has reached the screen
width, the engine scans backward for the nearest break-eligible character:
the resulting split keeps the first scanOffset+... chars and carries the
trailing chars to the new line; scanOffset is 0 (hard wrap) when the line
holds no break-eligible character, and length-j-1 when the nearest one is
at index j.  An appended space skips the scan and hard-splits.  At width
20, printing "01234567890123." then "01234567890" yields exactly the two
rendered lines of the claim. -/
theorem C2_wrap_on_boundary (s : Screenlib.Screen) (c : Char) (A : List Screenlib.LineIndex)
    (x : Screenlib.LineIndex)
    (hsel : s.selected_window = Screenlib.WindowLayout.Lower)
    (hstyle : s.wrap_style = Screenlib.WrapStyle.WrapOnPunctuation)
    (hn : c ≠ '\n') (hsp : c ≠ ' ')
    (hlis : s.line_indexes = A ++ [x]) (hxw : x.length = s.window_width)
    (hw : 1 ≤ s.window_width) :
    (Screenlib.printChar c s).line_indexes
      = A ++ [⟨x.start, x.length - Screenlib.scanOffset s.scroll_buffer x.start x.length⟩,
              ⟨x.start + (x.length - Screenlib.scanOffset s.scroll_buffer x.start x.length),
                Screenlib.scanOffset s.scroll_buffer x.start x.length + 1⟩]
    ∧ ((∀ i, i < x.length → ¬ Screenlib.isWrapChar (s.scroll_buffer.getD (i + x.start) ' ')) →
        Screenlib.scanOffset s.scroll_buffer x.start x.length = 0)
    ∧ (∀ j, j < x.length → Screenlib.isWrapChar (s.scroll_buffer.getD (j + x.start) ' ') →
        (∀ j', j < j' → j' < x.length →
          ¬ Screenlib.isWrapChar (s.scroll_buffer.getD (j' + x.start) ' ')) →
        Screenlib.scanOffset s.scroll_buffer x.start x.length = x.length - j - 1)
    ∧ (Screenlib.printToLower "01234567890".data
          (Screenlib.printToLower "01234567890123.".data
            (Screenlib.testScreen 20 3 Screenlib.WrapStyle.WrapOnPunctuation))).line_indexes
        = [⟨0, 15⟩, ⟨15, 11⟩]
    ∧ ((Screenlib.printToLower "01234567890".data
          (Screenlib.printToLower "01234567890123.".data
            (Screenlib.testScreen 20 3 Screenlib.WrapStyle.WrapOnPunctuation))).line_indexes.map
          (Screenlib.lineChars
            (Screenlib.printToLower "01234567890".data
              (Screenlib.printToLower "01234567890123.".data
                (Screenlib.testScreen 20 3 Screenlib.WrapStyle.WrapOnPunctuation)))))
        = ["01234567890123.".data, "01234567890".data] := by
  refine ⟨?_, ?_, ?_, by decide, by decide⟩
  · rw [show Screenlib.printChar c s = Screenlib.print [c] s from rfl,
      Screenlib.print_eq_printToLower [c] s hsel]
    have hfold : Screenlib.ptlFold [c] s = Screenlib.printToLowerChar c s := rfl
    have hlis' : (Screenlib.printToLowerChar c s).line_indexes
        = A ++ [⟨x.start, x.length - Screenlib.scanOffset s.scroll_buffer x.start x.length⟩,
                ⟨x.start + (x.length - Screenlib.scanOffset s.scroll_buffer x.start x.length),
                  Screenlib.scanOffset s.scroll_buffer x.start x.length + 1⟩] := by
      rw [Screenlib.printToLowerChar_line_indexes, hlis, hstyle]
      rw [Screenlib.pureStep_push_scan s.window_width s.scroll_buffer A x c hn hsp (by omega)]
      have hmin : min (x.length - Screenlib.scanOffset s.scroll_buffer x.start x.length)
          s.window_width = x.length - Screenlib.scanOffset s.scroll_buffer x.start x.length := by
        apply Nat.min_eq_left
        omega
      rw [hmin]
    rcases Screenlib.printToLower_cases [c] s with hcase | hcase <;> rw [hcase, hfold]
    · exact hlis'
    · rw [Screenlib.redraw_line_indexes]
      exact hlis'
  · intro hnone
    unfold Screenlib.scanOffset
    exact Screenlib.scanOffsetGo_eq_zero s.scroll_buffer x.start x.length x.length
      (fun j hj => hnone j hj)
  · intro j hj hwc hafter
    unfold Screenlib.scanOffset
    exact Screenlib.scanOffsetGo_found s.scroll_buffer x.start x.length x.length j hj hwc hafter

set_option maxRecDepth 100000 in
/-- Witness for C2 at width 13 with a full line holding a space, appending
the letter z. -/
theorem C2_wrap_on_boundary_witness :
    (Screenlib.printChar 'z'
        (Screenlib.printToLower "ab cdefghijkl".data
          (Screenlib.testScreen 13 4 Screenlib.WrapStyle.WrapOnPunctuation))).line_indexes
      = [] ++ [⟨0, 13 - Screenlib.scanOffset
            (Screenlib.printToLower "ab cdefghijkl".data
              (Screenlib.testScreen 13 4 Screenlib.WrapStyle.WrapOnPunctuation)).scroll_buffer 0 13⟩,
          ⟨0 + (13 - Screenlib.scanOffset
              (Screenlib.printToLower "ab cdefghijkl".data
                (Screenlib.testScreen 13 4 Screenlib.WrapStyle.WrapOnPunctuation)).scroll_buffer 0 13),
            Screenlib.scanOffset
              (Screenlib.printToLower "ab cdefghijkl".data
                (Screenlib.testScreen 13 4 Screenlib.WrapStyle.WrapOnPunctuation)).scroll_buffer 0 13
              + 1⟩] :=
  (C2_wrap_on_boundary
    (Screenlib.printToLower "ab cdefghijkl".data
      (Screenlib.testScreen 13 4 Screenlib.WrapStyle.WrapOnPunctuation))
    'z' [] ⟨0, 13⟩ (by decide) (by decide) (by decide) (by decide) (by decide) (by decide)
    (by decide)).1

namespace Screenlib

/-!  ## Characterizing grid writes (for C7) -/

set_option maxRecDepth 100000 in
/-- Sequential overwrite of grid cells starting at position p. -/
def writeRun (l : List GridChar) (p : Nat) : List GridChar → List GridChar
  | [] => l
  | gc :: cs => writeRun (l.set p gc) (p + 1) cs

theorem writeRun_length (cs : List GridChar) (l : List GridChar) (p : Nat) :
    (writeRun l p cs).length = l.length := by
  induction cs generalizing l p with
  | nil => rfl
  | cons gc t ih =>
    show (writeRun (l.set p gc) (p + 1) t).length = _
    rw [ih, List.length_set]

theorem writeRun_append (cs1 cs2 : List GridChar) (l : List GridChar) (p : Nat) :
    writeRun l p (cs1 ++ cs2) = writeRun (writeRun l p cs1) (p + cs1.length) cs2 := by
  induction cs1 generalizing l p with
  | nil => simp [writeRun]
  | cons gc t ih =>
    show writeRun (l.set p gc) (p + 1) (t ++ cs2) = _
    rw [ih]
    have : p + 1 + t.length = p + (t.length + 1) := by omega
    rw [this]
    rfl

theorem writeRun_getD (cs : List GridChar) (l : List GridChar) (p q : Nat) (d : GridChar)
    (hq : q < l.length) :
    (writeRun l p cs).getD q d
      = if p ≤ q ∧ q < p + cs.length then cs.getD (q - p) d else l.getD q d := by
  induction cs generalizing l p with
  | nil =>
    rw [if_neg (by simp only [List.length_nil]; omega)]
    rfl
  | cons gc t ih =>
    show (writeRun (l.set p gc) (p + 1) t).getD q d = _
    rw [ih (l.set p gc) (p + 1) (by rw [List.length_set]; exact hq)]
    by_cases hq0 : q = p
    · subst hq0
      rw [if_neg (by omega), if_pos (by simp only [List.length_cons]; omega)]
      rw [list_getD_set_self l q gc d hq]
      simp
    · by_cases hin : p + 1 ≤ q ∧ q < p + 1 + t.length
      · rw [if_pos hin, if_pos (by simp only [List.length_cons]; omega)]
        have : q - p = (q - (p + 1)) + 1 := by omega
        rw [this]
        rfl
      · rw [if_neg hin, if_neg (by simp at hin ⊢; omega)]
        exact list_getD_set_ne l q p gc d hq0

theorem map_getD_lt {α β : Type} (f : α → β) (cs : List α) (i : Nat) (d : β) (d' : α)
    (h : i < cs.length) : (cs.map f).getD i d = f (cs.getD i d') := by
  rw [List.getD_eq_getElem (cs.map f) d (by simpa using h), List.getD_eq_getElem cs d' h]
  simp

theorem range_map_getD {α : Type} (cs : List α) (d : α) :
    (List.range cs.length).map (fun i => cs.getD i d) = cs := by
  apply List.ext_getElem
  · simp
  · intro i h1 h2
    simp only [List.getElem_map, List.getElem_range]
    rw [List.getD_eq_getElem cs d (by simpa using h2)]

theorem addch_no_newline (g : CharGrid) (c : Char) (h : c ≠ '\n') :
    g.addch c = { g with grid := g.grid.set g.cursor ⟨c, g.current_style⟩, cursor := g.cursor + 1 } := by
  unfold CharGrid.addch
  rw [if_neg h]

theorem addstr_run (cs : List Char) (g : CharGrid) (h : ∀ c ∈ cs, c ≠ '\n') :
    (g.addstr cs).grid = writeRun g.grid g.cursor (cs.map (fun c => ⟨c, g.current_style⟩))
    ∧ (g.addstr cs).cursor = g.cursor + cs.length
    ∧ (g.addstr cs).current_style = g.current_style := by
  induction cs generalizing g with
  | nil => exact ⟨rfl, rfl, rfl⟩
  | cons c t ih =>
    have hc : c ≠ '\n' := h c (List.mem_cons_self c t)
    have hstep := addch_no_newline g c hc
    obtain ⟨i1, i2, i3⟩ := ih (g.addch c) (fun d hm => h d (List.mem_cons_of_mem _ hm))
    rw [hstep] at i1 i2 i3
    refine ⟨?_, ?_, ?_⟩
    · show (CharGrid.addstr (g.addch c) t).grid = _
      rw [hstep]
      exact i1.trans rfl
    · show (CharGrid.addstr (g.addch c) t).cursor = _
      rw [hstep, i2]
      show g.cursor + 1 + t.length = g.cursor + (c :: t).length
      simp only [List.length_cons]
      omega
    · show (CharGrid.addstr (g.addch c) t).current_style = _
      rw [hstep]
      exact i3

/-- The chars of one row segment [a, b) of the grid. -/
def rowSegment (g : CharGrid) (row a b : Nat) : List Char :=
  (List.range (b - a)).map
    (fun i => (g.grid.getD (g.width * row + (a + i)) ⟨' ', CharStyle.Normal⟩).ch)

end Screenlib

namespace Screenlib

theorem max_right_status_width_eq : MAX_RIGHT_STATUS_WIDTH = 11 := rfl

theorem addstr_addstr (g : CharGrid) (a b : List Char) :
    (g.addstr a).addstr b = g.addstr (a ++ b) := by
  unfold CharGrid.addstr
  rw [List.foldl_append]

/-- The grid part of draw_status, factored out over a plain grid. -/
def dsGrid (left right : List Char) (g0 : CharGrid) (top : Nat) : CharGrid :=
  let window_width := g0.width
  let left_edge := window_width - MAX_RIGHT_STATUS_WIDTH - 1
  let cursor_position := g0.getCurYX
  let g := (g0.setReverse true).mv top 0
  let g :=
    if left.length < left_edge then
      (g.addstr left).addstr (List.replicate (left_edge - left.length) ' ')
    else
      (g.addstr (left.take (left_edge - 4))).addstr "... ".data
  let g :=
    if right.length < MAX_RIGHT_STATUS_WIDTH then
      (g.addstr (List.replicate (window_width - right.length - left_edge) ' ')).addstr right
    else
      g.addstr (right.take (MAX_RIGHT_STATUS_WIDTH + 1))
  (g.setReverse false).mv cursor_position.1 cursor_position.2

theorem drawStatus_eq (l r : List Char) (s : Screen) :
    drawStatus l r s
      = { s with status := ⟨l, r⟩, grid := dsGrid l r s.grid s.status_window.top_index } := rfl

/-- The left half as rendered: padded or ellipsis-truncated to exactly left_edge chars. -/
def leftRendered (left : List Char) (left_edge : Nat) : List Char :=
  if left.length < left_edge then left ++ List.replicate (left_edge - left.length) ' '
  else left.take (left_edge - 4) ++ "... ".data

/-- The right half as rendered: left-padded or truncated to the leading 12 chars. -/
def rightRendered (right : List Char) (window_width left_edge : Nat) : List Char :=
  if right.length < MAX_RIGHT_STATUS_WIDTH then
    List.replicate (window_width - right.length - left_edge) ' ' ++ right
  else right.take (MAX_RIGHT_STATUS_WIDTH + 1)

theorem no_newline_append {a b : List Char} (ha : ∀ c ∈ a, c ≠ '\n')
    (hb : ∀ c ∈ b, c ≠ '\n') : ∀ c ∈ a ++ b, c ≠ '\n' := by
  intro c hc
  rcases List.mem_append.mp hc with h | h
  · exact ha c h
  · exact hb c h

theorem no_newline_replicate (n : Nat) : ∀ c ∈ List.replicate n ' ', c ≠ '\n' := by
  intro c hc
  rw [List.eq_of_mem_replicate hc]
  decide

theorem no_newline_take {a : List Char} (n : Nat) (ha : ∀ c ∈ a, c ≠ '\n') :
    ∀ c ∈ a.take n, c ≠ '\n' :=
  fun c hc => ha c (List.take_subset n a hc)

theorem no_newline_dots : ∀ c ∈ "... ".data, c ≠ '\n' := by decide

theorem dsGrid_width (l r : List Char) (g0 : CharGrid) (top : Nat) :
    (dsGrid l r g0 top).width = g0.width := by
  unfold dsGrid
  dsimp only
  rw [CharGrid.mv_width, CharGrid.setReverse_width]
  split
  · rw [CharGrid.addstr_width, CharGrid.addstr_width]
    split
    · rw [CharGrid.addstr_width, CharGrid.addstr_width, CharGrid.mv_width,
        CharGrid.setReverse_width]
    · rw [CharGrid.addstr_width, CharGrid.addstr_width, CharGrid.mv_width,
        CharGrid.setReverse_width]
  · rw [CharGrid.addstr_width]
    split
    · rw [CharGrid.addstr_width, CharGrid.addstr_width, CharGrid.mv_width,
        CharGrid.setReverse_width]
    · rw [CharGrid.addstr_width, CharGrid.addstr_width, CharGrid.mv_width,
        CharGrid.setReverse_width]

theorem dsGrid_grid (l r : List Char) (g0 : CharGrid) (top : Nat)
    (hl : ∀ c ∈ l, c ≠ '\n') (hr : ∀ c ∈ r, c ≠ '\n') :
    (dsGrid l r g0 top).grid
      = writeRun g0.grid (g0.width * top + 0)
          ((leftRendered l (g0.width - MAX_RIGHT_STATUS_WIDTH - 1)
            ++ rightRendered r g0.width (g0.width - MAX_RIGHT_STATUS_WIDTH - 1)).map
            (fun c => ⟨c, CharStyle.Inverted⟩)) := by
  unfold dsGrid leftRendered rightRendered
  dsimp only
  by_cases hL : l.length < g0.width - MAX_RIGHT_STATUS_WIDTH - 1 <;>
    by_cases hR : r.length < MAX_RIGHT_STATUS_WIDTH
  · simp only [if_pos hL, if_pos hR]
    rw [addstr_addstr, addstr_addstr, addstr_addstr, List.append_assoc]
    obtain ⟨a1, _, _⟩ := addstr_run
      (l ++ (List.replicate (g0.width - MAX_RIGHT_STATUS_WIDTH - 1 - l.length) ' '
        ++ (List.replicate (g0.width - r.length - (g0.width - MAX_RIGHT_STATUS_WIDTH - 1)) ' '
          ++ r)))
      ((g0.setReverse true).mv top 0)
      (no_newline_append hl (no_newline_append (no_newline_replicate _)
        (no_newline_append (no_newline_replicate _) hr)))
    exact a1
  · simp only [if_pos hL, if_neg hR]
    rw [addstr_addstr, addstr_addstr, List.append_assoc]
    obtain ⟨a1, _, _⟩ := addstr_run
      (l ++ (List.replicate (g0.width - MAX_RIGHT_STATUS_WIDTH - 1 - l.length) ' '
        ++ r.take (MAX_RIGHT_STATUS_WIDTH + 1)))
      ((g0.setReverse true).mv top 0)
      (no_newline_append hl (no_newline_append (no_newline_replicate _)
        (no_newline_take _ hr)))
    exact a1
  · simp only [if_neg hL, if_pos hR]
    rw [addstr_addstr, addstr_addstr, addstr_addstr, List.append_assoc]
    obtain ⟨a1, _, _⟩ := addstr_run
      (l.take (g0.width - MAX_RIGHT_STATUS_WIDTH - 1 - 4) ++ ("... ".data
        ++ (List.replicate (g0.width - r.length - (g0.width - MAX_RIGHT_STATUS_WIDTH - 1)) ' '
          ++ r)))
      ((g0.setReverse true).mv top 0)
      (no_newline_append (no_newline_take _ hl) (no_newline_append no_newline_dots
        (no_newline_append (no_newline_replicate _) hr)))
    exact a1
  · simp only [if_neg hL, if_neg hR]
    rw [addstr_addstr, addstr_addstr, List.append_assoc]
    obtain ⟨a1, _, _⟩ := addstr_run
      (l.take (g0.width - MAX_RIGHT_STATUS_WIDTH - 1 - 4) ++ ("... ".data
        ++ r.take (MAX_RIGHT_STATUS_WIDTH + 1)))
      ((g0.setReverse true).mv top 0)
      (no_newline_append (no_newline_take _ hl) (no_newline_append no_newline_dots
        (no_newline_take _ hr)))
    exact a1

end Screenlib

namespace Screenlib

theorem leftRendered_length (l : List Char) (le : Nat) (h4 : 4 ≤ le) :
    (leftRendered l le).length = le := by
  unfold leftRendered
  split
  · rename_i h
    rw [List.length_append, List.length_replicate]
    omega
  · rename_i h
    rw [List.length_append, List.length_take]
    have : ("... ".data).length = 4 := by decide
    rw [this]
    omega

theorem rightRendered_length (r : List Char) (W le : Nat) (hW : 16 ≤ W)
    (hle : le = W - MAX_RIGHT_STATUS_WIDTH - 1)
    (hr : r.length < MAX_RIGHT_STATUS_WIDTH ∨ MAX_RIGHT_STATUS_WIDTH + 1 ≤ r.length) :
    (rightRendered r W le).length = MAX_RIGHT_STATUS_WIDTH + 1 := by
  unfold rightRendered
  rw [max_right_status_width_eq] at *
  split
  · rename_i h
    rw [List.length_append, List.length_replicate]
    omega
  · rename_i h
    rw [List.length_take]
    omega

end Screenlib

/-- C7 counterexample: with a 20-column screen the right status field spans
columns 8..19, and a 13-char right string "0123456789012" is rendered as its
LEADING 12 characters "012345678901", not as the trailing characters
"123456789012" that a truncate-from-the-front policy would keep. -/
theorem C7_counterexample :
    Screenlib.rowSegment
        (Screenlib.drawStatus "Loc".data "0123456789012".data
          (Screenlib.testScreen 20 3 Screenlib.WrapStyle.WrapOnPunctuation)).grid
        0 8 20
      = "012345678901".data
    ∧ Screenlib.rowSegment
        (Screenlib.drawStatus "Loc".data "0123456789012".data
          (Screenlib.testScreen 20 3 Screenlib.WrapStyle.WrapOnPunctuation)).grid
        0 8 20
      ≠ "123456789012".data := by
  constructor
  · decide
  · decide

set_option maxRecDepth 100000 in
/-- C7 (amended): draw_status renders the right status string in the
fixed-width 12-column right field at the right edge of the status row: a
string shorter than 11 chars is right-aligned with leading spaces, and a
string of 12 or more chars is truncated from the BACK, keeping the leading
12 characters (not, as claimed, from the front).  Stated for any screen
wide enough (≥ 16 columns) with a well-formed grid, newline-free status
texts, and a right text whose length is not exactly 11 (for which the
source program panics on the out-of-range slice right[0..12]). -/
theorem C7_right_status_field (s : Screenlib.Screen) (l r : List Char)
    (hW : 16 ≤ s.grid.width)
    (hlen : s.grid.grid.length = s.grid.width * s.grid.height)
    (htop : s.status_window.top_index < s.grid.height)
    (hl : ∀ c ∈ l, c ≠ '\n') (hr : ∀ c ∈ r, c ≠ '\n')
    (hrl : r.length < Screenlib.MAX_RIGHT_STATUS_WIDTH
      ∨ Screenlib.MAX_RIGHT_STATUS_WIDTH + 1 ≤ r.length) :
    Screenlib.rowSegment (Screenlib.drawStatus l r s).grid s.status_window.top_index
        (s.grid.width - Screenlib.MAX_RIGHT_STATUS_WIDTH - 1) s.grid.width
      = (if r.length < Screenlib.MAX_RIGHT_STATUS_WIDTH
          then List.replicate (Screenlib.MAX_RIGHT_STATUS_WIDTH + 1 - r.length) ' ' ++ r
          else r.take (Screenlib.MAX_RIGHT_STATUS_WIDTH + 1)) := by
  have hMw : Screenlib.MAX_RIGHT_STATUS_WIDTH = 11 := rfl
  have hle4 : 4 ≤ s.grid.width - Screenlib.MAX_RIGHT_STATUS_WIDTH - 1 := by omega
  have hL := Screenlib.leftRendered_length l
    (s.grid.width - Screenlib.MAX_RIGHT_STATUS_WIDTH - 1) hle4
  have hR := Screenlib.rightRendered_length r s.grid.width
    (s.grid.width - Screenlib.MAX_RIGHT_STATUS_WIDTH - 1) hW rfl hrl
  have hRHS : (if r.length < Screenlib.MAX_RIGHT_STATUS_WIDTH
        then List.replicate (Screenlib.MAX_RIGHT_STATUS_WIDTH + 1 - r.length) ' ' ++ r
        else r.take (Screenlib.MAX_RIGHT_STATUS_WIDTH + 1))
      = Screenlib.rightRendered r s.grid.width
          (s.grid.width - Screenlib.MAX_RIGHT_STATUS_WIDTH - 1) := by
    unfold Screenlib.rightRendered
    by_cases hc : r.length < Screenlib.MAX_RIGHT_STATUS_WIDTH
    · rw [if_pos hc, if_pos hc]
      have hcnt : Screenlib.MAX_RIGHT_STATUS_WIDTH + 1 - r.length
          = s.grid.width - r.length
            - (s.grid.width - Screenlib.MAX_RIGHT_STATUS_WIDTH - 1) := by omega
      rw [hcnt]
    · rw [if_neg hc, if_neg hc]
  rw [hRHS]
  unfold Screenlib.rowSegment
  simp only [Screenlib.drawStatus_eq]
  simp only [Screenlib.dsGrid_grid l r s.grid s.status_window.top_index hl hr,
    Screenlib.dsGrid_width]
  conv_rhs => rw [← Screenlib.range_map_getD (Screenlib.rightRendered r s.grid.width
    (s.grid.width - Screenlib.MAX_RIGHT_STATUS_WIDTH - 1)) ' ']
  have hcount : (Screenlib.rightRendered r s.grid.width
        (s.grid.width - Screenlib.MAX_RIGHT_STATUS_WIDTH - 1)).length
      = s.grid.width - (s.grid.width - Screenlib.MAX_RIGHT_STATUS_WIDTH - 1) := by
    rw [hR]
    omega
  rw [hcount]
  apply List.map_congr_left
  intro i hi
  rw [List.mem_range] at hi
  have hi12 : i < Screenlib.MAX_RIGHT_STATUS_WIDTH + 1 := by omega
  rw [List.map_append, Screenlib.writeRun_append]
  have hql : s.grid.width * s.status_window.top_index
        + ((s.grid.width - Screenlib.MAX_RIGHT_STATUS_WIDTH - 1) + i)
      < (Screenlib.writeRun s.grid.grid (s.grid.width * s.status_window.top_index + 0)
          ((Screenlib.leftRendered l (s.grid.width - Screenlib.MAX_RIGHT_STATUS_WIDTH - 1)).map
            (fun c => (⟨c, Screenlib.CharStyle.Inverted⟩ : Screenlib.GridChar)))).length := by
    rw [Screenlib.writeRun_length, hlen]
    have h1 : (s.grid.width - Screenlib.MAX_RIGHT_STATUS_WIDTH - 1) + i < s.grid.width := by
      omega
    have h2 : s.status_window.top_index + 1 ≤ s.grid.height := htop
    calc s.grid.width * s.status_window.top_index
          + ((s.grid.width - Screenlib.MAX_RIGHT_STATUS_WIDTH - 1) + i)
        < s.grid.width * s.status_window.top_index + s.grid.width := by omega
      _ = s.grid.width * (s.status_window.top_index + 1) := by ring
      _ ≤ s.grid.width * s.grid.height := Nat.mul_le_mul_left _ h2
  rw [Screenlib.writeRun_getD _ _ _ _ _ hql]
  split
  · rename_i hcnd
    simp only [List.length_map, hL, hR]
    have hqp : s.grid.width * s.status_window.top_index
          + ((s.grid.width - Screenlib.MAX_RIGHT_STATUS_WIDTH - 1) + i)
          - (s.grid.width * s.status_window.top_index + 0
            + (s.grid.width - Screenlib.MAX_RIGHT_STATUS_WIDTH - 1)) = i := by omega
    rw [hqp]
    rw [Screenlib.map_getD_lt (fun c => (⟨c, Screenlib.CharStyle.Inverted⟩ : Screenlib.GridChar))
      (Screenlib.rightRendered r s.grid.width
        (s.grid.width - Screenlib.MAX_RIGHT_STATUS_WIDTH - 1)) i
      ⟨' ', Screenlib.CharStyle.Normal⟩ ' ' (by rw [hR]; exact hi12)]
  · rename_i hcnd
    exfalso
    simp only [List.length_map, hL, hR] at hcnd
    rw [not_and_or] at hcnd
    rcases hcnd with h | h <;> omega

/-- C7 witness: a concrete instance of the amended statement on a 20x3
screen with right text "Time" (4 chars, right-aligned with 8 spaces). -/
theorem C7_right_status_field_witness :
    Screenlib.rowSegment
        (Screenlib.drawStatus "Loc".data "Time".data
          (Screenlib.testScreen 20 3 Screenlib.WrapStyle.WrapOnPunctuation)).grid
        (Screenlib.testScreen 20 3 Screenlib.WrapStyle.WrapOnPunctuation).status_window.top_index
        ((Screenlib.testScreen 20 3 Screenlib.WrapStyle.WrapOnPunctuation).grid.width
          - Screenlib.MAX_RIGHT_STATUS_WIDTH - 1)
        (Screenlib.testScreen 20 3 Screenlib.WrapStyle.WrapOnPunctuation).grid.width
      = (if ("Time".data).length < Screenlib.MAX_RIGHT_STATUS_WIDTH
          then List.replicate (Screenlib.MAX_RIGHT_STATUS_WIDTH + 1 - ("Time".data).length) ' '
            ++ "Time".data
          else ("Time".data).take (Screenlib.MAX_RIGHT_STATUS_WIDTH + 1)) :=
  C7_right_status_field (Screenlib.testScreen 20 3 Screenlib.WrapStyle.WrapOnPunctuation)
    "Loc".data "Time".data (by decide) (by decide) (by decide) (by decide) (by decide)
    (Or.inl (by decide))

namespace Screenlib

/-!  ## MORE-state characterization (for C4) -/

theorem switchToMore_state_iff (s : Screen) (hst : s.state = ScreenState.Output) :
    ((switchToMoreStateIfNeeded s).state = ScreenState.WaitingForMore
      ↔ s.use_more = true
        ∧ s.lower_window.height
            < s.line_indexes.length - s.input_start_location.line_start) := by
  unfold switchToMoreStateIfNeeded
  split
  · next h =>
    exact ⟨fun _ => ⟨h.1, h.2.1⟩, fun _ => rfl⟩
  · next h =>
    constructor
    · intro hx
      rw [hst] at hx
      exact absurd hx (by decide)
    · rintro ⟨h1, h2⟩
      exact absurd ⟨h1, h2, hst⟩ h

theorem pushLine_length (sc : Bool) (lo so : Nat) (s : Screen) :
    (pushLine sc lo so s).line_indexes.length = s.line_indexes.length + 1 := by
  rw [pushLine_line_indexes, List.length_append, updateLast_length]
  rfl

theorem switchPush_state_iff (sc : Bool) (lo so : Nat) (s : Screen)
    (hst : s.state = ScreenState.Output) :
    ((switchToMoreStateIfNeeded (pushLine sc lo so s)).state = ScreenState.WaitingForMore
      ↔ s.use_more = true
        ∧ (pushLine sc lo so s).lower_window.height
            < s.line_indexes.length + 1 - s.input_start_location.line_start) := by
  have hps := pushLine_proj sc lo so s
  have h := switchToMore_state_iff (pushLine sc lo so s)
    (by rw [hps.2.2.2.2.2.2.2.2.2.2.2.1]; exact hst)
  rw [h, hps.2.2.2.2.2.2.2.2.2.2.1, pushLine_length sc lo so s, hps.2.2.2.2.2.2.1]

theorem updateLineIndexes_state_iff (c : Char) (s : Screen)
    (hst : s.state = ScreenState.Output) :
    ((updateLineIndexesForChar c s).state = ScreenState.WaitingForMore
      ↔ s.use_more = true ∧ (c = '\n' ∨ shouldWrap s = true)
        ∧ (updateLineIndexesForChar c s).lower_window.height
            < s.line_indexes.length + 1 - s.input_start_location.line_start) := by
  unfold updateLineIndexesForChar
  dsimp only
  by_cases hp : (c = '\n' ∨ shouldWrap s = true)
  · rw [if_pos hp]
    split
    all_goals
      try dsimp only
      rw [switchPush_state_iff _ _ _ s hst, (switchToMore_proj _).2.2.2.2.2.2.2.2.1]
      exact ⟨fun hh => ⟨hh.1, hp, hh.2⟩, fun hh => ⟨hh.1, hh.2.2⟩⟩
  · rw [if_neg hp]
    split
    all_goals
      try dsimp only
      rw [hst]
      constructor
      · intro hx
        exact absurd hx (by decide)
      · rintro ⟨h1, h2, h3⟩
        exact absurd h2 hp

theorem printToLowerChar_state_lw (c : Char) (s : Screen) :
    (printToLowerChar c s).state = (updateLineIndexesForChar c s).state
    ∧ (printToLowerChar c s).lower_window = (updateLineIndexesForChar c s).lower_window := by
  unfold printToLowerChar
  dsimp only
  split
  · exact ⟨(pushScrollBuffer_proj _ _).2.2.2.2.2.2.2.2.2.2.2.1,
      (pushScrollBuffer_proj _ _).2.2.2.2.2.2.1⟩
  · split <;>
      exact ⟨(pushScrollBuffer_proj _ _).2.2.2.2.2.2.2.2.2.2.2.1,
        (pushScrollBuffer_proj _ _).2.2.2.2.2.2.1⟩

theorem printChar_state_lw (c : Char) (s : Screen)
    (hsel : s.selected_window = WindowLayout.Lower) :
    (printChar c s).state = (printToLowerChar c s).state
    ∧ (printChar c s).lower_window = (printToLowerChar c s).lower_window := by
  unfold printChar print
  split
  · next heq =>
    unfold printToLower
    dsimp only [List.foldl]
    split <;> first
      | exact ⟨redraw_state _, redraw_lower_window _⟩
      | exact ⟨rfl, rfl⟩
  · next heq =>
    rw [hsel] at heq
    exact absurd heq (by decide)

theorem scrollPageDown_proj (s : Screen) :
    (scrollPageDown s).scroll_window_top
        = min (s.scroll_window_top + s.getScreenHeight) (calculateBottomScrollWindow s)
    ∧ (scrollPageDown s).state = s.state
    ∧ (scrollPageDown s).lower_window = s.lower_window
    ∧ (scrollPageDown s).upper_window = s.upper_window
    ∧ (scrollPageDown s).line_indexes = s.line_indexes := by
  unfold scrollPageDown
  dsimp only
  exact ⟨redraw_scroll_window_top _, redraw_state _, redraw_lower_window _,
    redraw_upper_window _, redraw_line_indexes _⟩

theorem calcBottom_congr {s t : Screen} (h1 : t.lower_window = s.lower_window)
    (h2 : t.upper_window = s.upper_window) (h3 : t.line_indexes = s.line_indexes) :
    calculateBottomScrollWindow t = calculateBottomScrollWindow s := by
  unfold calculateBottomScrollWindow
  rw [h1, h2, h3]

theorem processInput_more (d : Char) (t : Screen)
    (ht : t.state = ScreenState.WaitingForMore) :
    (processInput d t).1.scroll_window_top
        = min (t.scroll_window_top + t.getScreenHeight) (calculateBottomScrollWindow t)
    ∧ ((processInput d t).1.state = ScreenState.Output
        ↔ (processInput d t).1.scroll_window_top = calculateBottomScrollWindow t)
    ∧ ((processInput d t).1.state = ScreenState.Output
        ∨ (processInput d t).1.state = ScreenState.WaitingForMore) := by
  obtain ⟨sp1, sp2, sp3, sp4, sp5⟩ := scrollPageDown_proj t
  have hcb : calculateBottomScrollWindow (scrollPageDown t) = calculateBottomScrollWindow t :=
    calcBottom_congr sp3 sp4 sp5
  unfold processInput
  split
  case h_2 heq =>
    rw [ht] at heq
    exact absurd heq (by decide)
  case h_3 heq =>
    rw [ht] at heq
    exact absurd heq (by decide)
  case h_4 heq =>
    rw [ht] at heq
    exact absurd heq (by decide)
  case h_1 heq =>
    dsimp only
    split
    · next hguard =>
      refine ⟨?_, ?_, ?_⟩
      · rw [redraw_scroll_window_top]
        exact sp1
      · constructor
        · intro _
          rw [redraw_scroll_window_top]
          show (scrollPageDown t).scroll_window_top = _
          rw [hguard, hcb]
        · intro _
          rw [redraw_state]
      · left
        rw [redraw_state]
    · next hguard =>
      refine ⟨?_, ?_, ?_⟩
      · rw [redraw_scroll_window_top]
        exact sp1
      · constructor
        · intro hx
          rw [redraw_state, sp2, ht] at hx
          exact absurd hx (by decide)
        · intro hx
          rw [redraw_scroll_window_top] at hx
          exact absurd (by rw [hcb]; exact hx) hguard
      · right
        rw [redraw_state, sp2, ht]

set_option maxRecDepth 100000 in
/-- The concrete MORE scenario: 15x4 screen, paging on. -/
def c4Start : Screen := useMore true (testScreen 15 4 WrapStyle.WrapOnPunctuation)

/-- After printing four newline-terminated lines: waiting at the MORE prompt. -/
def c4More : Screen := print "aaa\nbbb\nccc\nddd\n".data c4Start

/-- After releasing the MORE prompt: back in Output. -/
def c4After : Screen := (processInput ' ' c4More).1

end Screenlib

/-- C4 counterexample: after the MORE prompt is released the screen is back
in Output with paging still on and the rendered-line count since the last
input request (7) still exceeding the Lower region's height (3), yet
printing a further character does NOT transition to WaitingForMore: the
check only fires when a print pushes a new line. -/
theorem C4_counterexample :
    Screenlib.c4After.state = Screenlib.ScreenState.Output
    ∧ Screenlib.c4After.use_more = true
    ∧ Screenlib.c4After.lower_window.height
        < Screenlib.c4After.line_indexes.length
          - Screenlib.c4After.input_start_location.line_start
    ∧ (Screenlib.printChar 'x' Screenlib.c4After).state = Screenlib.ScreenState.Output := by
  refine ⟨?_, ?_, ?_, ?_⟩
  · decide
  · decide
  · decide
  · decide

set_option maxRecDepth 100000 in
/-- C4 (amended): (a) with the Lower window selected, printing a character
from Output yields WaitingForMore exactly when paging is on, the character
pushes a new line (newline or wrap), and the Lower height after the push is
exceeded by the line count (now one larger) since input was last requested;
(b) from WaitingForMore, process_input scrolls one page forward (clamped to
the bottom), and lands in Output if and only if the scroll position reached
the bottom of the buffer, otherwise it stays in WaitingForMore. -/
theorem C4_more_paging (s t : Screenlib.Screen) (c d : Char)
    (hs : s.state = Screenlib.ScreenState.Output)
    (hsel : s.selected_window = Screenlib.WindowLayout.Lower)
    (ht : t.state = Screenlib.ScreenState.WaitingForMore) :
    ((Screenlib.printChar c s).state = Screenlib.ScreenState.WaitingForMore
      ↔ s.use_more = true ∧ (c = '\n' ∨ Screenlib.shouldWrap s = true)
        ∧ (Screenlib.printChar c s).lower_window.height
            < s.line_indexes.length + 1 - s.input_start_location.line_start)
    ∧ (Screenlib.processInput d t).1.scroll_window_top
        = min (t.scroll_window_top + t.getScreenHeight)
            (Screenlib.calculateBottomScrollWindow t)
    ∧ ((Screenlib.processInput d t).1.state = Screenlib.ScreenState.Output
        ↔ (Screenlib.processInput d t).1.scroll_window_top
            = Screenlib.calculateBottomScrollWindow t)
    ∧ ((Screenlib.processInput d t).1.state = Screenlib.ScreenState.Output
        ∨ (Screenlib.processInput d t).1.state = Screenlib.ScreenState.WaitingForMore) := by
  obtain ⟨p1, p2⟩ := Screenlib.printChar_state_lw c s hsel
  obtain ⟨q1, q2⟩ := Screenlib.printToLowerChar_state_lw c s
  obtain ⟨m1, m2, m3⟩ := Screenlib.processInput_more d t ht
  refine ⟨?_, m1, m2, m3⟩
  rw [p1, q1, p2, q2]
  exact Screenlib.updateLineIndexes_state_iff c s hs

/-- C4 witness: the amended statement instantiated at the concrete
scenario, for the print 'x' from Output and a space at the MORE prompt. -/
theorem C4_more_paging_witness :
    ((Screenlib.printChar 'x' Screenlib.c4After).state = Screenlib.ScreenState.WaitingForMore
      ↔ Screenlib.c4After.use_more = true
        ∧ ('x' = '\n' ∨ Screenlib.shouldWrap Screenlib.c4After = true)
        ∧ (Screenlib.printChar 'x' Screenlib.c4After).lower_window.height
            < Screenlib.c4After.line_indexes.length + 1
              - Screenlib.c4After.input_start_location.line_start)
    ∧ (Screenlib.processInput ' ' Screenlib.c4More).1.scroll_window_top
        = min (Screenlib.c4More.scroll_window_top + Screenlib.c4More.getScreenHeight)
            (Screenlib.calculateBottomScrollWindow Screenlib.c4More)
    ∧ ((Screenlib.processInput ' ' Screenlib.c4More).1.state = Screenlib.ScreenState.Output
        ↔ (Screenlib.processInput ' ' Screenlib.c4More).1.scroll_window_top
            = Screenlib.calculateBottomScrollWindow Screenlib.c4More)
    ∧ ((Screenlib.processInput ' ' Screenlib.c4More).1.state = Screenlib.ScreenState.Output
        ∨ (Screenlib.processInput ' ' Screenlib.c4More).1.state
            = Screenlib.ScreenState.WaitingForMore) :=
  C4_more_paging Screenlib.c4After Screenlib.c4More 'x' ' '
    (by decide) (by decide) (by decide)

namespace Screenlib

/-!  ## The line-index invariant (for C6) -/

/-- Strictly increasing list of naturals (adjacent comparison). -/
def natIncr : List Nat → Bool
  | [] => true
  | [_] => true
  | a :: b :: t => decide (a < b) && natIncr (b :: t)

/-- The entry start offsets are strictly increasing in order. -/
def startsIncr (l : List LineIndex) : Bool := natIncr (l.map LineIndex.start)

/-- The spec's Line Index invariant: at least one entry, strictly
increasing starts. -/
def LineInv (s : Screen) : Prop :=
  s.line_indexes ≠ [] ∧ startsIncr s.line_indexes = true

/-- How many chars erase_chars can remove without emptying the line list:
every stored char plus one pop per line other than the first. -/
def eraseBudget (l : List LineIndex) : Nat :=
  (l.map LineIndex.length).sum + l.length - 1

theorem natIncr_cons_cons (a b : Nat) (t : List Nat) :
    natIncr (a :: b :: t) = (decide (a < b) && natIncr (b :: t)) := rfl

theorem natIncr_append_lt (A : List Nat) (x y : Nat)
    (h : natIncr (A ++ [x]) = true) (hxy : x < y) : natIncr (A ++ [x, y]) = true := by
  induction A with
  | nil =>
    simp [natIncr, hxy]
  | cons a t ih =>
    cases t with
    | nil =>
      simp [natIncr] at h ⊢
      exact ⟨h, hxy⟩
    | cons b u =>
      simp only [List.cons_append] at h ⊢
      rw [natIncr_cons_cons, Bool.and_eq_true] at h
      rw [natIncr_cons_cons, Bool.and_eq_true]
      refine ⟨h.1, ?_⟩
      have := ih (by simpa using h.2)
      simpa using this

theorem natIncr_append_left (A B : List Nat) (h : natIncr (A ++ B) = true) :
    natIncr A = true := by
  induction A with
  | nil => rfl
  | cons a t ih =>
    cases t with
    | nil => rfl
    | cons b u =>
      simp only [List.cons_append] at h
      rw [natIncr_cons_cons, Bool.and_eq_true] at h
      rw [natIncr_cons_cons, Bool.and_eq_true]
      exact ⟨h.1, by simpa using ih (by simpa using h.2)⟩

theorem startsIncr_concat_lt (A : List LineIndex) (x y : LineIndex)
    (h : startsIncr (A ++ [x]) = true) (hxy : x.start < y.start) :
    startsIncr (A ++ [x, y]) = true := by
  unfold startsIncr at h ⊢
  rw [List.map_append] at h ⊢
  exact natIncr_append_lt (A.map LineIndex.start) x.start y.start h hxy

theorem startsIncr_dropLast_concat (A : List LineIndex) (x : LineIndex)
    (h : startsIncr (A ++ [x]) = true) : startsIncr A = true := by
  unfold startsIncr at h ⊢
  rw [List.map_append] at h
  exact natIncr_append_left (A.map LineIndex.start) (List.map LineIndex.start [x]) h

theorem startsIncr_same_starts (a b : List LineIndex)
    (h : a.map LineIndex.start = b.map LineIndex.start) :
    startsIncr a = startsIncr b := by
  unfold startsIncr
  rw [h]

theorem pureStep_startsIncr (w : Nat) (st : WrapStyle) (buf : List Char)
    (l : List LineIndex) (c : Char) (hw : 1 ≤ w) (hne : l ≠ [])
    (h : startsIncr l = true) : startsIncr (pureStep w st buf l c) = true := by
  obtain ⟨A, x, rfl⟩ := exists_concat_form hne
  by_cases hn : c = '\n'
  · subst hn
    rw [pureStep_newline]
    exact startsIncr_concat_lt A ⟨x.start, min x.length w⟩ ⟨x.start + x.length + 1, 0⟩
      (by rw [startsIncr_same_starts _ (A ++ [x]) (by simp)]; exact h) (by simp; omega)
  · rcases Nat.lt_or_ge x.length w with hx | hx
    · rw [pureStep_noPush w st buf A x c hn hx]
      rw [startsIncr_same_starts _ (A ++ [x]) (by simp)]
      exact h
    · cases hst : st with
      | Wrap =>
        rw [pureStep_push_hard w _ buf A x c hn (Or.inl rfl) hx]
        exact startsIncr_concat_lt A ⟨x.start, min x.length w⟩ ⟨x.start + x.length, 1⟩
          (by rw [startsIncr_same_starts _ (A ++ [x]) (by simp)]; exact h)
          (by simp; omega)
      | WrapOnPunctuation =>
        by_cases hsp : c = ' '
        · rw [pureStep_push_hard w _ buf A x c hn (Or.inr hsp) hx]
          exact startsIncr_concat_lt A ⟨x.start, min x.length w⟩ ⟨x.start + x.length, 1⟩
            (by rw [startsIncr_same_starts _ (A ++ [x]) (by simp)]; exact h)
            (by simp; omega)
        · rw [pureStep_push_scan w buf A x c hn hsp hx]
          have hs := scanOffset_le buf x.start x.length
          exact startsIncr_concat_lt A
            ⟨x.start, min (x.length - scanOffset buf x.start x.length) w⟩
            ⟨x.start + (x.length - scanOffset buf x.start x.length),
              scanOffset buf x.start x.length + 1⟩
            (by rw [startsIncr_same_starts _ (A ++ [x]) (by simp)]; exact h)
            (by simp; omega)

theorem rebuild_startsIncr (w : Nat) (st : WrapStyle) (buf : List Char) (n : Nat)
    (hw : 1 ≤ w) : startsIncr (rebuild w st buf n) = true := by
  induction n with
  | zero => rfl
  | succ m ih =>
    rw [rebuild_succ]
    exact pureStep_startsIncr w st buf (rebuild w st buf m) (buf.getD m ' ') hw
      (rebuild_ne_nil w st buf m) ih

end Screenlib

namespace Screenlib

theorem popLine_line_indexes (s : Screen) (h : s.line_indexes ≠ []) :
    (popLine s).line_indexes = s.line_indexes.dropLast := by
  unfold popLine
  rw [if_neg (by simp [List.isEmpty_iff, h])]
  dsimp only
  split <;> rfl

theorem eraseBudget_concat (A : List LineIndex) (x : LineIndex) :
    eraseBudget (A ++ [x])
      = (A.map LineIndex.length).sum + x.length + A.length := by
  unfold eraseBudget
  rw [List.map_append, List.sum_append, List.length_append]
  simp

theorem eraseCharsGo_LineInv (n : Nat) (s : Screen)
    (h : LineInv s) (hn : n ≤ eraseBudget s.line_indexes) :
    LineInv (eraseCharsGo n s)
    ∧ eraseBudget (eraseCharsGo n s).line_indexes = eraseBudget s.line_indexes - n := by
  induction n generalizing s with
  | zero => exact ⟨h, (Nat.sub_zero _).symm⟩
  | succ m ih =>
    obtain ⟨A, x, hAx⟩ := exists_concat_form h.1
    have hlast : s.line_indexes.getLastD ⟨0, 0⟩ = x := by
      rw [hAx]
      exact List.getLastD_concat _ _ _
    unfold eraseCharsGo
    dsimp only
    split
    · next hpos =>
      rw [hlast] at hpos
      have hli : (popScrollBuffer s).line_indexes = s.line_indexes :=
        (popScrollBuffer_proj s).2.2.2.2.2.2
      have hli2 : ({ popScrollBuffer s with
          line_indexes := updateLast (fun li => { li with length := li.length - 1 })
            (popScrollBuffer s).line_indexes } : Screen).line_indexes
          = A ++ [⟨x.start, x.length - 1⟩] := by
        dsimp only
        rw [hli, hAx, updateLast_concat]
      have hInv2 : LineInv { popScrollBuffer s with
          line_indexes := updateLast (fun li => { li with length := li.length - 1 })
            (popScrollBuffer s).line_indexes } := by
        constructor
        · rw [hli2]
          simp
        · rw [hli2, startsIncr_same_starts _ (A ++ [x]) (by simp)]
          have h2 := h.2
          rw [hAx] at h2
          exact h2
      have hbud : eraseBudget ({ popScrollBuffer s with
          line_indexes := updateLast (fun li => { li with length := li.length - 1 })
            (popScrollBuffer s).line_indexes } : Screen).line_indexes
          = eraseBudget s.line_indexes - 1 := by
        rw [hli2, hAx, eraseBudget_concat, eraseBudget_concat]
        dsimp only
        omega
      obtain ⟨i1, i2⟩ := ih _ hInv2 (by rw [hbud]; omega)
      refine ⟨i1, ?_⟩
      rw [i2, hbud]
      omega
    · next hzero =>
      rw [hlast] at hzero
      have hx0 : x.length = 0 := by omega
      have hAne : A ≠ [] := by
        intro hA
        rw [hAx, hA] at hn
        rw [eraseBudget_concat] at hn
        simp [hx0] at hn
      have hli : ({ popLine s with
          scroll_buffer_length := (popLine s).scroll_buffer_length - 1 } : Screen).line_indexes
          = A := by
        dsimp only
        rw [popLine_line_indexes s h.1, hAx, List.dropLast_concat]
      have hInv2 : LineInv { popLine s with
          scroll_buffer_length := (popLine s).scroll_buffer_length - 1 } := by
        constructor
        · rw [hli]
          exact hAne
        · rw [hli]
          have h2 := h.2
          rw [hAx] at h2
          exact startsIncr_dropLast_concat A x h2
      have hbud : eraseBudget ({ popLine s with
          scroll_buffer_length := (popLine s).scroll_buffer_length - 1 } : Screen).line_indexes
          = eraseBudget s.line_indexes - 1 := by
        rw [hli, hAx, eraseBudget_concat]
        unfold eraseBudget
        have : A.length ≠ 0 := by
          intro h0
          exact hAne (List.eq_nil_of_length_eq_zero h0)
        omega
      obtain ⟨i1, i2⟩ := ih _ hInv2 (by rw [hbud]; omega)
      refine ⟨i1, ?_⟩
      rw [i2, hbud]
      omega

theorem eraseChars_LineInv (n : Nat) (s : Screen)
    (h : LineInv s) (hn : n ≤ eraseBudget s.line_indexes) :
    LineInv (eraseChars n s) := by
  obtain ⟨i1, _⟩ := eraseCharsGo_LineInv n s h hn
  unfold eraseChars
  exact ⟨by rw [redraw_line_indexes]; exact i1.1, by rw [redraw_line_indexes]; exact i1.2⟩

theorem printToUpperGo_line_indexes (cs : List Char) (s : Screen) :
    (printToUpperGo cs s).line_indexes = s.line_indexes := by
  induction cs generalizing s with
  | nil => rfl
  | cons c t ih =>
    unfold printToUpperGo
    split
    · split
      · rw [ih]
      · rfl
    · split
      · rw [ih]
      · exact ih s

theorem ptlFoldGeneric_LineInv (cs : List Char) (s : Screen)
    (hw : 1 ≤ s.window_width) (h : LineInv s) :
    LineInv (cs.foldl (fun s c => printToLowerChar c s) s)
    ∧ (cs.foldl (fun s c => printToLowerChar c s) s).window_width = s.window_width := by
  induction cs generalizing s with
  | nil => exact ⟨h, rfl⟩
  | cons c t ih =>
    have hli := printToLowerChar_line_indexes c s
    have hww := (printToLowerChar_proj c s).1
    have hInv2 : LineInv (printToLowerChar c s) := by
      constructor
      · rw [hli]
        exact pureStep_ne_nil _ _ _ _ _ h.1
      · rw [hli]
        exact pureStep_startsIncr _ _ _ _ _ hw h.1 h.2
    obtain ⟨i1, i2⟩ := ih (printToLowerChar c s) (by rw [hww]; exact hw) hInv2
    refine ⟨i1, ?_⟩
    show (List.foldl (fun s c => printToLowerChar c s) (printToLowerChar c s) t).window_width
      = s.window_width
    rw [i2, hww]

theorem print_LineInv (str : List Char) (s : Screen)
    (hw : 1 ≤ s.window_width) (h : LineInv s) : LineInv (print str s) := by
  unfold print
  split
  · unfold printToLower
    dsimp only
    obtain ⟨h1, _⟩ := ptlFoldGeneric_LineInv str s hw h
    split
    · exact ⟨by rw [redraw_line_indexes]; exact h1.1, by rw [redraw_line_indexes]; exact h1.2⟩
    · exact ⟨by rw [redraw_line_indexes]; exact h1.1, by rw [redraw_line_indexes]; exact h1.2⟩
    · exact h1
  · unfold printToUpper
    split
    · split
      · exact ⟨by rw [printToUpperGo_line_indexes]; exact h.1,
          by rw [printToUpperGo_line_indexes]; exact h.2⟩
      · exact h
    · exact h

end Screenlib

namespace Screenlib

theorem printChar_LineInv (c : Char) (s : Screen)
    (hw : 1 ≤ s.window_width) (h : LineInv s) : LineInv (printChar c s) :=
  print_LineInv [c] s hw h

theorem processInput_LineInv (c : Char) (s : Screen)
    (hw : 1 ≤ s.window_width)
    (hisl1 : 1 ≤ s.input_start_location.line_start)
    (hisl2 : s.input_start_location.line_width = s.window_width)
    (h : LineInv s) :
    LineInv (processInput c s).1 := by
  unfold processInput
  split
  case h_1 heq =>
    dsimp only
    obtain ⟨sp1, sp2, sp3, sp4, sp5⟩ := scrollPageDown_proj s
    split
    · refine ⟨?_, ?_⟩
      · rw [redraw_line_indexes]
        show (scrollPageDown s).line_indexes ≠ []
        rw [sp5]
        exact h.1
      · rw [redraw_line_indexes]
        show startsIncr (scrollPageDown s).line_indexes = true
        rw [sp5]
        exact h.2
    · refine ⟨?_, ?_⟩
      · rw [redraw_line_indexes, sp5]
        exact h.1
      · rw [redraw_line_indexes, sp5]
        exact h.2
  case h_2 heq =>
    dsimp only
    obtain ⟨sp1, sp2, sp3, sp4, sp5⟩ := scrollPageDown_proj s
    split
    · refine ⟨?_, ?_⟩
      · rw [redraw_line_indexes]
        show (scrollPageDown s).line_indexes ≠ []
        rw [sp5]
        exact h.1
      · rw [redraw_line_indexes]
        show startsIncr (scrollPageDown s).line_indexes = true
        rw [sp5]
        exact h.2
    · refine ⟨?_, ?_⟩
      · rw [redraw_line_indexes, sp5]
        exact h.1
      · rw [redraw_line_indexes, sp5]
        exact h.2
  case h_4 heq => exact h
  case h_3 heq =>
    dsimp only
    split
    · dsimp only
      exact print_LineInv [c] _ hw h
    · split
      · split
        · next hguard =>
          dsimp only
          obtain ⟨A, x, hAx⟩ := exists_concat_form h.1
          have hg2 : s.input_start_location.calculateAbsoluteLocation
              < (getCursorLocation s).calculateAbsoluteLocation := hguard.2
          have hca : (getCursorLocation s).calculateAbsoluteLocation
              = s.line_indexes.length * s.window_width
                + (s.line_indexes.getLastD ⟨0, 0⟩).length := rfl
          have hia : s.window_width ≤ s.input_start_location.calculateAbsoluteLocation := by
            have h1 : s.window_width ≤ s.input_start_location.line_start * s.window_width :=
              Nat.le_mul_of_pos_left _ hisl1
            unfold TextLocation.calculateAbsoluteLocation
            rw [hisl2]
            exact le_trans h1 (Nat.le_add_right _ _)
          have hbud : 1 ≤ eraseBudget s.line_indexes := by
            by_cases hA : A = []
            · subst hA
              have hlen1 : s.line_indexes.length = 1 := by rw [hAx]; rfl
              have hlast : s.line_indexes.getLastD ⟨0, 0⟩ = x := by
                rw [hAx]
                exact List.getLastD_concat _ _ _
              rw [hca, hlen1, hlast, one_mul] at hg2
              have hxpos : 0 < x.length := by omega
              rw [hAx, eraseBudget_concat]
              simp
              omega
            · have hA2 : 1 ≤ A.length := List.length_pos.mpr hA
              rw [hAx, eraseBudget_concat]
              omega
          exact eraseChars_LineInv 1 _ h hbud
        · exact h
      · split
        · dsimp only
          refine ⟨?_, ?_⟩
          · rw [redraw_line_indexes]
            exact (printChar_LineInv c { s with
              scroll_window_top := calculateBottomScrollWindow s,
              last_input_buffer := s.last_input_buffer ++ [c] } hw h).1
          · rw [redraw_line_indexes]
            exact (printChar_LineInv c { s with
              scroll_window_top := calculateBottomScrollWindow s,
              last_input_buffer := s.last_input_buffer ++ [c] } hw h).2
        · exact h

theorem resize_LineInv (w h : Nat) (s : Screen) (hw : 1 ≤ w) :
    LineInv (resize w h s) := by
  obtain ⟨r1, -⟩ := resize_proj w h s
  exact ⟨by rw [r1]; exact rebuild_ne_nil _ _ _ _,
    by rw [r1]; exact rebuild_startsIncr _ _ _ _ hw⟩

theorem scrollToBottom_line_indexes (s : Screen) :
    (scrollToBottom s).line_indexes = s.line_indexes := by
  unfold scrollToBottom
  split <;> rfl

theorem clearWindow_line_indexes (a b : Nat) (s : Screen) :
    (clearWindow a b s).line_indexes = s.line_indexes := rfl

theorem splitWindow_line_indexes (n : Nat) (s : Screen) :
    (splitWindow n s).line_indexes = s.line_indexes := by
  unfold splitWindow
  split
  · dsimp only
    rw [redraw_line_indexes, scrollToBottom_line_indexes]
    split
    · split <;> rfl
    · rw [clearWindow_line_indexes]
      split <;> rfl
  · rfl

end Screenlib

/-- C6 counterexample: on a freshly initialized screen the line index list
is the single entry (0,0); a single erase_chars(1) call pops that line and
leaves the list EMPTY, violating the invariant's "always at least one
entry" part. -/
theorem C6_counterexample :
    (Screenlib.testScreen 20 3 Screenlib.WrapStyle.WrapOnPunctuation).line_indexes
      = [⟨0, 0⟩]
    ∧ (Screenlib.eraseChars 1
        (Screenlib.testScreen 20 3 Screenlib.WrapStyle.WrapOnPunctuation)).line_indexes
      = [] := by
  exact ⟨by decide, by decide⟩

set_option maxRecDepth 100000 in
/-- C6 (amended): the Line Index invariant (non-empty, strictly increasing
starts) is preserved by print, print_char, process_input (on a screen whose
recorded input start lies past the first line, as wait_for_line arranges),
resize to a positive width, split_window, wait_for_line and
stop_waiting_for_input — but erase_chars only preserves it when the erased
count stays within the erase budget of the current lines (total stored
chars plus one pop per line after the first); beyond it the list empties. -/
theorem C6_line_index_invariant (s : Screenlib.Screen) (str : List Char) (c : Char)
    (n w h lines maxlen : Nat)
    (hInv : Screenlib.LineInv s)
    (hw : 1 ≤ s.window_width)
    (hisl1 : 1 ≤ s.input_start_location.line_start)
    (hisl2 : s.input_start_location.line_width = s.window_width)
    (hn : n ≤ Screenlib.eraseBudget s.line_indexes)
    (hw2 : 1 ≤ w) :
    Screenlib.LineInv (Screenlib.print str s)
    ∧ Screenlib.LineInv (Screenlib.printChar c s)
    ∧ Screenlib.LineInv (Screenlib.eraseChars n s)
    ∧ Screenlib.LineInv (Screenlib.processInput c s).1
    ∧ Screenlib.LineInv (Screenlib.resize w h s)
    ∧ Screenlib.LineInv (Screenlib.splitWindow lines s)
    ∧ Screenlib.LineInv (Screenlib.waitForLine maxlen s)
    ∧ Screenlib.LineInv (Screenlib.stopWaitingForInput s) := by
  refine ⟨Screenlib.print_LineInv str s hw hInv,
    Screenlib.printChar_LineInv c s hw hInv,
    Screenlib.eraseChars_LineInv n s hInv hn,
    Screenlib.processInput_LineInv c s hw hisl1 hisl2 hInv,
    Screenlib.resize_LineInv w h s hw2, ?_, ?_, hInv⟩
  · exact ⟨by rw [Screenlib.splitWindow_line_indexes]; exact hInv.1,
      by rw [Screenlib.splitWindow_line_indexes]; exact hInv.2⟩
  · exact ⟨by rw [(Screenlib.waitForLine_proj maxlen s).2.2.2.1]; exact hInv.1,
      by rw [(Screenlib.waitForLine_proj maxlen s).2.2.2.1]; exact hInv.2⟩

/-- C6 witness: the amended invariant statement at a concrete screen (after
"hi\n" and a wait_for_line, so the recorded input start is on line 2),
erasing 1 char within the budget of 3, with a resize to 15x5. -/
theorem C6_line_index_invariant_witness :
    Screenlib.LineInv (Screenlib.print "ok".data
      (Screenlib.waitForLine 7 (Screenlib.print "hi\n".data
        (Screenlib.testScreen 20 3 Screenlib.WrapStyle.WrapOnPunctuation))))
    ∧ Screenlib.LineInv (Screenlib.printChar 'a'
      (Screenlib.waitForLine 7 (Screenlib.print "hi\n".data
        (Screenlib.testScreen 20 3 Screenlib.WrapStyle.WrapOnPunctuation))))
    ∧ Screenlib.LineInv (Screenlib.eraseChars 1
      (Screenlib.waitForLine 7 (Screenlib.print "hi\n".data
        (Screenlib.testScreen 20 3 Screenlib.WrapStyle.WrapOnPunctuation))))
    ∧ Screenlib.LineInv (Screenlib.processInput 'a'
      (Screenlib.waitForLine 7 (Screenlib.print "hi\n".data
        (Screenlib.testScreen 20 3 Screenlib.WrapStyle.WrapOnPunctuation)))).1
    ∧ Screenlib.LineInv (Screenlib.resize 15 5
      (Screenlib.waitForLine 7 (Screenlib.print "hi\n".data
        (Screenlib.testScreen 20 3 Screenlib.WrapStyle.WrapOnPunctuation))))
    ∧ Screenlib.LineInv (Screenlib.splitWindow 1
      (Screenlib.waitForLine 7 (Screenlib.print "hi\n".data
        (Screenlib.testScreen 20 3 Screenlib.WrapStyle.WrapOnPunctuation))))
    ∧ Screenlib.LineInv (Screenlib.waitForLine 7
      (Screenlib.waitForLine 7 (Screenlib.print "hi\n".data
        (Screenlib.testScreen 20 3 Screenlib.WrapStyle.WrapOnPunctuation))))
    ∧ Screenlib.LineInv (Screenlib.stopWaitingForInput
      (Screenlib.waitForLine 7 (Screenlib.print "hi\n".data
        (Screenlib.testScreen 20 3 Screenlib.WrapStyle.WrapOnPunctuation)))) :=
  C6_line_index_invariant
    (Screenlib.waitForLine 7 (Screenlib.print "hi\n".data
      (Screenlib.testScreen 20 3 Screenlib.WrapStyle.WrapOnPunctuation)))
    "ok".data 'a' 1 15 5 1 7
    ⟨by decide, by decide⟩ (by decide) (by decide) (by decide) (by decide) (by decide)

namespace Screenlib

/-!  ## Input typing and the input-start backstop (for C5) -/

theorem pushedBuffer_getD_prefix (buf : List Char) (n : Nat) (c : Char) (i : Nat)
    (h : i < n) : (pushedBuffer buf n c).getD i ' ' = buf.getD i ' ' := by
  rw [pushedBuffer_getD_lt buf n c i (by omega)]
  split
  · next heq => exact List.getD_append _ _ _ _ (by omega)
  · rfl

theorem popScrollBuffer_selected (s : Screen) :
    (popScrollBuffer s).selected_window = s.selected_window := by
  unfold popScrollBuffer
  split <;> rfl

theorem popLine_selected (s : Screen) :
    (popLine s).selected_window = s.selected_window := by
  unfold popLine
  split
  · rfl
  · dsimp only
    split <;> rfl

theorem eraseCharsGo_selected (n : Nat) (s : Screen) :
    (eraseCharsGo n s).selected_window = s.selected_window := by
  induction n generalizing s with
  | zero => rfl
  | succ m ih =>
    unfold eraseCharsGo
    dsimp only
    split
    · rw [ih]
      exact popScrollBuffer_selected s
    · rw [ih]
      exact popLine_selected s

theorem eraseChars_selected (n : Nat) (s : Screen) :
    (eraseChars n s).selected_window = s.selected_window := by
  unfold eraseChars
  rw [redraw_selected_window]
  exact eraseCharsGo_selected n s

theorem scrollPageDown_selected (s : Screen) :
    (scrollPageDown s).selected_window = s.selected_window := by
  unfold scrollPageDown
  dsimp only
  rw [redraw_selected_window]

theorem printToUpperGo_selected (cs : List Char) (s : Screen) :
    (printToUpperGo cs s).selected_window = s.selected_window := by
  induction cs generalizing s with
  | nil => rfl
  | cons c t ih =>
    unfold printToUpperGo
    split
    · split
      · rw [ih]
      · rfl
    · split
      · rw [ih]
      · exact ih s

theorem print_selected (str : List Char) (s : Screen) :
    (print str s).selected_window = s.selected_window := by
  unfold print
  split
  · rcases printToLower_cases str s with h | h <;> rw [h]
    · exact (ptlFold_proj str s).2.2.2.1
    · rw [redraw_selected_window]
      exact (ptlFold_proj str s).2.2.2.1
  · unfold printToUpper
    split
    · split
      · exact printToUpperGo_selected str s
      · rfl
    · rfl

theorem processInput_selected (c : Char) (s : Screen) :
    (processInput c s).1.selected_window = s.selected_window := by
  unfold processInput
  split
  · dsimp only
    split
    · rw [redraw_selected_window]
      exact scrollPageDown_selected s
    · rw [redraw_selected_window]
      exact scrollPageDown_selected s
  · dsimp only
    split
    · rw [redraw_selected_window]
      exact scrollPageDown_selected s
    · rw [redraw_selected_window]
      exact scrollPageDown_selected s
  · dsimp only
    split
    · dsimp only
      exact print_selected [c] _
    · split
      · split
        · exact eraseChars_selected 1 _
        · rfl
      · split
        · dsimp only
          rw [redraw_selected_window]
          exact print_selected [c] _
        · rfl
  · rfl

theorem waitForLine_selected (m : Nat) (s0 : Screen) :
    (waitForLine m s0).selected_window = s0.selected_window := by
  unfold waitForLine
  dsimp only
  split <;> rfl

/-- print_char of an ordinary char while waiting for a line: stays in
WaitingForLine, appends exactly one scroll-buffer char, and leaves the
buffer prefix below the current length untouched. -/
theorem printChar_wfl_facts (c : Char) (s : Screen)
    (hsel : s.selected_window = WindowLayout.Lower)
    (hst : s.state = ScreenState.WaitingForLine) :
    (printChar c s).state = ScreenState.WaitingForLine
    ∧ (printChar c s).selected_window = WindowLayout.Lower
    ∧ (printChar c s).scroll_buffer_length = s.scroll_buffer_length + 1
    ∧ (printChar c s).last_input_buffer = s.last_input_buffer
    ∧ ∀ i, i < s.scroll_buffer_length →
        (printChar c s).scroll_buffer.getD i ' ' = s.scroll_buffer.getD i ' ' := by
  have hstep : (printToLowerChar c s).state = ScreenState.WaitingForLine := by
    rcases printToLowerChar_state c s with h | ⟨h1, h2⟩
    · rw [h, hst]
    · rw [hst] at h2
      exact absurd h2 (by decide)
  have hps := printToLowerChar_proj c s
  have hlen := printToLowerChar_length c s
  have hbuf := printToLowerChar_buffer c s
  rw [show printChar c s = print [c] s from rfl, print_eq_printToLower [c] s hsel]
  have hfold : ptlFold [c] s = printToLowerChar c s := rfl
  rcases printToLower_cases [c] s with h | h <;> rw [h, hfold]
  · refine ⟨hstep, by rw [hps.2.2.2.1]; exact hsel, hlen, hps.2.2.2.2.2.2.1, ?_⟩
    intro i hi
    rw [hbuf]
    exact pushedBuffer_getD_prefix _ _ _ i hi
  · refine ⟨by rw [redraw_state]; exact hstep,
      by rw [redraw_selected_window, hps.2.2.2.1]; exact hsel,
      by rw [redraw_scroll_buffer_length]; exact hlen,
      by rw [redraw_last_input_buffer]; exact hps.2.2.2.2.2.2.1, ?_⟩
    intro i hi
    rw [redraw_scroll_buffer, hbuf]
    exact pushedBuffer_getD_prefix _ _ _ i hi

/-- A sequence of arbitrary keystrokes through process_input. -/
def inputSeq : List Char → Screen → Screen
  | [], s => s
  | c :: cs, s => inputSeq cs (processInput c s).1

/-- One non-newline keystroke (a typed char or a backspace) while waiting
for a line: the state and selected window are unchanged, the stored-char
count keeps tracking L0 + (chars currently typed), and the scroll-buffer
prefix below L0 is untouched. -/
theorem input_step_facts (c : Char) (s : Screen) (L0 : Nat) (hc : c ≠ '\n')
    (hsel : s.selected_window = WindowLayout.Lower)
    (hst : s.state = ScreenState.WaitingForLine)
    (hlen : s.scroll_buffer_length = L0 + s.last_input_buffer.length) :
    (processInput c s).1.state = ScreenState.WaitingForLine
    ∧ (processInput c s).1.selected_window = WindowLayout.Lower
    ∧ (processInput c s).1.scroll_buffer_length
        = L0 + (processInput c s).1.last_input_buffer.length
    ∧ ∀ i, i < L0 →
        (processInput c s).1.scroll_buffer.getD i ' ' = s.scroll_buffer.getD i ' ' := by
  by_cases hb : c = BACKSPACE
  · subst hb
    obtain ⟨b1, b2, b3⟩ := backspace_step s L0 hst hlen
    exact ⟨b1, by rw [processInput_selected]; exact hsel, b3, fun i hi => by rw [b2]⟩
  · unfold processInput
    split
    · next heq =>
      rw [hst] at heq
      exact absurd heq (by decide)
    · next heq =>
      rw [hst] at heq
      exact absurd heq (by decide)
    · next heq =>
      dsimp only
      rw [if_neg hc, if_neg hb]
      split
      · dsimp only
        obtain ⟨p1, p2, p3, p4, p5⟩ := printChar_wfl_facts c
          { s with scroll_window_top := calculateBottomScrollWindow s,
                   last_input_buffer := s.last_input_buffer ++ [c] } hsel hst
        refine ⟨by rw [redraw_state]; exact p1,
          by rw [redraw_selected_window]; exact p2, ?_, ?_⟩
        · rw [redraw_scroll_buffer_length, redraw_last_input_buffer, p3, p4]
          show s.scroll_buffer_length + 1 = L0 + (s.last_input_buffer ++ [c]).length
          rw [List.length_append]
          simp only [List.length_cons, List.length_nil]
          omega
        · intro i hi
          rw [redraw_scroll_buffer]
          exact (p5 i (show i < s.scroll_buffer_length by omega)).trans rfl
      · exact ⟨hst, hsel, hlen, fun i hi => rfl⟩
    · next heq =>
      rw [hst] at heq
      exact absurd heq (by decide)

/-- Any sequence of non-newline keystrokes while waiting for a line keeps
the state, tracks the typed count, and never disturbs the scroll-buffer
prefix below L0. -/
theorem inputSeq_inv (cs : List Char) (s : Screen) (L0 : Nat)
    (hcs : ∀ c ∈ cs, c ≠ '\n')
    (hsel : s.selected_window = WindowLayout.Lower)
    (hst : s.state = ScreenState.WaitingForLine)
    (hlen : s.scroll_buffer_length = L0 + s.last_input_buffer.length) :
    (inputSeq cs s).state = ScreenState.WaitingForLine
    ∧ (inputSeq cs s).selected_window = WindowLayout.Lower
    ∧ (inputSeq cs s).scroll_buffer_length
        = L0 + (inputSeq cs s).last_input_buffer.length
    ∧ ∀ i, i < L0 →
        (inputSeq cs s).scroll_buffer.getD i ' ' = s.scroll_buffer.getD i ' ' := by
  induction cs generalizing s with
  | nil => exact ⟨hst, hsel, hlen, fun i hi => rfl⟩
  | cons c t ih =>
    obtain ⟨p1, p2, p3, p4⟩ :=
      input_step_facts c s L0 (hcs c (List.mem_cons_self c t)) hsel hst hlen
    obtain ⟨q1, q2, q3, q4⟩ := ih (processInput c s).1
      (fun d hd => hcs d (List.mem_cons_of_mem _ hd)) p2 p1 p3
    refine ⟨q1, q2, q3, ?_⟩
    intro i hi
    rw [show inputSeq (c :: t) s = inputSeq t (processInput c s).1 from rfl,
      q4 i hi, p4 i hi]

end Screenlib

/-- C5: while the state is WaitingForLine, no sequence of process_input
keystrokes — typed characters followed by any number of backspaces — ever
removes a scroll-buffer character at or before the position recorded when
wait_for_line was called: the backspaces leave the buffer array completely
untouched, the stored-char count never drops below the count at
wait_for_line, the buffer prefix up to that count still holds the chars it
held at wait_for_line, and a backspace arriving when no input has been
typed leaves the buffer, the line indexes, the input buffer and the state
unchanged. -/
theorem C5_backspace_never_before_start (s0 : Screenlib.Screen) (m n : Nat) (cs : List Char)
    (hst : s0.state ≠ Screenlib.ScreenState.WaitingForMore)
    (hsel : s0.selected_window = Screenlib.WindowLayout.Lower)
    (hcs : ∀ c ∈ cs, c ≠ '\n') :
    (Screenlib.backspaces n (Screenlib.inputSeq cs (Screenlib.waitForLine m s0))).state
        = Screenlib.ScreenState.WaitingForLine
    ∧ (Screenlib.backspaces n (Screenlib.inputSeq cs (Screenlib.waitForLine m s0))).scroll_buffer
        = (Screenlib.inputSeq cs (Screenlib.waitForLine m s0)).scroll_buffer
    ∧ s0.scroll_buffer_length
        ≤ (Screenlib.backspaces n
            (Screenlib.inputSeq cs (Screenlib.waitForLine m s0))).scroll_buffer_length
    ∧ (∀ i, i < s0.scroll_buffer_length →
        (Screenlib.backspaces n
            (Screenlib.inputSeq cs (Screenlib.waitForLine m s0))).scroll_buffer.getD i ' '
          = s0.scroll_buffer.getD i ' ')
    ∧ ((Screenlib.inputSeq cs (Screenlib.waitForLine m s0)).last_input_buffer = [] →
        (Screenlib.processInput Screenlib.BACKSPACE
            (Screenlib.inputSeq cs (Screenlib.waitForLine m s0))).1.scroll_buffer
          = (Screenlib.inputSeq cs (Screenlib.waitForLine m s0)).scroll_buffer
        ∧ (Screenlib.processInput Screenlib.BACKSPACE
            (Screenlib.inputSeq cs (Screenlib.waitForLine m s0))).1.scroll_buffer_length
          = (Screenlib.inputSeq cs (Screenlib.waitForLine m s0)).scroll_buffer_length
        ∧ (Screenlib.processInput Screenlib.BACKSPACE
            (Screenlib.inputSeq cs (Screenlib.waitForLine m s0))).1.line_indexes
          = (Screenlib.inputSeq cs (Screenlib.waitForLine m s0)).line_indexes
        ∧ (Screenlib.processInput Screenlib.BACKSPACE
            (Screenlib.inputSeq cs (Screenlib.waitForLine m s0))).1.last_input_buffer = []
        ∧ (Screenlib.processInput Screenlib.BACKSPACE
            (Screenlib.inputSeq cs (Screenlib.waitForLine m s0))).1.state
          = Screenlib.ScreenState.WaitingForLine) := by
  obtain ⟨w1, w2, w3, w4, w5⟩ := Screenlib.waitForLine_proj m s0
  have hwstate := w5 hst
  have hwsel : (Screenlib.waitForLine m s0).selected_window = Screenlib.WindowLayout.Lower := by
    rw [Screenlib.waitForLine_selected]
    exact hsel
  have hwlen : (Screenlib.waitForLine m s0).scroll_buffer_length
      = s0.scroll_buffer_length + (Screenlib.waitForLine m s0).last_input_buffer.length := by
    rw [w2, w3]
    rfl
  obtain ⟨t1, t2, t3, t4⟩ := Screenlib.inputSeq_inv cs (Screenlib.waitForLine m s0)
    s0.scroll_buffer_length hcs hwsel hwstate hwlen
  obtain ⟨b1, b2, b3⟩ := Screenlib.backspaces_inv n
    (Screenlib.inputSeq cs (Screenlib.waitForLine m s0)) s0.scroll_buffer_length t1 t3
  refine ⟨b1, b2, by rw [b3]; omega, ?_, ?_⟩
  · intro i hi
    rw [b2, t4 i hi, w1]
  · intro hempty
    obtain ⟨n1, n2, n3, n4, n5, n6⟩ := Screenlib.backspace_noop
      (Screenlib.inputSeq cs (Screenlib.waitForLine m s0)) t1 hempty
    exact ⟨n1, n2, n3, by rw [n4, hempty], n5⟩

/-- Witness for C5 on a concrete screen: wait_for_line, type "hi", then
three backspaces (two erase typed chars, the third is the no-op case). -/
theorem C5_backspace_never_before_start_witness :
    (Screenlib.backspaces 3 (Screenlib.inputSeq "hi".data (Screenlib.waitForLine 5
        (Screenlib.testScreen 15 4 Screenlib.WrapStyle.WrapOnPunctuation)))).state
        = Screenlib.ScreenState.WaitingForLine
    ∧ (Screenlib.backspaces 3 (Screenlib.inputSeq "hi".data (Screenlib.waitForLine 5
        (Screenlib.testScreen 15 4 Screenlib.WrapStyle.WrapOnPunctuation)))).scroll_buffer
        = (Screenlib.inputSeq "hi".data (Screenlib.waitForLine 5
            (Screenlib.testScreen 15 4 Screenlib.WrapStyle.WrapOnPunctuation))).scroll_buffer
    ∧ (Screenlib.testScreen 15 4 Screenlib.WrapStyle.WrapOnPunctuation).scroll_buffer_length
        ≤ (Screenlib.backspaces 3 (Screenlib.inputSeq "hi".data (Screenlib.waitForLine 5
            (Screenlib.testScreen 15 4 Screenlib.WrapStyle.WrapOnPunctuation)))).scroll_buffer_length
    ∧ (∀ i, i < (Screenlib.testScreen 15 4 Screenlib.WrapStyle.WrapOnPunctuation).scroll_buffer_length →
        (Screenlib.backspaces 3 (Screenlib.inputSeq "hi".data (Screenlib.waitForLine 5
            (Screenlib.testScreen 15 4 Screenlib.WrapStyle.WrapOnPunctuation)))).scroll_buffer.getD i ' '
          = (Screenlib.testScreen 15 4 Screenlib.WrapStyle.WrapOnPunctuation).scroll_buffer.getD i ' ')
    ∧ ((Screenlib.inputSeq "hi".data (Screenlib.waitForLine 5
          (Screenlib.testScreen 15 4 Screenlib.WrapStyle.WrapOnPunctuation))).last_input_buffer = [] →
        (Screenlib.processInput Screenlib.BACKSPACE
            (Screenlib.inputSeq "hi".data (Screenlib.waitForLine 5
              (Screenlib.testScreen 15 4 Screenlib.WrapStyle.WrapOnPunctuation)))).1.scroll_buffer
          = (Screenlib.inputSeq "hi".data (Screenlib.waitForLine 5
              (Screenlib.testScreen 15 4 Screenlib.WrapStyle.WrapOnPunctuation))).scroll_buffer
        ∧ (Screenlib.processInput Screenlib.BACKSPACE
            (Screenlib.inputSeq "hi".data (Screenlib.waitForLine 5
              (Screenlib.testScreen 15 4 Screenlib.WrapStyle.WrapOnPunctuation)))).1.scroll_buffer_length
          = (Screenlib.inputSeq "hi".data (Screenlib.waitForLine 5
              (Screenlib.testScreen 15 4 Screenlib.WrapStyle.WrapOnPunctuation))).scroll_buffer_length
        ∧ (Screenlib.processInput Screenlib.BACKSPACE
            (Screenlib.inputSeq "hi".data (Screenlib.waitForLine 5
              (Screenlib.testScreen 15 4 Screenlib.WrapStyle.WrapOnPunctuation)))).1.line_indexes
          = (Screenlib.inputSeq "hi".data (Screenlib.waitForLine 5
              (Screenlib.testScreen 15 4 Screenlib.WrapStyle.WrapOnPunctuation))).line_indexes
        ∧ (Screenlib.processInput Screenlib.BACKSPACE
            (Screenlib.inputSeq "hi".data (Screenlib.waitForLine 5
              (Screenlib.testScreen 15 4 Screenlib.WrapStyle.WrapOnPunctuation)))).1.last_input_buffer = []
        ∧ (Screenlib.processInput Screenlib.BACKSPACE
            (Screenlib.inputSeq "hi".data (Screenlib.waitForLine 5
              (Screenlib.testScreen 15 4 Screenlib.WrapStyle.WrapOnPunctuation)))).1.state
          = Screenlib.ScreenState.WaitingForLine) :=
  C5_backspace_never_before_start
    (Screenlib.testScreen 15 4 Screenlib.WrapStyle.WrapOnPunctuation) 5 3 "hi".data
    (by decide) (by decide) (by decide)
